import Mathlib

/-!
# SolarSystem-Math155A: the linear-algebra core (LinearR3.cpp, LinearR4.cpp)

A shallow embedding of the vector and matrix routines of `LinearR3.cpp` and
`LinearR4.cpp`, and of the animation clock of `SolarSystemProject.cpp`, in exact
arithmetic over an arbitrary linearly ordered field `K` (so every definition can be
run over `ℚ` and every theorem holds over `ℝ`).

Conventions of the embedding:
* a C++ object is a structure value; a mutating member function is a function
  from the receiver's old value to its new value;
* statements are translated one by one, in source order, as `let` steps;
* `cos`, `sin`, `tan` and `sqrt` of `<cmath>` are parameters of the routines that
  call them;
* a `double` is an element of `K` and its operations are exact, except in
  `InvertPosDefSafeRounded`, where each operation is followed by a rounding that is
  a parameter; an `int` is an integer, its product taken modulo `2^32`.
-/

namespace SolarSystem

set_option maxHeartbeats 1000000

/-! ## Data model -/

/-- The class `VectorR3`: three components `x`, `y`, `z`. -/
@[ext] structure VectorR3 (K : Type) where
  x : K
  y : K
  z : K

/-- The class `Matrix3x3`: nine entries `m<row><col>`. -/
@[ext] structure Matrix3x3 (K : Type) where
  m11 : K
  m12 : K
  m13 : K
  m21 : K
  m22 : K
  m23 : K
  m31 : K
  m32 : K
  m33 : K

/-- The class `LinearMapR3` derives from `Matrix3x3` and adds no data member. -/
abbrev LinearMapR3 (K : Type) : Type := Matrix3x3 K

/-- The class `Matrix4x4`: sixteen entries `m<row><col>`. -/
@[ext] structure Matrix4x4 (K : Type) where
  m11 : K
  m12 : K
  m13 : K
  m14 : K
  m21 : K
  m22 : K
  m23 : K
  m24 : K
  m31 : K
  m32 : K
  m33 : K
  m34 : K
  m41 : K
  m42 : K
  m43 : K
  m44 : K

/-- The class `LinearMapR4` derives from `Matrix4x4` and adds no data member. -/
abbrev LinearMapR4 (K : Type) : Type := Matrix4x4 K

variable {K : Type}

/-! ### Assignment to a single data member -/

/-- The assignment `x = v` on a `VectorR3`. -/
@[simp] def VectorR3.set_x (s : VectorR3 K) (v : K) : VectorR3 K := { s with x := v }

/-- The assignment `y = v` on a `VectorR3`. -/
@[simp] def VectorR3.set_y (s : VectorR3 K) (v : K) : VectorR3 K := { s with y := v }

/-- The assignment `z = v` on a `VectorR3`. -/
@[simp] def VectorR3.set_z (s : VectorR3 K) (v : K) : VectorR3 K := { s with z := v }

/-- The assignment `m11 = v` on a `Matrix3x3`. -/
@[simp] def Matrix3x3.set_m11 (s : Matrix3x3 K) (v : K) : Matrix3x3 K := { s with m11 := v }

/-- The assignment `m12 = v` on a `Matrix3x3`. -/
@[simp] def Matrix3x3.set_m12 (s : Matrix3x3 K) (v : K) : Matrix3x3 K := { s with m12 := v }

/-- The assignment `m13 = v` on a `Matrix3x3`. -/
@[simp] def Matrix3x3.set_m13 (s : Matrix3x3 K) (v : K) : Matrix3x3 K := { s with m13 := v }

/-- The assignment `m21 = v` on a `Matrix3x3`. -/
@[simp] def Matrix3x3.set_m21 (s : Matrix3x3 K) (v : K) : Matrix3x3 K := { s with m21 := v }

/-- The assignment `m22 = v` on a `Matrix3x3`. -/
@[simp] def Matrix3x3.set_m22 (s : Matrix3x3 K) (v : K) : Matrix3x3 K := { s with m22 := v }

/-- The assignment `m23 = v` on a `Matrix3x3`. -/
@[simp] def Matrix3x3.set_m23 (s : Matrix3x3 K) (v : K) : Matrix3x3 K := { s with m23 := v }

/-- The assignment `m31 = v` on a `Matrix3x3`. -/
@[simp] def Matrix3x3.set_m31 (s : Matrix3x3 K) (v : K) : Matrix3x3 K := { s with m31 := v }

/-- The assignment `m32 = v` on a `Matrix3x3`. -/
@[simp] def Matrix3x3.set_m32 (s : Matrix3x3 K) (v : K) : Matrix3x3 K := { s with m32 := v }

/-- The assignment `m33 = v` on a `Matrix3x3`. -/
@[simp] def Matrix3x3.set_m33 (s : Matrix3x3 K) (v : K) : Matrix3x3 K := { s with m33 := v }

/-- The assignment `m11 = v` on a `Matrix4x4`. -/
@[simp] def Matrix4x4.set_m11 (s : Matrix4x4 K) (v : K) : Matrix4x4 K := { s with m11 := v }

/-- The assignment `m12 = v` on a `Matrix4x4`. -/
@[simp] def Matrix4x4.set_m12 (s : Matrix4x4 K) (v : K) : Matrix4x4 K := { s with m12 := v }

/-- The assignment `m13 = v` on a `Matrix4x4`. -/
@[simp] def Matrix4x4.set_m13 (s : Matrix4x4 K) (v : K) : Matrix4x4 K := { s with m13 := v }

/-- The assignment `m14 = v` on a `Matrix4x4`. -/
@[simp] def Matrix4x4.set_m14 (s : Matrix4x4 K) (v : K) : Matrix4x4 K := { s with m14 := v }

/-- The assignment `m21 = v` on a `Matrix4x4`. -/
@[simp] def Matrix4x4.set_m21 (s : Matrix4x4 K) (v : K) : Matrix4x4 K := { s with m21 := v }

/-- The assignment `m22 = v` on a `Matrix4x4`. -/
@[simp] def Matrix4x4.set_m22 (s : Matrix4x4 K) (v : K) : Matrix4x4 K := { s with m22 := v }

/-- The assignment `m23 = v` on a `Matrix4x4`. -/
@[simp] def Matrix4x4.set_m23 (s : Matrix4x4 K) (v : K) : Matrix4x4 K := { s with m23 := v }

/-- The assignment `m24 = v` on a `Matrix4x4`. -/
@[simp] def Matrix4x4.set_m24 (s : Matrix4x4 K) (v : K) : Matrix4x4 K := { s with m24 := v }

/-- The assignment `m31 = v` on a `Matrix4x4`. -/
@[simp] def Matrix4x4.set_m31 (s : Matrix4x4 K) (v : K) : Matrix4x4 K := { s with m31 := v }

/-- The assignment `m32 = v` on a `Matrix4x4`. -/
@[simp] def Matrix4x4.set_m32 (s : Matrix4x4 K) (v : K) : Matrix4x4 K := { s with m32 := v }

/-- The assignment `m33 = v` on a `Matrix4x4`. -/
@[simp] def Matrix4x4.set_m33 (s : Matrix4x4 K) (v : K) : Matrix4x4 K := { s with m33 := v }

/-- The assignment `m34 = v` on a `Matrix4x4`. -/
@[simp] def Matrix4x4.set_m34 (s : Matrix4x4 K) (v : K) : Matrix4x4 K := { s with m34 := v }

/-- The assignment `m41 = v` on a `Matrix4x4`. -/
@[simp] def Matrix4x4.set_m41 (s : Matrix4x4 K) (v : K) : Matrix4x4 K := { s with m41 := v }

/-- The assignment `m42 = v` on a `Matrix4x4`. -/
@[simp] def Matrix4x4.set_m42 (s : Matrix4x4 K) (v : K) : Matrix4x4 K := { s with m42 := v }

/-- The assignment `m43 = v` on a `Matrix4x4`. -/
@[simp] def Matrix4x4.set_m43 (s : Matrix4x4 K) (v : K) : Matrix4x4 K := { s with m43 := v }

/-- The assignment `m44 = v` on a `Matrix4x4`. -/
@[simp] def Matrix4x4.set_m44 (s : Matrix4x4 K) (v : K) : Matrix4x4 K := { s with m44 := v }

/-- Modelled from the spec: the nine-argument constructor of `LinearMapR3`
(declared in the header `LinearR3.h`, which is not among the sources) takes the
entries column by column, as its uses in `operator*` and `Inverse` show. -/
def LinearMapR3.ofColumns (a11 a21 a31 a12 a22 a32 a13 a23 a33 : K) : LinearMapR3 K :=
  { m11 := a11, m12 := a12, m13 := a13,
    m21 := a21, m22 := a22, m23 := a23,
    m31 := a31, m32 := a32, m33 := a33 }

/-- Modelled from the spec: the sixteen-argument constructor of `LinearMapR4` /
`Matrix4x4` (declared in the header `LinearR4.h`, which is not among the
sources) takes the entries column by column, as `Inverse` against `Invert`
shows. -/
def LinearMapR4.ofColumns
    (a11 a21 a31 a41 a12 a22 a32 a42 a13 a23 a33 a43 a14 a24 a34 a44 : K) : LinearMapR4 K :=
  { m11 := a11, m12 := a12, m13 := a13, m14 := a14,
    m21 := a21, m22 := a22, m23 := a23, m24 := a24,
    m31 := a31, m32 := a32, m33 := a33, m34 := a34,
    m41 := a41, m42 := a42, m43 := a43, m44 := a44 }

variable [LinearOrderedField K]

/-- The 3x3 identity matrix (the value of the retired global
`Matrix3x3::Identity(1,0,0, 0,1,0, 0,0,1)`). -/
def Matrix3x3.Identity : Matrix3x3 K :=
  LinearMapR3.ofColumns 1 0 0 0 1 0 0 0 1

/-- The constant `Matrix4x4::Identity` of `LinearR4.cpp`. -/
def Matrix4x4.Identity : Matrix4x4 K :=
  LinearMapR4.ofColumns 1 0 0 0 0 1 0 0 0 0 1 0 0 0 0 1

/-- The mathematical matrix a `Matrix3x3` object denotes. -/
def Matrix3x3.toMatrix (M : Matrix3x3 K) : Matrix (Fin 3) (Fin 3) K :=
  !![M.m11, M.m12, M.m13; M.m21, M.m22, M.m23; M.m31, M.m32, M.m33]

/-- The mathematical matrix a `Matrix4x4` object denotes. -/
def Matrix4x4.toMatrix (M : Matrix4x4 K) : Matrix (Fin 4) (Fin 4) K :=
  !![M.m11, M.m12, M.m13, M.m14; M.m21, M.m22, M.m23, M.m24;
     M.m31, M.m32, M.m33, M.m34; M.m41, M.m42, M.m43, M.m44]

/-! ## LinearMapR3: determinant and general inverse -/

/-- The member function `LinearMapR3::Determinant` (LinearR3.cpp, lines 296-301). -/
def LinearMapR3.Determinant (M : LinearMapR3 K) : K :=
  M.m11 * (M.m22 * M.m33 - M.m23 * M.m32)
    - M.m12 * (M.m21 * M.m33 - M.m31 * M.m23)
    + M.m13 * (M.m21 * M.m23 - M.m31 * M.m22)

/-- The first-row cofactor expansion of the determinant, in the words of the
specification. -/
def cofactorExpansion3 (M : Matrix3x3 K) : K :=
  M.m11 * (M.m22 * M.m33 - M.m23 * M.m32)
    - M.m12 * (M.m21 * M.m33 - M.m23 * M.m31)
    + M.m13 * (M.m21 * M.m32 - M.m22 * M.m31)

/-- A matrix on which the determinant routine and the cofactor expansion part. -/
def detProbe : LinearMapR3 ℚ :=
  { m11 := 0, m12 := 0, m13 := 1,
    m21 := 1, m22 := 0, m23 := 0,
    m31 := 0, m32 := 1, m33 := 0 }

/-- The free function `operator*(const LinearMapR3& A, const LinearMapR3& B)`
(LinearR3.cpp, lines 283-294). -/
def LinearMapR3.operatorTimes (A B : LinearMapR3 K) : LinearMapR3 K :=
  LinearMapR3.ofColumns
    (A.m11 * B.m11 + A.m12 * B.m21 + A.m13 * B.m31)
    (A.m21 * B.m11 + A.m22 * B.m21 + A.m23 * B.m31)
    (A.m31 * B.m11 + A.m32 * B.m21 + A.m33 * B.m31)
    (A.m11 * B.m12 + A.m12 * B.m22 + A.m13 * B.m32)
    (A.m21 * B.m12 + A.m22 * B.m22 + A.m23 * B.m32)
    (A.m31 * B.m12 + A.m32 * B.m22 + A.m33 * B.m32)
    (A.m11 * B.m13 + A.m12 * B.m23 + A.m13 * B.m33)
    (A.m21 * B.m13 + A.m22 * B.m23 + A.m23 * B.m33)
    (A.m31 * B.m13 + A.m32 * B.m23 + A.m33 * B.m33)

/-- The member function `LinearMapR3::Inverse` (LinearR3.cpp, lines 303-320). -/
def LinearMapR3.Inverse (M : LinearMapR3 K) : LinearMapR3 K :=
  let sd11 := M.m22 * M.m33 - M.m23 * M.m32
  let sd21 := M.m32 * M.m13 - M.m12 * M.m33
  let sd31 := M.m12 * M.m23 - M.m22 * M.m13
  let sd12 := M.m31 * M.m23 - M.m21 * M.m33
  let sd22 := M.m11 * M.m33 - M.m31 * M.m13
  let sd32 := M.m21 * M.m13 - M.m11 * M.m23
  let sd13 := M.m21 * M.m32 - M.m31 * M.m22
  let sd23 := M.m31 * M.m12 - M.m11 * M.m32
  let sd33 := M.m11 * M.m22 - M.m21 * M.m12
  let detInv := 1 / (M.m11 * sd11 + M.m12 * sd12 + M.m13 * sd13)
  LinearMapR3.ofColumns (sd11 * detInv) (sd12 * detInv) (sd13 * detInv)
    (sd21 * detInv) (sd22 * detInv) (sd23 * detInv)
    (sd31 * detInv) (sd32 * detInv) (sd33 * detInv)

/-! ## Matrix3x3 and Matrix4x4: in-place products

The argument of an in-place product is a reference `const Matrix& B`: each use
of `B.mij` reads the referenced storage at that moment.  The embedding takes a
function `B` giving the contents of the referenced object as a function of the
receiver's current contents: constant when the argument is a distinct object,
the identity function when the argument is the receiver itself. -/

/-- The member function `Matrix3x3::OperatorTimesEquals` (LinearR3.cpp, lines
151-172), statement by statement, reading the argument through `B`. -/
def Matrix3x3.OperatorTimesEqualsOn (B : Matrix3x3 K → Matrix3x3 K) (s : Matrix3x3 K) :
    Matrix3x3 K :=
  let t1 := s.m11 * (B s).m11 + s.m12 * (B s).m21 + s.m13 * (B s).m31
  let t2 := s.m11 * (B s).m12 + s.m12 * (B s).m22 + s.m13 * (B s).m32
  let s := s.set_m13 (s.m11 * (B s).m13 + s.m12 * (B s).m23 + s.m13 * (B s).m33)
  let s := s.set_m11 t1
  let s := s.set_m12 t2
  let t1 := s.m21 * (B s).m11 + s.m22 * (B s).m21 + s.m23 * (B s).m31
  let t2 := s.m21 * (B s).m12 + s.m22 * (B s).m22 + s.m23 * (B s).m32
  let s := s.set_m23 (s.m21 * (B s).m13 + s.m22 * (B s).m23 + s.m23 * (B s).m33)
  let s := s.set_m21 t1
  let s := s.set_m22 t2
  let t1 := s.m31 * (B s).m11 + s.m32 * (B s).m21 + s.m33 * (B s).m31
  let t2 := s.m31 * (B s).m12 + s.m32 * (B s).m22 + s.m33 * (B s).m32
  let s := s.set_m33 (s.m31 * (B s).m13 + s.m32 * (B s).m23 + s.m33 * (B s).m33)
  let s := s.set_m31 t1
  let s := s.set_m32 t2
  s

/-- The call `A.OperatorTimesEquals(B)` with `B` an object distinct from `A`. -/
def Matrix3x3.OperatorTimesEquals (A B : Matrix3x3 K) : Matrix3x3 K :=
  Matrix3x3.OperatorTimesEqualsOn (fun _ => B) A

/-- The call `A.OperatorTimesEquals(A)`: the argument is the receiver itself. -/
def Matrix3x3.OperatorTimesEqualsSelf (A : Matrix3x3 K) : Matrix3x3 K :=
  Matrix3x3.OperatorTimesEqualsOn (fun s => s) A

/-- The member function `Matrix4x4::operator*=` (LinearR4.cpp, lines 62-96),
statement by statement, reading the argument through `B`. -/
def Matrix4x4.operatorTimesEqualsOn (B : Matrix4x4 K → Matrix4x4 K) (s : Matrix4x4 K) :
    Matrix4x4 K :=
  let t1 := s.m11 * (B s).m11 + s.m12 * (B s).m21 + s.m13 * (B s).m31 + s.m14 * (B s).m41
  let t2 := s.m11 * (B s).m12 + s.m12 * (B s).m22 + s.m13 * (B s).m32 + s.m14 * (B s).m42
  let t3 := s.m11 * (B s).m13 + s.m12 * (B s).m23 + s.m13 * (B s).m33 + s.m14 * (B s).m43
  let s := s.set_m14
    (s.m11 * (B s).m14 + s.m12 * (B s).m24 + s.m13 * (B s).m34 + s.m14 * (B s).m44)
  let s := s.set_m11 t1
  let s := s.set_m12 t2
  let s := s.set_m13 t3
  let t1 := s.m21 * (B s).m11 + s.m22 * (B s).m21 + s.m23 * (B s).m31 + s.m24 * (B s).m41
  let t2 := s.m21 * (B s).m12 + s.m22 * (B s).m22 + s.m23 * (B s).m32 + s.m24 * (B s).m42
  let t3 := s.m21 * (B s).m13 + s.m22 * (B s).m23 + s.m23 * (B s).m33 + s.m24 * (B s).m43
  let s := s.set_m24
    (s.m21 * (B s).m14 + s.m22 * (B s).m24 + s.m23 * (B s).m34 + s.m24 * (B s).m44)
  let s := s.set_m21 t1
  let s := s.set_m22 t2
  let s := s.set_m23 t3
  let t1 := s.m31 * (B s).m11 + s.m32 * (B s).m21 + s.m33 * (B s).m31 + s.m34 * (B s).m41
  let t2 := s.m31 * (B s).m12 + s.m32 * (B s).m22 + s.m33 * (B s).m32 + s.m34 * (B s).m42
  let t3 := s.m31 * (B s).m13 + s.m32 * (B s).m23 + s.m33 * (B s).m33 + s.m34 * (B s).m43
  let s := s.set_m34
    (s.m31 * (B s).m14 + s.m32 * (B s).m24 + s.m33 * (B s).m34 + s.m34 * (B s).m44)
  let s := s.set_m31 t1
  let s := s.set_m32 t2
  let s := s.set_m33 t3
  let t1 := s.m41 * (B s).m11 + s.m42 * (B s).m21 + s.m43 * (B s).m31 + s.m44 * (B s).m41
  let t2 := s.m41 * (B s).m12 + s.m42 * (B s).m22 + s.m43 * (B s).m32 + s.m44 * (B s).m42
  let t3 := s.m41 * (B s).m13 + s.m42 * (B s).m23 + s.m43 * (B s).m33 + s.m44 * (B s).m43
  let s := s.set_m44
    (s.m41 * (B s).m14 + s.m42 * (B s).m24 + s.m43 * (B s).m34 + s.m44 * (B s).m44)
  let s := s.set_m41 t1
  let s := s.set_m42 t2
  let s := s.set_m43 t3
  s

/-- The statement `A *= B` with `B` an object distinct from `A`. -/
def Matrix4x4.operatorTimesEquals (A B : Matrix4x4 K) : Matrix4x4 K :=
  Matrix4x4.operatorTimesEqualsOn (fun _ => B) A

/-- The statement `A *= A`: the argument is the receiver itself. -/
def Matrix4x4.operatorTimesEqualsSelf (A : Matrix4x4 K) : Matrix4x4 K :=
  Matrix4x4.operatorTimesEqualsOn (fun s => s) A

/-! ## LinearMapR4: general inverse -/

/-- The member function `LinearMapR4::Inverse` (LinearR4.cpp, lines 173-219). -/
def LinearMapR4.Inverse (M : LinearMapR4 K) : LinearMapR4 K :=
  let Tbt34C12 := M.m31 * M.m42 - M.m32 * M.m41
  let Tbt34C13 := M.m31 * M.m43 - M.m33 * M.m41
  let Tbt34C14 := M.m31 * M.m44 - M.m34 * M.m41
  let Tbt34C23 := M.m32 * M.m43 - M.m33 * M.m42
  let Tbt34C24 := M.m32 * M.m44 - M.m34 * M.m42
  let Tbt34C34 := M.m33 * M.m44 - M.m34 * M.m43
  let Tbt24C12 := M.m21 * M.m42 - M.m22 * M.m41
  let Tbt24C13 := M.m21 * M.m43 - M.m23 * M.m41
  let Tbt24C14 := M.m21 * M.m44 - M.m24 * M.m41
  let Tbt24C23 := M.m22 * M.m43 - M.m23 * M.m42
  let Tbt24C24 := M.m22 * M.m44 - M.m24 * M.m42
  let Tbt24C34 := M.m23 * M.m44 - M.m24 * M.m43
  let Tbt23C12 := M.m21 * M.m32 - M.m22 * M.m31
  let Tbt23C13 := M.m21 * M.m33 - M.m23 * M.m31
  let Tbt23C14 := M.m21 * M.m34 - M.m24 * M.m31
  let Tbt23C23 := M.m22 * M.m33 - M.m23 * M.m32
  let Tbt23C24 := M.m22 * M.m34 - M.m24 * M.m32
  let Tbt23C34 := M.m23 * M.m34 - M.m24 * M.m33
  let sd11 := M.m22 * Tbt34C34 - M.m23 * Tbt34C24 + M.m24 * Tbt34C23
  let sd12 := M.m21 * Tbt34C34 - M.m23 * Tbt34C14 + M.m24 * Tbt34C13
  let sd13 := M.m21 * Tbt34C24 - M.m22 * Tbt34C14 + M.m24 * Tbt34C12
  let sd14 := M.m21 * Tbt34C23 - M.m22 * Tbt34C13 + M.m23 * Tbt34C12
  let sd21 := M.m12 * Tbt34C34 - M.m13 * Tbt34C24 + M.m14 * Tbt34C23
  let sd22 := M.m11 * Tbt34C34 - M.m13 * Tbt34C14 + M.m14 * Tbt34C13
  let sd23 := M.m11 * Tbt34C24 - M.m12 * Tbt34C14 + M.m14 * Tbt34C12
  let sd24 := M.m11 * Tbt34C23 - M.m12 * Tbt34C13 + M.m13 * Tbt34C12
  let sd31 := M.m12 * Tbt24C34 - M.m13 * Tbt24C24 + M.m14 * Tbt24C23
  let sd32 := M.m11 * Tbt24C34 - M.m13 * Tbt24C14 + M.m14 * Tbt24C13
  let sd33 := M.m11 * Tbt24C24 - M.m12 * Tbt24C14 + M.m14 * Tbt24C12
  let sd34 := M.m11 * Tbt24C23 - M.m12 * Tbt24C13 + M.m13 * Tbt24C12
  let sd41 := M.m12 * Tbt23C34 - M.m13 * Tbt23C24 + M.m14 * Tbt23C23
  let sd42 := M.m11 * Tbt23C34 - M.m13 * Tbt23C14 + M.m14 * Tbt23C13
  let sd43 := M.m11 * Tbt23C24 - M.m12 * Tbt23C14 + M.m14 * Tbt23C12
  let sd44 := M.m11 * Tbt23C23 - M.m12 * Tbt23C13 + M.m13 * Tbt23C12
  let detInv := 1 / (M.m11 * sd11 - M.m12 * sd12 + M.m13 * sd13 - M.m14 * sd14)
  LinearMapR4.ofColumns (sd11 * detInv) (-sd12 * detInv) (sd13 * detInv) (-sd14 * detInv)
    (-sd21 * detInv) (sd22 * detInv) (-sd23 * detInv) (sd24 * detInv)
    (sd31 * detInv) (-sd32 * detInv) (sd33 * detInv) (-sd34 * detInv)
    (-sd41 * detInv) (sd42 * detInv) (-sd43 * detInv) (sd44 * detInv)

/-! ## LinearMapR3: inverse of a symmetric positive-definite matrix

The routines carry `assert` statements.  An `assert` is compiled out of a
release build, so each routine is embedded as the function it computes, with
the conjunction of its assertions as a separate predicate over the same
locals. -/

/-- The member function `LinearMapR3::InversePosDef(LinearMapR3* inverse)`
(LinearR3.cpp, lines 418-449); `inverse` is the content of the pointed-to
object before the call, the result its content after the call. -/
def LinearMapR3.InversePosDefInto (M : LinearMapR3 K) (inverse : LinearMapR3 K) :
    LinearMapR3 K :=
  let d1 := 1 / M.m11
  let a := M.m12 * d1
  let b := M.m13 * d1
  let u22star := M.m22 - M.m12 * a
  let u23star := M.m23 - M.m13 * a
  let u33star := M.m33 - M.m13 * b
  let d2 := 1 / u22star
  let c := u23star * d2
  let u33starstar := u33star - u23star * c
  let d3 := 1 / u33starstar
  let inverse := inverse.set_m33 d3
  let inverse := inverse.set_m32 (-c * d3)
  let inverse := inverse.set_m23 inverse.m32
  let inverse := inverse.set_m22 (d2 - c * inverse.m23)
  let acminusb := a * c - b
  let inverse := inverse.set_m31 (acminusb * d3)
  let inverse := inverse.set_m13 inverse.m31
  let ad2 := a * d2
  let inverse := inverse.set_m21 (-c * inverse.m13 - ad2)
  let inverse := inverse.set_m12 inverse.m21
  let inverse := inverse.set_m11 (d1 + a * ad2 + acminusb * inverse.m13)
  inverse

/-- The assertions of `LinearMapR3::InversePosDef(LinearMapR3*)`:
`m11>0.0`, `u22star>0.0`, `u33starstar>0.0`. -/
def LinearMapR3.InversePosDefAsserts (M : LinearMapR3 K) : Prop :=
  let d1 := 1 / M.m11
  let a := M.m12 * d1
  let b := M.m13 * d1
  let u22star := M.m22 - M.m12 * a
  let u23star := M.m23 - M.m13 * a
  let u33star := M.m33 - M.m13 * b
  let d2 := 1 / u22star
  let c := u23star * d2
  let u33starstar := u33star - u23star * c
  M.m11 > 0 ∧ u22star > 0 ∧ u33starstar > 0

instance (M : LinearMapR3 K) : Decidable (LinearMapR3.InversePosDefAsserts M) := by
  unfold LinearMapR3.InversePosDefAsserts
  infer_instance

/-- The member function `LinearMapR3::InversePosDef()` (LinearR3.cpp, lines
408-413): `LinearMapR3 ret; InversePosDef(&ret); return ret;`.  The default
constructor is declared in the missing header, so the default-constructed
value `ret` is a parameter. -/
def LinearMapR3.InversePosDef (ret : LinearMapR3 K) (M : LinearMapR3 K) : LinearMapR3 K :=
  LinearMapR3.InversePosDefInto M ret

/-- The member function `LinearMapR3::InvertPosDef` (LinearR3.cpp, lines 454-485). -/
def LinearMapR3.InvertPosDef (s : LinearMapR3 K) : LinearMapR3 K :=
  let d1 := 1 / s.m11
  let a := s.m12 * d1
  let b := s.m13 * d1
  let u22star := s.m22 - s.m12 * a
  let u23star := s.m23 - s.m12 * b
  let u33star := s.m33 - s.m13 * b
  let d2 := 1 / u22star
  let c := u23star * d2
  let u33starstar := u33star - u23star * c
  let d3 := 1 / u33starstar
  let s := s.set_m33 d3
  let s := s.set_m32 (-c * d3)
  let s := s.set_m23 s.m32
  let s := s.set_m22 (d2 - c * s.m23)
  let acminusb := a * c - b
  let s := s.set_m31 (acminusb * d3)
  let s := s.set_m13 s.m31
  let ad2 := a * d2
  let s := s.set_m21 (-c * s.m13 - ad2)
  let s := s.set_m12 s.m21
  let s := s.set_m11 (d1 + a * ad2 + acminusb * s.m13)
  s

/-- The assertions of `LinearMapR3::InvertPosDef`:
`m11>0.0`, `u22star>0.0`, `u33starstar>0.0`. -/
def LinearMapR3.InvertPosDefAsserts (s : LinearMapR3 K) : Prop :=
  let d1 := 1 / s.m11
  let a := s.m12 * d1
  let b := s.m13 * d1
  let u22star := s.m22 - s.m12 * a
  let u23star := s.m23 - s.m12 * b
  let u33star := s.m33 - s.m13 * b
  let d2 := 1 / u22star
  let c := u23star * d2
  let u33starstar := u33star - u23star * c
  s.m11 > 0 ∧ u22star > 0 ∧ u33starstar > 0

instance (s : LinearMapR3 K) : Decidable (LinearMapR3.InvertPosDefAsserts s) := by
  unfold LinearMapR3.InvertPosDefAsserts
  infer_instance

/-- Modelled from the spec: the function template `Max` of the header `MathMisc.h`,
which is not among the sources; it returns the larger of its two arguments, so that
`Max(epsilon, p)` clamps the pivot `p` to be at least `epsilon`. -/
def Max (x y : K) : K := if x > y then x else y

/-- The member function `LinearMapR3::InvertPosDefSafe` (LinearR3.cpp, lines 495-533),
in exact arithmetic: here `1.0e-5*trace` is positive for every positive trace, which
the `double` product is not when it underflows.  `InvertPosDefSafeRounded` is the
same routine with the roundings as parameters. -/
def LinearMapR3.InvertPosDefSafe (s : LinearMapR3 K) : LinearMapR3 K :=
  let trace := s.m11 + s.m22 + s.m33
  let epsilon := 1.0e-5 * trace
  let s := s.set_m11 (Max epsilon s.m11)
  let d1 := 1 / s.m11
  let a := s.m12 * d1
  let b := s.m13 * d1
  let u22star := s.m22 - s.m12 * a
  let u23star := s.m23 - s.m12 * b
  let u33star := s.m33 - s.m13 * b
  let u22star := Max epsilon u22star
  let d2 := 1 / u22star
  let c := u23star * d2
  let u33starstar := u33star - u23star * c
  let u33starstar := Max epsilon u33starstar
  let d3 := 1 / u33starstar
  let s := s.set_m33 d3
  let s := s.set_m32 (-c * d3)
  let s := s.set_m23 s.m32
  let s := s.set_m22 (d2 - c * s.m23)
  let acminusb := a * c - b
  let s := s.set_m31 (acminusb * d3)
  let s := s.set_m13 s.m31
  let ad2 := a * d2
  let s := s.set_m21 (-c * s.m13 - ad2)
  let s := s.set_m12 s.m21
  let s := s.set_m11 (d1 + a * ad2 + acminusb * s.m13)
  s

/-- The assertions of `LinearMapR3::InvertPosDefSafe`, each on the values its
operands have where it stands: `trace>=0.0`, `m11 > -epsilon`,
`u22star > -epsilon`, `u33starstar > - epsilon`. -/
def LinearMapR3.InvertPosDefSafeAsserts (s : LinearMapR3 K) : Prop :=
  let trace := s.m11 + s.m22 + s.m33
  let epsilon := 1.0e-5 * trace
  let assert2 := s.m11 > -epsilon
  let s := s.set_m11 (Max epsilon s.m11)
  let d1 := 1 / s.m11
  let a := s.m12 * d1
  let b := s.m13 * d1
  let u22star := s.m22 - s.m12 * a
  let u23star := s.m23 - s.m12 * b
  let u33star := s.m33 - s.m13 * b
  let assert3 := u22star > -epsilon
  let u22star := Max epsilon u22star
  let d2 := 1 / u22star
  let c := u23star * d2
  let u33starstar := u33star - u23star * c
  let assert4 := u33starstar > -epsilon
  trace ≥ 0 ∧ assert2 ∧ assert3 ∧ assert4

instance (s : LinearMapR3 K) : Decidable (LinearMapR3.InvertPosDefSafeAsserts s) := by
  unfold LinearMapR3.InvertPosDefSafeAsserts
  infer_instance

/-- The three numbers `LinearMapR3::InvertPosDefSafe` divides by, in source order:
`m11`, `u22star` and `u33starstar`, each after its `Max`. -/
def LinearMapR3.InvertPosDefSafeDivisors (s : LinearMapR3 K) : K × K × K :=
  let trace := s.m11 + s.m22 + s.m33
  let epsilon := 1.0e-5 * trace
  let s := s.set_m11 (Max epsilon s.m11)
  let d1 := 1 / s.m11
  let a := s.m12 * d1
  let b := s.m13 * d1
  let u22star := s.m22 - s.m12 * a
  let u23star := s.m23 - s.m12 * b
  let u33star := s.m33 - s.m13 * b
  let u22star := Max epsilon u22star
  let d2 := 1 / u22star
  let c := u23star * d2
  let u33starstar := u33star - u23star * c
  let u33starstar := Max epsilon u33starstar
  (s.m11, u22star, u33starstar)

/-- The matrix `diag(1, 1, -1e-7)`: one eigenvalue slightly negative. -/
def slightlyIndefinite : LinearMapR3 K :=
  { m11 := 1, m12 := 0, m13 := 0,
    m21 := 0, m22 := 1, m23 := 0,
    m31 := 0, m32 := 0, m33 := -1.0e-7 }

/-! ## VectorR3: rotation about an axis

`Rotate` calls `cos` and `sin` of `<cmath>`; they are the parameters `cos` and
`sin` of the embedding. -/

/-- Modelled from the spec: the member function `VectorR3::NormSq` of the header
`LinearR3.h`, which is not among the sources: the squared Euclidean length. -/
def VectorR3.NormSq (v : VectorR3 K) : K :=
  v.x * v.x + v.y * v.y + v.z * v.z

/-- The member function `VectorR3::Rotate` (LinearR3.cpp, lines 65-85); `v` is the
receiver before the call, the result the receiver after it. -/
def VectorR3.Rotate (cos sin : K → K) (v : VectorR3 K) (theta : K) (w : VectorR3 K) :
    VectorR3 K :=
  let c := cos theta
  let s := sin theta
  let dotw := v.x * w.x + v.y * w.y + v.z * w.z
  let v0x := dotw * w.x
  let v0y := dotw * w.y
  let v0z := dotw * w.z
  let v1x := v.x - v0x
  let v1y := v.y - v0y
  let v1z := v.z - v0z
  let v2x := w.y * v1z - w.z * v1y
  let v2y := w.z * v1x - w.x * v1z
  let v2z := w.x * v1y - w.y * v1x
  let v := v.set_x (v0x + c * v1x + s * v2x)
  let v := v.set_y (v0y + c * v1y + s * v2y)
  let v := v.set_z (v0z + c * v1z + s * v2z)
  v

/-- A stand-in for `cos` over `ℚ`: the first coordinate of the rational
parametrisation of the unit circle. -/
def ratCos (t : ℚ) : ℚ := (1 - t * t) / (1 + t * t)

/-- A stand-in for `sin` over `ℚ`: the second coordinate of the rational
parametrisation of the unit circle. -/
def ratSin (t : ℚ) : ℚ := 2 * t / (1 + t * t)

/-- A vector of `ℚ³`. -/
def sampleVec : VectorR3 ℚ := { x := 1, y := 2, z := 3 }

/-- A unit vector of `ℚ³`. -/
def sampleAxis : VectorR3 ℚ := { x := 0, y := 3 / 5, z := 4 / 5 }

/-! ## ReNormalize -/

/-- The member function `Matrix3x3::ReNormalize` (LinearR3.cpp, lines 109-149). -/
def Matrix3x3.ReNormalize (s : Matrix3x3 K) : Matrix3x3 K :=
  let alpha := s.m11 * s.m11 + s.m21 * s.m21 + s.m31 * s.m31
  let beta := s.m12 * s.m12 + s.m22 * s.m22 + s.m32 * s.m32
  let gamma := s.m13 * s.m13 + s.m23 * s.m23 + s.m33 * s.m33
  let alpha := 1.0 - 0.5 * (alpha - 1.0)
  let beta := 1.0 - 0.5 * (beta - 1.0)
  let gamma := 1.0 - 0.5 * (gamma - 1.0)
  let s := s.set_m11 (s.m11 * alpha)
  let s := s.set_m21 (s.m21 * alpha)
  let s := s.set_m31 (s.m31 * alpha)
  let s := s.set_m12 (s.m12 * beta)
  let s := s.set_m22 (s.m22 * beta)
  let s := s.set_m32 (s.m32 * beta)
  let s := s.set_m13 (s.m13 * gamma)
  let s := s.set_m23 (s.m23 * gamma)
  let s := s.set_m33 (s.m33 * gamma)
  let alpha := s.m11 * s.m12 + s.m21 * s.m22 + s.m31 * s.m32
  let beta := s.m11 * s.m13 + s.m21 * s.m23 + s.m31 * s.m33
  let gamma := s.m12 * s.m13 + s.m22 * s.m23 + s.m32 * s.m33
  let alpha := alpha * 0.5
  let beta := beta * 0.5
  let gamma := gamma * 0.5
  let temp1 := s.m11 - alpha * s.m12 - beta * s.m13
  let temp2 := s.m12 - alpha * s.m11 - gamma * s.m13
  let s := s.set_m13 (s.m13 - (beta * s.m11 + gamma * s.m12))
  let s := s.set_m11 temp1
  let s := s.set_m12 temp2
  let temp1 := s.m21 - alpha * s.m22 - beta * s.m23
  let temp2 := s.m22 - alpha * s.m21 - gamma * s.m23
  let s := s.set_m23 (s.m23 - (beta * s.m21 + gamma * s.m22))
  let s := s.set_m21 temp1
  let s := s.set_m22 temp2
  let temp1 := s.m31 - alpha * s.m32 - beta * s.m33
  let temp2 := s.m32 - alpha * s.m31 - gamma * s.m33
  let s := s.set_m33 (s.m33 - (beta * s.m31 + gamma * s.m32))
  let s := s.set_m31 temp1
  let s := s.set_m32 temp2
  s

/-- The inline function `ReNormalizeHelper` (LinearR4.cpp, lines 98-106); the four
reference parameters come back as the result. -/
def ReNormalizeHelper (a b c d : K) : K × K × K × K :=
  let scaleF := a * a + b * b + c * c + d * d
  let scaleF := 1.0 - 0.5 * (scaleF - 1.0)
  let a := a * scaleF
  let b := b * scaleF
  let c := c * scaleF
  let d := d * scaleF
  (a, b, c, d)

/-- The member function `Matrix4x4::ReNormalize` (LinearR4.cpp, lines 108-149). -/
def Matrix4x4.ReNormalize (s : Matrix4x4 K) : Matrix4x4 K :=
  let r := ReNormalizeHelper s.m11 s.m21 s.m31 s.m41
  let s := (((s.set_m11 r.1).set_m21 r.2.1).set_m31 r.2.2.1).set_m41 r.2.2.2
  let r := ReNormalizeHelper s.m12 s.m22 s.m32 s.m42
  let s := (((s.set_m12 r.1).set_m22 r.2.1).set_m32 r.2.2.1).set_m42 r.2.2.2
  let r := ReNormalizeHelper s.m13 s.m23 s.m33 s.m43
  let s := (((s.set_m13 r.1).set_m23 r.2.1).set_m33 r.2.2.1).set_m43 r.2.2.2
  let r := ReNormalizeHelper s.m14 s.m24 s.m34 s.m44
  let s := (((s.set_m14 r.1).set_m24 r.2.1).set_m34 r.2.2.1).set_m44 r.2.2.2
  let alpha := 0.5 * (s.m11 * s.m12 + s.m21 * s.m22 + s.m31 * s.m32 + s.m41 * s.m42)
  let beta := 0.5 * (s.m11 * s.m13 + s.m21 * s.m23 + s.m31 * s.m33 + s.m41 * s.m43)
  let gamma := 0.5 * (s.m11 * s.m14 + s.m21 * s.m24 + s.m31 * s.m34 + s.m41 * s.m44)
  let delta := 0.5 * (s.m12 * s.m13 + s.m22 * s.m23 + s.m32 * s.m33 + s.m42 * s.m43)
  let eps := 0.5 * (s.m12 * s.m14 + s.m22 * s.m24 + s.m32 * s.m34 + s.m42 * s.m44)
  let phi := 0.5 * (s.m13 * s.m14 + s.m23 * s.m24 + s.m33 * s.m34 + s.m43 * s.m44)
  let temp1 := s.m11 - alpha * s.m12 - beta * s.m13 - gamma * s.m14
  let temp2 := s.m12 - alpha * s.m11 - delta * s.m13 - eps * s.m14
  let temp3 := s.m13 - beta * s.m11 - delta * s.m12 - phi * s.m14
  let s := s.set_m14 (s.m14 - (gamma * s.m11 + eps * s.m12 + phi * s.m13))
  let s := s.set_m11 temp1
  let s := s.set_m12 temp2
  let s := s.set_m13 temp3
  let temp1 := s.m21 - alpha * s.m22 - beta * s.m23 - gamma * s.m24
  let temp2 := s.m22 - alpha * s.m21 - delta * s.m23 - eps * s.m24
  let temp3 := s.m23 - beta * s.m21 - delta * s.m22 - phi * s.m24
  let s := s.set_m24 (s.m24 - (gamma * s.m21 + eps * s.m22 + phi * s.m23))
  let s := s.set_m21 temp1
  let s := s.set_m22 temp2
  let s := s.set_m23 temp3
  let temp1 := s.m31 - alpha * s.m32 - beta * s.m33 - gamma * s.m34
  let temp2 := s.m32 - alpha * s.m31 - delta * s.m33 - eps * s.m34
  let temp3 := s.m33 - beta * s.m31 - delta * s.m32 - phi * s.m34
  let s := s.set_m34 (s.m34 - (gamma * s.m31 + eps * s.m32 + phi * s.m33))
  let s := s.set_m31 temp1
  let s := s.set_m32 temp2
  let s := s.set_m33 temp3
  let temp1 := s.m41 - alpha * s.m42 - beta * s.m43 - gamma * s.m44
  let temp2 := s.m42 - alpha * s.m41 - delta * s.m43 - eps * s.m44
  let temp3 := s.m43 - beta * s.m41 - delta * s.m42 - phi * s.m44
  let s := s.set_m44 (s.m44 - (gamma * s.m41 + eps * s.m42 + phi * s.m43))
  let s := s.set_m41 temp1
  let s := s.set_m42 temp2
  let s := s.set_m43 temp3
  s

/-- Squared Euclidean norm of column `j` of a 3x3 matrix, `j = 1, 2, 3`. -/
def Matrix3x3.colNormSq (M : Matrix3x3 K) : Fin 3 → K
  | 0 => M.m11 * M.m11 + M.m21 * M.m21 + M.m31 * M.m31
  | 1 => M.m12 * M.m12 + M.m22 * M.m22 + M.m32 * M.m32
  | 2 => M.m13 * M.m13 + M.m23 * M.m23 + M.m33 * M.m33

/-- The columns of a 3x3 matrix are mutually orthogonal: the three pairwise dot
products are zero. -/
def Matrix3x3.ColumnsOrthogonal (M : Matrix3x3 K) : Prop :=
  M.m11 * M.m12 + M.m21 * M.m22 + M.m31 * M.m32 = 0 ∧
    M.m11 * M.m13 + M.m21 * M.m23 + M.m31 * M.m33 = 0 ∧
    M.m12 * M.m13 + M.m22 * M.m23 + M.m32 * M.m33 = 0

instance (M : Matrix3x3 K) : Decidable (Matrix3x3.ColumnsOrthogonal M) := by
  unfold Matrix3x3.ColumnsOrthogonal
  infer_instance

/-- The columns of a 3x3 matrix are orthonormal: unit length, pairwise dot
product zero. -/
def Matrix3x3.ColumnsOrthonormal (M : Matrix3x3 K) : Prop :=
  (∀ j, Matrix3x3.colNormSq M j = 1) ∧ Matrix3x3.ColumnsOrthogonal M

/-- The columns of a 4x4 matrix are orthonormal: unit length, pairwise dot
product zero. -/
def Matrix4x4.ColumnsOrthonormal (M : Matrix4x4 K) : Prop :=
  (M.m11 * M.m11 + M.m21 * M.m21 + M.m31 * M.m31 + M.m41 * M.m41 = 1 ∧
    M.m12 * M.m12 + M.m22 * M.m22 + M.m32 * M.m32 + M.m42 * M.m42 = 1 ∧
    M.m13 * M.m13 + M.m23 * M.m23 + M.m33 * M.m33 + M.m43 * M.m43 = 1 ∧
    M.m14 * M.m14 + M.m24 * M.m24 + M.m34 * M.m34 + M.m44 * M.m44 = 1) ∧
  (M.m11 * M.m12 + M.m21 * M.m22 + M.m31 * M.m32 + M.m41 * M.m42 = 0 ∧
    M.m11 * M.m13 + M.m21 * M.m23 + M.m31 * M.m33 + M.m41 * M.m43 = 0 ∧
    M.m11 * M.m14 + M.m21 * M.m24 + M.m31 * M.m34 + M.m41 * M.m44 = 0 ∧
    M.m12 * M.m13 + M.m22 * M.m23 + M.m32 * M.m33 + M.m42 * M.m43 = 0 ∧
    M.m12 * M.m14 + M.m22 * M.m24 + M.m32 * M.m34 + M.m42 * M.m44 = 0 ∧
    M.m13 * M.m14 + M.m23 * M.m24 + M.m33 * M.m34 + M.m43 * M.m44 = 0)

instance (M : Matrix4x4 K) : Decidable (Matrix4x4.ColumnsOrthonormal M) := by
  unfold Matrix4x4.ColumnsOrthonormal
  infer_instance

/-- A 3x3 rotation matrix over `ℚ` (orthonormal columns). -/
def sampleRot3 : Matrix3x3 ℚ :=
  { m11 := 3 / 5, m12 := -4 / 5, m13 := 0,
    m21 := 4 / 5, m22 := 3 / 5, m23 := 0,
    m31 := 0, m32 := 0, m33 := 1 }

/-- A 4x4 rotation matrix over `ℚ` (orthonormal columns). -/
def sampleRot4 : Matrix4x4 ℚ :=
  { m11 := 3 / 5, m12 := -4 / 5, m13 := 0, m14 := 0,
    m21 := 4 / 5, m22 := 3 / 5, m23 := 0, m24 := 0,
    m31 := 0, m32 := 0, m33 := 0, m34 := -1,
    m41 := 0, m42 := 0, m43 := 1, m44 := 0 }

/-- A 3x3 matrix over `ℚ` with mutually orthogonal columns of squared norms
`1/4`, `25/16` and `25/16`. -/
def sampleDrift3 : Matrix3x3 ℚ :=
  { m11 := 1 / 2, m12 := 0, m13 := 0,
    m21 := 0, m22 := 1, m23 := -3 / 4,
    m31 := 0, m32 := 3 / 4, m33 := 1 }

/-- A 3x3 matrix is symmetric. -/
def Matrix3x3.IsSymmetric (M : Matrix3x3 K) : Prop :=
  M.m12 = M.m21 ∧ M.m13 = M.m31 ∧ M.m23 = M.m32

instance (M : Matrix3x3 K) : Decidable (Matrix3x3.IsSymmetric M) := by
  unfold Matrix3x3.IsSymmetric
  infer_instance

/-- The quadratic form `vᵗ M v` of a 3x3 matrix at `v = (x, y, z)`. -/
def Matrix3x3.quadForm (M : Matrix3x3 K) (x y z : K) : K :=
  x * (M.m11 * x + M.m12 * y + M.m13 * z)
    + y * (M.m21 * x + M.m22 * y + M.m23 * z)
    + z * (M.m31 * x + M.m32 * y + M.m33 * z)

/-- A 3x3 matrix is symmetric positive-definite: it is symmetric and its
quadratic form is strictly positive at every non-zero vector. -/
def Matrix3x3.IsSymPosDef (M : Matrix3x3 K) : Prop :=
  Matrix3x3.IsSymmetric M ∧
    ∀ x y z : K, (x ≠ 0 ∨ y ≠ 0 ∨ z ≠ 0) → 0 < Matrix3x3.quadForm M x y z

/-- A symmetric positive-definite matrix that is not diagonal. -/
def samplePosDef : LinearMapR3 ℚ :=
  { m11 := 2, m12 := 1, m13 := 0,
    m21 := 1, m22 := 2, m23 := 1,
    m31 := 0, m32 := 1, m33 := 2 }

/-! ## Concrete matrices used to run the routines -/

/-- An invertible 3x3 matrix (determinant 3). -/
def sample3 : LinearMapR3 ℚ :=
  { m11 := 1, m12 := 2, m13 := 0,
    m21 := 0, m22 := 1, m23 := 1,
    m31 := 1, m32 := 0, m33 := 1 }

/-- An invertible 4x4 matrix (determinant -4). -/
def sample4 : LinearMapR4 ℚ :=
  { m11 := 1, m12 := 2, m13 := 0, m14 := 0,
    m21 := 0, m22 := 1, m23 := 1, m24 := 0,
    m31 := 0, m32 := 0, m33 := 1, m34 := 3,
    m41 := 1, m42 := 0, m43 := 0, m44 := 2 }

/-- The 3x3 matrix exchanging the first two coordinates. -/
def swap3 : Matrix3x3 ℚ :=
  { m11 := 0, m12 := 1, m13 := 0,
    m21 := 1, m22 := 0, m23 := 0,
    m31 := 0, m32 := 0, m33 := 1 }

/-- The 4x4 matrix exchanging the first two coordinates. -/
def swap4 : Matrix4x4 ℚ :=
  { m11 := 0, m12 := 1, m13 := 0, m14 := 0,
    m21 := 1, m22 := 0, m23 := 0, m24 := 0,
    m31 := 0, m32 := 0, m33 := 1, m34 := 0,
    m41 := 0, m42 := 0, m43 := 0, m44 := 1 }

/-- Dot product of columns 1 and 2 of a 3x3 matrix. -/
def Matrix3x3.colDot12 (M : Matrix3x3 K) : K := M.m11 * M.m12 + M.m21 * M.m22 + M.m31 * M.m32

/-- Dot product of columns 1 and 3 of a 3x3 matrix. -/
def Matrix3x3.colDot13 (M : Matrix3x3 K) : K := M.m11 * M.m13 + M.m21 * M.m23 + M.m31 * M.m33

/-- Dot product of columns 2 and 3 of a 3x3 matrix. -/
def Matrix3x3.colDot23 (M : Matrix3x3 K) : K := M.m12 * M.m13 + M.m22 * M.m23 + M.m32 * M.m33

/-- A 3x3 matrix over `ℚ` with unit columns, the third orthogonal to the first
two, and first two columns of dot product `24/25`. -/
def sampleSkew3 : Matrix3x3 ℚ :=
  { m11 := 1, m12 := 24 / 25, m13 := 0,
    m21 := 0, m22 := 7 / 25, m23 := 0,
    m31 := 0, m32 := 0, m33 := 1 }

/-! ## LinearMapR4: applying an affine map, projection and view matrices

`Set_gluPerspective` calls `tan` and `VectorR3::Normalize` calls `sqrt` of
`<cmath>`; they are the parameters `tan` and `sqrt` of the embedding. -/

/-- Modelled from the spec: the member function `IsAffine` of the header
`LinearR4.h`, which is not among the sources: the last row is `(0,0,0,1)`. -/
def LinearMapR4.IsAffine (M : LinearMapR4 K) : Prop :=
  M.m41 = 0 ∧ M.m42 = 0 ∧ M.m43 = 0 ∧ M.m44 = 1

instance (M : LinearMapR4 K) : Decidable (LinearMapR4.IsAffine M) := by
  unfold LinearMapR4.IsAffine
  infer_instance

/-- The member function `LinearMapR4::AffineTransformPosition` (LinearR4.cpp, lines
289-299); `dest` is the vector before the call, the result the vector after it.  Its
assertion is `IsAffine()`. -/
def LinearMapR4.AffineTransformPosition (M : LinearMapR4 K) (dest : VectorR3 K) :
    VectorR3 K :=
  let newX := dest.x * M.m11 + dest.y * M.m12 + dest.z * M.m13 + M.m14
  let newY := dest.x * M.m21 + dest.y * M.m22 + dest.z * M.m23 + M.m24
  let wInv := 1.0 / M.m44
  let dest := dest.set_z (dest.x * M.m31 + dest.y * M.m32 + dest.z * M.m33 + M.m34)
  let dest := dest.set_z (dest.z * wInv)
  let dest := dest.set_x (newX * wInv)
  let dest := dest.set_y (newY * wInv)
  dest

/-- The member function `LinearMapR4::Set_glFrustum` (LinearR4.cpp, lines 371-386);
`s` is the receiver before the call. -/
def LinearMapR4.Set_glFrustum (s : LinearMapR4 K) (left right bottom top near far : K) :
    LinearMapR4 K :=
  let topMinusBottomInv := 1.0 / (top - bottom)
  let rightMinusLeftInv := 1.0 / (right - left)
  let nearMinusFarInv := 1.0 / (near - far)
  let twoN := 2.0 * near
  let s := s.set_m11 (twoN * rightMinusLeftInv)
  let s := s.set_m22 (twoN * topMinusBottomInv)
  let s := s.set_m13 ((right + left) * rightMinusLeftInv)
  let s := s.set_m23 ((top + bottom) * topMinusBottomInv)
  let s := s.set_m33 ((far + near) * nearMinusFarInv)
  let s := s.set_m43 (-1.0)
  let s := s.set_m34 (far * twoN * nearMinusFarInv)
  let s := s.set_m24 0.0
  let s := s.set_m14 s.m24
  let s := s.set_m42 s.m14
  let s := s.set_m32 s.m42
  let s := s.set_m12 s.m32
  let s := s.set_m41 s.m12
  let s := s.set_m31 s.m41
  let s := s.set_m21 s.m31
  s

/-- The member function `LinearMapR4::Set_gluPerspective` (LinearR4.cpp, lines
388-393). -/
def LinearMapR4.Set_gluPerspective (tan : K → K) (s : LinearMapR4 K)
    (fieldofview_y_Radians aspectRatio zNear zFar : K) : LinearMapR4 K :=
  let upDown := zNear * tan (0.5 * fieldofview_y_Radians)
  let leftRight := aspectRatio * upDown
  LinearMapR4.Set_glFrustum s (-leftRight) leftRight (-upDown) upDown zNear zFar

/-- Modelled from the spec: `VectorR3::operator-=` of the header `LinearR3.h`, which
is not among the sources: componentwise subtraction. -/
def VectorR3.sub (v u : VectorR3 K) : VectorR3 K :=
  { x := v.x - u.x, y := v.y - u.y, z := v.z - u.z }

/-- Modelled from the spec: the dot product `operator^` of the header `LinearR3.h`,
which is not among the sources. -/
def VectorR3.dot (u v : VectorR3 K) : K :=
  u.x * v.x + u.y * v.y + u.z * v.z

/-- Modelled from the spec: the cross product (`operator*=` on two vectors) of the
header `LinearR3.h`, which is not among the sources; right-handed,
`cross(a,b) = (a.y*b.z - a.z*b.y, a.z*b.x - a.x*b.z, a.x*b.y - a.y*b.x)`. -/
def VectorR3.cross (a b : VectorR3 K) : VectorR3 K :=
  { x := a.y * b.z - a.z * b.y, y := a.z * b.x - a.x * b.z, z := a.x * b.y - a.y * b.x }

/-- Modelled from the spec: `VectorR3::Norm` of the header `LinearR3.h`, which is not
among the sources: the Euclidean length, `sqrt` of `NormSq`. -/
def VectorR3.Norm (sqrt : K → K) (v : VectorR3 K) : K :=
  sqrt (VectorR3.NormSq v)

/-- Modelled from the spec: `VectorR3::Normalize` of the header `LinearR3.h`, which
is not among the sources: divide by the norm. -/
def VectorR3.Normalize (sqrt : K → K) (v : VectorR3 K) : VectorR3 K :=
  { x := v.x / VectorR3.Norm sqrt v, y := v.y / VectorR3.Norm sqrt v,
    z := v.z / VectorR3.Norm sqrt v }

/-- Modelled from the spec: `VectorR3::AddScaled(u, s)` of the header `LinearR3.h`,
which is not among the sources: add `s` times `u`. -/
def VectorR3.AddScaled (v u : VectorR3 K) (s : K) : VectorR3 K :=
  { x := v.x + s * u.x, y := v.y + s * u.y, z := v.z + s * u.z }

/-- Modelled from the spec: `VectorR3::ReNormalize` of the header `LinearR3.h`, which
is not among the sources: the first-order correction of a nearly unit vector, a
rescaling by `1 - 0.5*(‖v‖² - 1)` as for the columns of a matrix. -/
def VectorR3.ReNormalize (v : VectorR3 K) : VectorR3 K :=
  let mFact := 1.0 - 0.5 * (VectorR3.NormSq v - 1.0)
  { x := v.x * mFact, y := v.y * mFact, z := v.z * mFact }

/-- The member function `LinearMapR4::Set_gluLookAt` (LinearR4.cpp, lines 395-424);
`s` is the receiver before the call. -/
def LinearMapR4.Set_gluLookAt (sqrt : K → K) (s : LinearMapR4 K)
    (eyePos lookAtPos upDir : VectorR3 K) : LinearMapR4 K :=
  let toDir := eyePos
  let toDir := VectorR3.sub toDir lookAtPos
  let toDir := VectorR3.Normalize sqrt toDir
  let s := s.set_m31 toDir.x
  let s := s.set_m32 toDir.y
  let s := s.set_m33 toDir.z
  let upDirOrtho := upDir
  let upDirOrtho := VectorR3.AddScaled upDirOrtho toDir (-(VectorR3.dot upDir toDir))
  let upDirOrtho := VectorR3.Normalize sqrt upDirOrtho
  let s := s.set_m21 upDirOrtho.x
  let s := s.set_m22 upDirOrtho.y
  let s := s.set_m23 upDirOrtho.z
  let rightDir := upDirOrtho
  let rightDir := VectorR3.cross rightDir toDir
  let rightDir := VectorR3.ReNormalize rightDir
  let s := s.set_m11 rightDir.x
  let s := s.set_m12 rightDir.y
  let s := s.set_m13 rightDir.z
  let s := s.set_m14 (-(VectorR3.dot eyePos rightDir))
  let s := s.set_m24 (-(VectorR3.dot eyePos upDirOrtho))
  let s := s.set_m34 (-(VectorR3.dot eyePos toDir))
  let s := s.set_m44 1.0
  let s := s.set_m43 0.0
  let s := s.set_m42 s.m43
  let s := s.set_m41 s.m42
  s

/-- The assertion of `LinearMapR4::Set_gluLookAt`:
`rightDir.NormSq() > 1.0 - 1.0e10 && rightDir.NormSq() < 1.0 + 1.0e10`, on the cross
product before its `ReNormalize`. -/
def LinearMapR4.Set_gluLookAtAsserts (sqrt : K → K) (eyePos lookAtPos upDir : VectorR3 K) :
    Prop :=
  let toDir := eyePos
  let toDir := VectorR3.sub toDir lookAtPos
  let toDir := VectorR3.Normalize sqrt toDir
  let upDirOrtho := upDir
  let upDirOrtho := VectorR3.AddScaled upDirOrtho toDir (-(VectorR3.dot upDir toDir))
  let upDirOrtho := VectorR3.Normalize sqrt upDirOrtho
  let rightDir := upDirOrtho
  let rightDir := VectorR3.cross rightDir toDir
  VectorR3.NormSq rightDir > 1.0 - 1.0e10 ∧ VectorR3.NormSq rightDir < 1.0 + 1.0e10

instance (sqrt : K → K) (eyePos lookAtPos upDir : VectorR3 K) :
    Decidable (LinearMapR4.Set_gluLookAtAsserts sqrt eyePos lookAtPos upDir) := by
  unfold LinearMapR4.Set_gluLookAtAsserts
  infer_instance

/-- The depth behaviour of a frustum matrix `M` for the planes `near` and `far`: the
last row is `(0, 0, -1, m44)`, so `M` is not affine; the depth row sends `z = -near`
to `-near` and `z = -far` to `far`; and, when `m44 ≠ 0`, `AffineTransformPosition`
returns these depths divided by `m44`. -/
def LinearMapR4.FrustumDepth (M : LinearMapR4 K) (near far : K) : Prop :=
  M.m41 = 0 ∧ M.m42 = 0 ∧ M.m43 = -1 ∧ ¬ LinearMapR4.IsAffine M ∧
    M.m33 * (-near) + M.m34 = -near ∧ M.m33 * (-far) + M.m34 = far ∧
    (M.m44 ≠ 0 →
      (LinearMapR4.AffineTransformPosition M { x := 0, y := 0, z := -near }).z
          = -near / M.m44 ∧
        (LinearMapR4.AffineTransformPosition M { x := 0, y := 0, z := -far }).z
          = far / M.m44)

/-- A stand-in for `tan` over `ℚ`: the tangent of the half-angle parametrised by
`ratCos` and `ratSin`. -/
def ratTan (t : ℚ) : ℚ := 2 * t / (1 - t * t)

/-- A stand-in for `sqrt` over `ℚ`, exact on the squares `0, 1, 4, 9, 16, 25`. -/
def ratSqrt (q : ℚ) : ℚ :=
  if q = 25 then 5 else if q = 16 then 4 else if q = 9 then 3 else if q = 4 then 2
  else if q = 1 then 1 else 0

/-- The view matrix of the scenario `eye = (0,0,5)`, `target = (0,0,0)`,
`up = (0,1,0)`: rows `(1,0,0,0)`, `(0,1,0,0)`, `(0,0,1,-5)`, `(0,0,0,1)`. -/
def lookAtScenarioView : LinearMapR4 K :=
  { m11 := 1, m12 := 0, m13 := 0, m14 := 0,
    m21 := 0, m22 := 1, m23 := 0, m24 := 0,
    m31 := 0, m32 := 0, m33 := 1, m34 := -5,
    m41 := 0, m42 := 0, m43 := 0, m44 := 1 }

/-! ## Matrix3x3: the other in-place products (argument a distinct object) -/

/-- The member function `Matrix3x3::RightMultiplyByTranspose` (LinearR3.cpp, lines
175-196), with `B` an object distinct from the receiver `s`. -/
def Matrix3x3.RightMultiplyByTranspose (s B : Matrix3x3 K) : Matrix3x3 K :=
  let t1 := s.m11 * B.m11 + s.m12 * B.m12 + s.m13 * B.m13
  let t2 := s.m11 * B.m21 + s.m12 * B.m22 + s.m13 * B.m23
  let s := s.set_m13 (s.m11 * B.m31 + s.m12 * B.m32 + s.m13 * B.m33)
  let s := s.set_m11 t1
  let s := s.set_m12 t2
  let t1 := s.m21 * B.m11 + s.m22 * B.m12 + s.m23 * B.m13
  let t2 := s.m21 * B.m21 + s.m22 * B.m22 + s.m23 * B.m23
  let s := s.set_m23 (s.m21 * B.m31 + s.m22 * B.m32 + s.m23 * B.m33)
  let s := s.set_m21 t1
  let s := s.set_m22 t2
  let t1 := s.m31 * B.m11 + s.m32 * B.m12 + s.m33 * B.m13
  let t2 := s.m31 * B.m21 + s.m32 * B.m22 + s.m33 * B.m23
  let s := s.set_m33 (s.m31 * B.m31 + s.m32 * B.m32 + s.m33 * B.m33)
  let s := s.set_m31 t1
  let s := s.set_m32 t2
  s

/-- The member function `Matrix3x3::LeftMultiplyBy` (LinearR3.cpp, lines 199-221),
with `M` an object distinct from the receiver `s`. -/
def Matrix3x3.LeftMultiplyBy (s M : Matrix3x3 K) : Matrix3x3 K :=
  let t1 := M.m11 * s.m11 + M.m12 * s.m21 + M.m13 * s.m31
  let t2 := M.m21 * s.m11 + M.m22 * s.m21 + M.m23 * s.m31
  let s := s.set_m31 (M.m31 * s.m11 + M.m32 * s.m21 + M.m33 * s.m31)
  let s := s.set_m11 t1
  let s := s.set_m21 t2
  let t1 := M.m11 * s.m12 + M.m12 * s.m22 + M.m13 * s.m32
  let t2 := M.m21 * s.m12 + M.m22 * s.m22 + M.m23 * s.m32
  let s := s.set_m32 (M.m31 * s.m12 + M.m32 * s.m22 + M.m33 * s.m32)
  let s := s.set_m12 t1
  let s := s.set_m22 t2
  let t1 := M.m11 * s.m13 + M.m12 * s.m23 + M.m13 * s.m33
  let t2 := M.m21 * s.m13 + M.m22 * s.m23 + M.m23 * s.m33
  let s := s.set_m33 (M.m31 * s.m13 + M.m32 * s.m23 + M.m33 * s.m33)
  let s := s.set_m13 t1
  let s := s.set_m23 t2
  s

/-- The member function `Matrix3x3::LeftMultiplyByTranspose` (LinearR3.cpp, lines
224-246), with `M` an object distinct from the receiver `s`. -/
def Matrix3x3.LeftMultiplyByTranspose (s M : Matrix3x3 K) : Matrix3x3 K :=
  let t1 := M.m11 * s.m11 + M.m21 * s.m21 + M.m31 * s.m31
  let t2 := M.m12 * s.m11 + M.m22 * s.m21 + M.m32 * s.m31
  let s := s.set_m31 (M.m13 * s.m11 + M.m23 * s.m21 + M.m33 * s.m31)
  let s := s.set_m11 t1
  let s := s.set_m21 t2
  let t1 := M.m11 * s.m12 + M.m21 * s.m22 + M.m31 * s.m32
  let t2 := M.m12 * s.m12 + M.m22 * s.m22 + M.m32 * s.m32
  let s := s.set_m32 (M.m13 * s.m12 + M.m23 * s.m22 + M.m33 * s.m32)
  let s := s.set_m12 t1
  let s := s.set_m22 t2
  let t1 := M.m11 * s.m13 + M.m21 * s.m23 + M.m31 * s.m33
  let t2 := M.m12 * s.m13 + M.m22 * s.m23 + M.m32 * s.m33
  let s := s.set_m33 (M.m13 * s.m13 + M.m23 * s.m23 + M.m33 * s.m33)
  let s := s.set_m13 t1
  let s := s.set_m23 t2
  s

/-! ## In-place inversion -/

/-- The member function `LinearMapR3::Invert` (LinearR3.cpp, lines 322-348). -/
def LinearMapR3.Invert (s : LinearMapR3 K) : LinearMapR3 K :=
  let sd11 := s.m22 * s.m33 - s.m23 * s.m32
  let sd21 := s.m32 * s.m13 - s.m12 * s.m33
  let sd31 := s.m12 * s.m23 - s.m22 * s.m13
  let sd12 := s.m31 * s.m23 - s.m21 * s.m33
  let sd22 := s.m11 * s.m33 - s.m31 * s.m13
  let sd32 := s.m21 * s.m13 - s.m11 * s.m23
  let sd13 := s.m21 * s.m32 - s.m31 * s.m22
  let sd23 := s.m31 * s.m12 - s.m11 * s.m32
  let sd33 := s.m11 * s.m22 - s.m21 * s.m12
  let detInv := 1 / (s.m11 * sd11 + s.m12 * sd12 + s.m13 * sd13)
  let s := s.set_m11 (sd11 * detInv)
  let s := s.set_m12 (sd21 * detInv)
  let s := s.set_m13 (sd31 * detInv)
  let s := s.set_m21 (sd12 * detInv)
  let s := s.set_m22 (sd22 * detInv)
  let s := s.set_m23 (sd32 * detInv)
  let s := s.set_m31 (sd13 * detInv)
  let s := s.set_m32 (sd23 * detInv)
  let s := s.set_m33 (sd33 * detInv)
  s

/-- The member function `LinearMapR4::Invert` (LinearR4.cpp, lines 221-279). -/
def LinearMapR4.Invert (s : LinearMapR4 K) : LinearMapR4 K :=
  let Tbt34C12 := s.m31 * s.m42 - s.m32 * s.m41
  let Tbt34C13 := s.m31 * s.m43 - s.m33 * s.m41
  let Tbt34C14 := s.m31 * s.m44 - s.m34 * s.m41
  let Tbt34C23 := s.m32 * s.m43 - s.m33 * s.m42
  let Tbt34C24 := s.m32 * s.m44 - s.m34 * s.m42
  let Tbt34C34 := s.m33 * s.m44 - s.m34 * s.m43
  let Tbt24C12 := s.m21 * s.m42 - s.m22 * s.m41
  let Tbt24C13 := s.m21 * s.m43 - s.m23 * s.m41
  let Tbt24C14 := s.m21 * s.m44 - s.m24 * s.m41
  let Tbt24C23 := s.m22 * s.m43 - s.m23 * s.m42
  let Tbt24C24 := s.m22 * s.m44 - s.m24 * s.m42
  let Tbt24C34 := s.m23 * s.m44 - s.m24 * s.m43
  let Tbt23C12 := s.m21 * s.m32 - s.m22 * s.m31
  let Tbt23C13 := s.m21 * s.m33 - s.m23 * s.m31
  let Tbt23C14 := s.m21 * s.m34 - s.m24 * s.m31
  let Tbt23C23 := s.m22 * s.m33 - s.m23 * s.m32
  let Tbt23C24 := s.m22 * s.m34 - s.m24 * s.m32
  let Tbt23C34 := s.m23 * s.m34 - s.m24 * s.m33
  let sd11 := s.m22 * Tbt34C34 - s.m23 * Tbt34C24 + s.m24 * Tbt34C23
  let sd12 := s.m21 * Tbt34C34 - s.m23 * Tbt34C14 + s.m24 * Tbt34C13
  let sd13 := s.m21 * Tbt34C24 - s.m22 * Tbt34C14 + s.m24 * Tbt34C12
  let sd14 := s.m21 * Tbt34C23 - s.m22 * Tbt34C13 + s.m23 * Tbt34C12
  let sd21 := s.m12 * Tbt34C34 - s.m13 * Tbt34C24 + s.m14 * Tbt34C23
  let sd22 := s.m11 * Tbt34C34 - s.m13 * Tbt34C14 + s.m14 * Tbt34C13
  let sd23 := s.m11 * Tbt34C24 - s.m12 * Tbt34C14 + s.m14 * Tbt34C12
  let sd24 := s.m11 * Tbt34C23 - s.m12 * Tbt34C13 + s.m13 * Tbt34C12
  let sd31 := s.m12 * Tbt24C34 - s.m13 * Tbt24C24 + s.m14 * Tbt24C23
  let sd32 := s.m11 * Tbt24C34 - s.m13 * Tbt24C14 + s.m14 * Tbt24C13
  let sd33 := s.m11 * Tbt24C24 - s.m12 * Tbt24C14 + s.m14 * Tbt24C12
  let sd34 := s.m11 * Tbt24C23 - s.m12 * Tbt24C13 + s.m13 * Tbt24C12
  let sd41 := s.m12 * Tbt23C34 - s.m13 * Tbt23C24 + s.m14 * Tbt23C23
  let sd42 := s.m11 * Tbt23C34 - s.m13 * Tbt23C14 + s.m14 * Tbt23C13
  let sd43 := s.m11 * Tbt23C24 - s.m12 * Tbt23C14 + s.m14 * Tbt23C12
  let sd44 := s.m11 * Tbt23C23 - s.m12 * Tbt23C13 + s.m13 * Tbt23C12
  let detInv := 1 / (s.m11 * sd11 - s.m12 * sd12 + s.m13 * sd13 - s.m14 * sd14)
  let s := s.set_m11 (sd11 * detInv)
  let s := s.set_m12 (-sd21 * detInv)
  let s := s.set_m13 (sd31 * detInv)
  let s := s.set_m14 (-sd41 * detInv)
  let s := s.set_m21 (-sd12 * detInv)
  let s := s.set_m22 (sd22 * detInv)
  let s := s.set_m23 (-sd32 * detInv)
  let s := s.set_m24 (sd42 * detInv)
  let s := s.set_m31 (sd13 * detInv)
  let s := s.set_m32 (-sd23 * detInv)
  let s := s.set_m33 (sd33 * detInv)
  let s := s.set_m34 (-sd43 * detInv)
  let s := s.set_m41 (-sd14 * detInv)
  let s := s.set_m42 (sd24 * detInv)
  let s := s.set_m43 (-sd34 * detInv)
  let s := s.set_m44 (sd44 * detInv)
  s

/-! ## LinearMapR3: inverse of a symmetric matrix -/

/-- The member function `LinearMapR3::InverseSym(LinearMapR3* inverse)`
(LinearR3.cpp, lines 361-379); `inverse` is the content of the pointed-to object
before the call, the result its content after the call. -/
def LinearMapR3.InverseSymInto (M : LinearMapR3 K) (inverse : LinearMapR3 K) :
    LinearMapR3 K :=
  let sd11 := M.m22 * M.m33 - M.m32 * M.m32
  let sd12 := M.m31 * M.m32 - M.m21 * M.m33
  let sd22 := M.m11 * M.m33 - M.m31 * M.m31
  let sd13 := M.m21 * M.m32 - M.m31 * M.m22
  let sd23 := M.m31 * M.m21 - M.m11 * M.m32
  let sd33 := M.m11 * M.m22 - M.m21 * M.m21
  let detInv := 1 / (M.m11 * sd11 + M.m21 * sd12 + M.m31 * sd13)
  let inverse := inverse.set_m11 (sd11 * detInv)
  let inverse := inverse.set_m21 (sd12 * detInv)
  let inverse := inverse.set_m12 inverse.m21
  let inverse := inverse.set_m31 (sd13 * detInv)
  let inverse := inverse.set_m13 inverse.m31
  let inverse := inverse.set_m22 (sd22 * detInv)
  let inverse := inverse.set_m32 (sd23 * detInv)
  let inverse := inverse.set_m23 inverse.m32
  let inverse := inverse.set_m33 (sd33 * detInv)
  inverse

/-- The member function `LinearMapR3::InverseSym()` (LinearR3.cpp, lines 352-357):
`LinearMapR3 ret; InverseSym(&ret); return ret;`, with the default-constructed
value `ret` as a parameter. -/
def LinearMapR3.InverseSym (ret : LinearMapR3 K) (M : LinearMapR3 K) : LinearMapR3 K :=
  LinearMapR3.InverseSymInto M ret

/-- The member function `LinearMapR3::InvertSym` (LinearR3.cpp, lines 384-404). -/
def LinearMapR3.InvertSym (s : LinearMapR3 K) : LinearMapR3 K :=
  let sd11 := s.m22 * s.m33 - s.m32 * s.m32
  let sd12 := s.m31 * s.m32 - s.m21 * s.m33
  let sd22 := s.m11 * s.m33 - s.m31 * s.m31
  let sd13 := s.m21 * s.m32 - s.m31 * s.m22
  let sd23 := s.m31 * s.m21 - s.m11 * s.m32
  let sd33 := s.m11 * s.m22 - s.m21 * s.m21
  let detInv := 1 / (s.m11 * sd11 + s.m21 * sd12 + s.m31 * sd13)
  let s := s.set_m11 (sd11 * detInv)
  let s := s.set_m21 (sd12 * detInv)
  let s := s.set_m12 s.m21
  let s := s.set_m31 (sd13 * detInv)
  let s := s.set_m13 s.m31
  let s := s.set_m22 (sd22 * detInv)
  let s := s.set_m32 (sd23 * detInv)
  let s := s.set_m23 s.m32
  let s := s.set_m33 (sd33 * detInv)
  s

/-- The symmetric matrix obtained from `M` by copying its lower triangle onto its
upper triangle: `S12 = m21`, `S13 = m31`, `S23 = m32`. -/
def Matrix3x3.symmetrizeByLower (M : Matrix3x3 K) : Matrix3x3 K :=
  { m11 := M.m11, m12 := M.m21, m13 := M.m31,
    m21 := M.m21, m22 := M.m22, m23 := M.m32,
    m31 := M.m31, m32 := M.m32, m33 := M.m33 }

/-- Two 3x3 matrices have the same diagonal and the same lower-triangle entries
`m21`, `m31`, `m32`. -/
def Matrix3x3.SameLowerPart (M N : Matrix3x3 K) : Prop :=
  M.m11 = N.m11 ∧ M.m22 = N.m22 ∧ M.m33 = N.m33 ∧
    M.m21 = N.m21 ∧ M.m31 = N.m31 ∧ M.m32 = N.m32

instance (M N : Matrix3x3 K) : Decidable (Matrix3x3.SameLowerPart M N) := by
  unfold Matrix3x3.SameLowerPart
  infer_instance

/-- Two 3x3 matrices have the same diagonal and the same upper-triangle entries
`m12`, `m13`, `m23`. -/
def Matrix3x3.SameUpperPart (M N : Matrix3x3 K) : Prop :=
  M.m11 = N.m11 ∧ M.m22 = N.m22 ∧ M.m33 = N.m33 ∧
    M.m12 = N.m12 ∧ M.m13 = N.m13 ∧ M.m23 = N.m23

instance (M N : Matrix3x3 K) : Decidable (Matrix3x3.SameUpperPart M N) := by
  unfold Matrix3x3.SameUpperPart
  infer_instance

/-- A symmetric invertible matrix over `ℚ` that is not positive-definite
(determinant -3). -/
def sampleSym3 : LinearMapR3 ℚ :=
  { m11 := 1, m12 := 2, m13 := 0,
    m21 := 2, m22 := 1, m23 := 0,
    m31 := 0, m32 := 0, m33 := 1 }

/-- The identity matrix with the upper-triangle entry `m12` changed to `1/2`: its
diagonal and lower triangle are those of the identity. -/
def upperProbe : LinearMapR3 ℚ :=
  { m11 := 1, m12 := 1 / 2, m13 := 0,
    m21 := 0, m22 := 1, m23 := 0,
    m31 := 0, m32 := 0, m33 := 1 }

/-- The three pivots of `LinearMapR3::InvertPosDef`, in source order: `m11`,
`u22star` and `u33starstar`, computed as in the code. -/
def LinearMapR3.InvertPosDefPivots (s : LinearMapR3 K) : K × K × K :=
  let d1 := 1 / s.m11
  let a := s.m12 * d1
  let b := s.m13 * d1
  let u22star := s.m22 - s.m12 * a
  let u23star := s.m23 - s.m12 * b
  let u33star := s.m33 - s.m13 * b
  let d2 := 1 / u22star
  let c := u23star * d2
  let u33starstar := u33star - u23star * c
  (s.m11, u22star, u33starstar)

/-- The threshold `epsilon = 1.0e-5*trace` of `LinearMapR3::InvertPosDefSafe`. -/
def LinearMapR3.InvertPosDefSafeEpsilon (s : LinearMapR3 K) : K :=
  let trace := s.m11 + s.m22 + s.m33
  let epsilon := 1.0e-5 * trace
  epsilon

/-! ## Matrix3x3: solving a linear system -/

/-- The member function `Matrix3x3::Solve` (LinearR3.cpp, lines 248-267). -/
def Matrix3x3.Solve (M : Matrix3x3 K) (u : VectorR3 K) : VectorR3 K :=
  let sd11 := M.m22 * M.m33 - M.m23 * M.m32
  let sd21 := M.m32 * M.m13 - M.m12 * M.m33
  let sd31 := M.m12 * M.m23 - M.m22 * M.m13
  let sd12 := M.m31 * M.m23 - M.m21 * M.m33
  let sd22 := M.m11 * M.m33 - M.m31 * M.m13
  let sd32 := M.m21 * M.m13 - M.m11 * M.m23
  let sd13 := M.m21 * M.m32 - M.m31 * M.m22
  let sd23 := M.m31 * M.m12 - M.m11 * M.m32
  let sd33 := M.m11 * M.m22 - M.m21 * M.m12
  let detInv := 1 / (M.m11 * sd11 + M.m12 * sd12 + M.m13 * sd13)
  let rx := (u.x * sd11 + u.y * sd21 + u.z * sd31) * detInv
  let ry := (u.x * sd12 + u.y * sd22 + u.z * sd32) * detInv
  let rz := (u.x * sd13 + u.y * sd23 + u.z * sd33) * detInv
  { x := rx, y := ry, z := rz }

/-- The mathematical vector a `VectorR3` object denotes. -/
def VectorR3.toVec (v : VectorR3 K) : Fin 3 → K :=
  ![v.x, v.y, v.z]

/-! ## VectorR4, and the vector routines `MaxAbs` and `RotateUnitInDirection` -/

/-- The class `VectorR4`: four components `x`, `y`, `z`, `w`. -/
@[ext] structure VectorR4 (K : Type) where
  x : K
  y : K
  z : K
  w : K

/-- The member function `VectorR3::MaxAbs` (LinearR3.cpp, lines 47-56). -/
def VectorR3.MaxAbs (v : VectorR3 K) : K :=
  let m := if v.x > 0.0 then v.x else -v.x
  let m := if v.y > m then v.y else if -v.y > m then -v.y else m
  let m := if v.z > m then v.z else if -v.z > m then -v.z else m
  m

/-- The member function `VectorR4::MaxAbs` (LinearR4.cpp, lines 44-55). -/
def VectorR4.MaxAbs (v : VectorR4 K) : K :=
  let m := if v.x > 0.0 then v.x else -v.x
  let m := if v.y > m then v.y else if -v.y > m then -v.y else m
  let m := if v.z > m then v.z else if -v.z > m then -v.z else m
  let m := if v.w > m then v.w else if -v.w > m then -v.w else m
  m

/-- Modelled from the spec: `operator/` of a vector by a scalar, from the header
`LinearR3.h`, which is not among the sources: componentwise division. -/
def VectorR3.divScalar (u : VectorR3 K) (m : K) : VectorR3 K :=
  { x := u.x / m, y := u.y / m, z := u.z / m }

/-- Modelled from the spec: `operator*` of a scalar and a vector, from the header
`LinearR3.h`, which is not among the sources: componentwise scaling. -/
def VectorR3.smul (m : K) (u : VectorR3 K) : VectorR3 K :=
  { x := m * u.x, y := m * u.y, z := m * u.z }

/-- Modelled from the spec: `operator+` of two vectors, from the header
`LinearR3.h`, which is not among the sources: componentwise addition. -/
def VectorR3.add (u v : VectorR3 K) : VectorR3 K :=
  { x := u.x + v.x, y := u.y + v.y, z := u.z + v.z }

/-- The member function `VectorR3::RotateUnitInDirection` (LinearR3.cpp, lines
89-103); `v` is the receiver before the call, the result the receiver after it. -/
def VectorR3.RotateUnitInDirection (cos sin sqrt : K → K) (v dir : VectorR3 K) :
    VectorR3 K :=
  let theta := VectorR3.NormSq dir
  if theta = 0.0 then v
  else
    let theta := sqrt theta
    let costheta := cos theta
    let sintheta := sin theta
    let dirUnit := VectorR3.divScalar dir theta
    VectorR3.add (VectorR3.smul costheta v) (VectorR3.smul sintheta dirUnit)

/-- Modelled from the spec: `VectorR4::NormSq` of the header `LinearR4.h`, which is
not among the sources: the squared Euclidean length. -/
def VectorR4.NormSq (v : VectorR4 K) : K :=
  v.x * v.x + v.y * v.y + v.z * v.z + v.w * v.w

/-- Modelled from the spec: the dot product `operator^` of the header `LinearR4.h`,
which is not among the sources. -/
def VectorR4.dot (u v : VectorR4 K) : K :=
  u.x * v.x + u.y * v.y + u.z * v.z + u.w * v.w

/-- Modelled from the spec: `VectorR4::Norm` of the header `LinearR4.h`, which is not
among the sources: the Euclidean length, `sqrt` of `NormSq`. -/
def VectorR4.Norm (sqrt : K → K) (v : VectorR4 K) : K :=
  sqrt (VectorR4.NormSq v)

/-- Modelled from the spec: `operator/` of a vector by a scalar, from the header
`LinearR4.h`, which is not among the sources: componentwise division. -/
def VectorR4.divScalar (u : VectorR4 K) (m : K) : VectorR4 K :=
  { x := u.x / m, y := u.y / m, z := u.z / m, w := u.w / m }

/-- Modelled from the spec: `operator*` of a scalar and a vector, from the header
`LinearR4.h`, which is not among the sources: componentwise scaling. -/
def VectorR4.smul (m : K) (u : VectorR4 K) : VectorR4 K :=
  { x := m * u.x, y := m * u.y, z := m * u.z, w := m * u.w }

/-- Modelled from the spec: `operator+` of two vectors, from the header
`LinearR4.h`, which is not among the sources: componentwise addition. -/
def VectorR4.add (u v : VectorR4 K) : VectorR4 K :=
  { x := u.x + v.x, y := u.y + v.y, z := u.z + v.z, w := u.w + v.w }

/-- The member function `VectorR4::RotateUnitInDirection` (LinearR4.cpp, lines
449-467); `v` is the receiver before the call, the result the receiver after it. -/
def VectorR4.RotateUnitInDirection (cos sin sqrt : K → K) (v dir : VectorR4 K) :
    VectorR4 K :=
  let theta := VectorR4.NormSq dir
  if theta = 0.0 then v
  else
    let theta := sqrt theta
    let costheta := cos theta
    let sintheta := sin theta
    let dirUnit := VectorR4.divScalar dir theta
    VectorR4.add (VectorR4.smul costheta v) (VectorR4.smul sintheta dirUnit)

/-- The assertion of `VectorR4::RotateUnitInDirection`: the receiver has norm
within `0.0001` of 1 and its dot product with `dir` is within `0.0001` of 0. -/
def VectorR4.RotateUnitInDirectionAsserts (sqrt : K → K) (v dir : VectorR4 K) : Prop :=
  VectorR4.Norm sqrt v < 1.0001 ∧ VectorR4.Norm sqrt v > 0.9999 ∧
    VectorR4.dot dir v < 0.0001 ∧ VectorR4.dot dir v > -0.0001

instance (sqrt : K → K) (v dir : VectorR4 K) :
    Decidable (VectorR4.RotateUnitInDirectionAsserts sqrt v dir) := by
  unfold VectorR4.RotateUnitInDirectionAsserts
  infer_instance

/-- The vector `r` is the unit vector `x` rotated toward the unit vector `d` by an
angle of cosine `c` and sine `s`: `r = c·x + s·d`, `r` is a unit vector, `r·x = c`
and `r·d = s`. -/
def VectorR3.IsRotatedToward (c s : K) (x d r : VectorR3 K) : Prop :=
  r = VectorR3.add (VectorR3.smul c x) (VectorR3.smul s d) ∧ VectorR3.NormSq r = 1 ∧
    VectorR3.dot r x = c ∧ VectorR3.dot r d = s

/-- The vector `r` is the unit vector `x` rotated toward the unit vector `d` by an
angle of cosine `c` and sine `s`, in four dimensions. -/
def VectorR4.IsRotatedToward (c s : K) (x d r : VectorR4 K) : Prop :=
  r = VectorR4.add (VectorR4.smul c x) (VectorR4.smul s d) ∧ VectorR4.NormSq r = 1 ∧
    VectorR4.dot r x = c ∧ VectorR4.dot r d = s

/-- The zero vector of `VectorR3` (the value of `VectorR3::Zero`). -/
def VectorR3.Zero : VectorR3 K := { x := 0, y := 0, z := 0 }

/-- The zero vector of `VectorR4` (the value of `VectorR4::Zero`). -/
def VectorR4.Zero : VectorR4 K := { x := 0, y := 0, z := 0, w := 0 }

/-- A unit vector of `ℚ³`. -/
def unitX3 : VectorR3 ℚ := { x := 1, y := 0, z := 0 }

/-- A vector of `ℚ³` of length 2, perpendicular to `unitX3`. -/
def deltaY3 : VectorR3 ℚ := { x := 0, y := 2, z := 0 }

/-- A unit vector of `ℚ⁴`. -/
def unitX4 : VectorR4 ℚ := { x := 1, y := 0, z := 0, w := 0 }

/-- A vector of `ℚ⁴` of length 2, perpendicular to `unitX4`. -/
def deltaW4 : VectorR4 ℚ := { x := 0, y := 0, z := 0, w := 2 }

/-! ## LinearMapR4: determinant -/

/-- The member function `LinearMapR4::Determinant` (LinearR4.cpp, lines 156-171). -/
def LinearMapR4.Determinant (M : LinearMapR4 K) : K :=
  let Tbt34C12 := M.m31 * M.m42 - M.m32 * M.m41
  let Tbt34C13 := M.m31 * M.m43 - M.m33 * M.m41
  let Tbt34C14 := M.m31 * M.m44 - M.m34 * M.m41
  let Tbt34C23 := M.m32 * M.m43 - M.m33 * M.m42
  let Tbt34C24 := M.m32 * M.m44 - M.m34 * M.m42
  let Tbt34C34 := M.m33 * M.m44 - M.m34 * M.m43
  let sd11 := M.m22 * Tbt34C34 - M.m23 * Tbt34C24 + M.m24 * Tbt34C23
  let sd12 := M.m21 * Tbt34C34 - M.m23 * Tbt34C14 + M.m24 * Tbt34C13
  let sd13 := M.m21 * Tbt34C24 - M.m22 * Tbt34C14 + M.m24 * Tbt34C12
  let sd14 := M.m21 * Tbt34C23 - M.m22 * Tbt34C13 + M.m23 * Tbt34C12
  M.m11 * sd11 - M.m12 * sd12 + M.m13 * sd13 - M.m14 * sd14

/-! ## LinearMapR4: orthographic projection and rotation matrices -/

/-- The member function `LinearMapR4::Set_glOrtho` (LinearR4.cpp, lines 316-334);
`s` is the receiver before the call. -/
def LinearMapR4.Set_glOrtho (s : LinearMapR4 K) (left right bottom top near far : K) :
    LinearMapR4 K :=
  let bottomMinusTopInv := 1.0 / (bottom - top)
  let leftMinusRightInv := 1.0 / (left - right)
  let farMinusNearInv := 1.0 / (far - near)
  let s := s.set_m11 (-2.0 * leftMinusRightInv)
  let s := s.set_m22 (-2.0 * bottomMinusTopInv)
  let s := s.set_m33 (-2.0 * farMinusNearInv)
  let s := s.set_m14 ((left + right) * leftMinusRightInv)
  let s := s.set_m24 ((bottom + top) * bottomMinusTopInv)
  let s := s.set_m34 ((near + far) * farMinusNearInv)
  let s := s.set_m44 1.0
  let s := s.set_m41 0
  let s := s.set_m31 s.m41
  let s := s.set_m21 s.m31
  let s := s.set_m42 0
  let s := s.set_m32 s.m42
  let s := s.set_m12 s.m32
  let s := s.set_m43 0
  let s := s.set_m23 s.m43
  let s := s.set_m13 s.m23
  s

/-- The member function `LinearMapR4::Set_glRotate` (LinearR4.cpp, lines 344-368);
`s` is the receiver before the call.  Its assertion is `normSq > 0.0`. -/
def LinearMapR4.Set_glRotate (sqrt : K → K) (s : LinearMapR4 K)
    (costheta sintheta x y z : K) : LinearMapR4 K :=
  let normSq := x * x + y * y + z * z
  let normInv := 1.0 / sqrt normSq
  let x := x * normInv
  let y := y * normInv
  let z := z * normInv
  let omC := 1 - costheta
  let omCx := omC * x
  let omCy := omC * y
  let omCz := omC * z
  let s := s.set_m11 (omCx * x + costheta)
  let s := s.set_m21 (omCx * y + sintheta * z)
  let s := s.set_m31 (omCx * z - sintheta * y)
  let s := s.set_m12 (omCy * x - sintheta * z)
  let s := s.set_m22 (omCy * y + costheta)
  let s := s.set_m32 (omCy * z + sintheta * x)
  let s := s.set_m13 (omCz * x + sintheta * y)
  let s := s.set_m23 (omCz * y - sintheta * x)
  let s := s.set_m33 (omCz * z + costheta)
  let s := s.set_m34 0.0
  let s := s.set_m24 s.m34
  let s := s.set_m14 s.m24
  let s := s.set_m43 s.m14
  let s := s.set_m42 s.m43
  let s := s.set_m41 s.m42
  let s := s.set_m44 1.0
  s

/-- The 4x4 matrix with every entry 0. -/
def Matrix4x4.Zero : Matrix4x4 K :=
  LinearMapR4.ofColumns 0 0 0 0 0 0 0 0 0 0 0 0 0 0 0 0

/-! ## LinearMapR4: applying an affine map to a direction, and the rotation builder -/

/-- The member function `LinearMapR4::AffineTransformDirection` (LinearR4.cpp, lines
303-311); `dest` is the vector before the call, the result the vector after it.  Its
assertion is `IsAffine()`. -/
def LinearMapR4.AffineTransformDirection (M : LinearMapR4 K) (dest : VectorR3 K) :
    VectorR3 K :=
  let newX := dest.x * M.m11 + dest.y * M.m12 + dest.z * M.m13
  let newY := dest.x * M.m21 + dest.y * M.m22 + dest.z * M.m23
  let dest := dest.set_z (dest.x * M.m31 + dest.y * M.m32 + dest.z * M.m33)
  let dest := dest.set_x newX
  let dest := dest.set_y newY
  dest

/-- The assertion of `LinearMapR4::Set_glRotate`: `normSq > 0.0`. -/
def LinearMapR4.Set_glRotateAsserts (x y z : K) : Prop :=
  let normSq := x * x + y * y + z * z
  normSq > 0.0

instance (x y z : K) : Decidable (LinearMapR4.Set_glRotateAsserts x y z) := by
  unfold LinearMapR4.Set_glRotateAsserts
  infer_instance

/-- The homogeneous image `M·(p.x, p.y, p.z, 1)` of a point: the mathematical
matrix-vector product with implicit `w = 1`. -/
def Matrix4x4.homogeneousImage (M : Matrix4x4 K) (p : VectorR3 K) : VectorR4 K :=
  { x := M.m11 * p.x + M.m12 * p.y + M.m13 * p.z + M.m14,
    y := M.m21 * p.x + M.m22 * p.y + M.m23 * p.z + M.m24,
    z := M.m31 * p.x + M.m32 * p.y + M.m33 * p.z + M.m34,
    w := M.m41 * p.x + M.m42 * p.y + M.m43 * p.z + M.m44 }

/-- The perspective divide `(x, y, z)/w` of a homogeneous vector. -/
def VectorR4.perspectiveDivide (v : VectorR4 K) : VectorR3 K :=
  { x := v.x / v.w, y := v.y / v.w, z := v.z / v.w }

/-- The transformation of a point as the specification words it: apply `M` with
implicit `w = 1`, then divide by the resulting `w`. -/
def Matrix4x4.transformPositionSpec (M : Matrix4x4 K) (p : VectorR3 K) : VectorR3 K :=
  VectorR4.perspectiveDivide (Matrix4x4.homogeneousImage M p)

/-- A projective 4x4 matrix: the identity with last row `(0, 0, 1, 1)`, so that
`w' = z + 1`. -/
def projProbe : Matrix4x4 ℚ :=
  { m11 := 1, m12 := 0, m13 := 0, m14 := 0,
    m21 := 0, m22 := 1, m23 := 0, m24 := 0,
    m31 := 0, m32 := 0, m33 := 1, m34 := 0,
    m41 := 0, m42 := 0, m43 := 1, m44 := 1 }

/-- An affine 4x4 matrix over `ℚ` that is neither a rotation nor a translation. -/
def sampleAffine4 : Matrix4x4 ℚ :=
  { m11 := 1, m12 := 2, m13 := 0, m14 := 5,
    m21 := 0, m22 := 1, m23 := 1, m24 := -1,
    m31 := 3, m32 := 0, m33 := 1, m34 := 2,
    m41 := 0, m42 := 0, m43 := 0, m44 := 1 }

/-! ## The basis of `Set_gluLookAt` as the specification words it -/

/-- Row 1 of the upper-left 3x3 block of a 4x4 matrix. -/
def Matrix4x4.blockRow1 (M : Matrix4x4 K) : VectorR3 K := { x := M.m11, y := M.m12, z := M.m13 }

/-- Row 2 of the upper-left 3x3 block of a 4x4 matrix. -/
def Matrix4x4.blockRow2 (M : Matrix4x4 K) : VectorR3 K := { x := M.m21, y := M.m22, z := M.m23 }

/-- Row 3 of the upper-left 3x3 block of a 4x4 matrix. -/
def Matrix4x4.blockRow3 (M : Matrix4x4 K) : VectorR3 K := { x := M.m31, y := M.m32, z := M.m33 }

/-- The forward vector of the specification: `normalize(eye − target)`. -/
def lookAtForward (sqrt : K → K) (eye target : VectorR3 K) : VectorR3 K :=
  VectorR3.Normalize sqrt (VectorR3.sub eye target)

/-- The component of `up` orthogonal to forward: `up − (up·forward)·forward`. -/
def lookAtUpPart (sqrt : K → K) (eye target up : VectorR3 K) : VectorR3 K :=
  VectorR3.sub up
    (VectorR3.smul (VectorR3.dot up (lookAtForward sqrt eye target))
      (lookAtForward sqrt eye target))

/-- The up vector of the specification: the normalized component of `up` orthogonal
to forward. -/
def lookAtUp (sqrt : K → K) (eye target up : VectorR3 K) : VectorR3 K :=
  VectorR3.Normalize sqrt (lookAtUpPart sqrt eye target up)

/-- The right vector of the specification: `up' × forward`. -/
def lookAtRight (sqrt : K → K) (eye target up : VectorR3 K) : VectorR3 K :=
  VectorR3.cross (lookAtUp sqrt eye target up) (lookAtForward sqrt eye target)

/-- An eye point of `ℚ³` at distance 5 from `lookTarget`. -/
def lookEye : VectorR3 ℚ := { x := 1, y := 4, z := 5 }

/-- A target point of `ℚ³`. -/
def lookTarget : VectorR3 ℚ := { x := 1, y := 1, z := 1 }

/-! ## Linear algebra utilities: `GetOrtho`

The output parameters `v` and `w` are overwritten (`v.Set(...)`, `w = u`) before
they are read, so the embedding returns them as functions of `u` alone.  `v.Set`,
`Normalize` and the cross product `w *= v` are members of the header `LinearR3.h`. -/

/-- The vector `v` of `GetOrtho` after `v.Set(...)` and before `v.Normalize()`
(LinearR3.cpp, lines 543-548 and 560-565). -/
def GetOrthoChoice (u : VectorR3 K) : VectorR3 K :=
  if u.x > 0.5 ∨ u.x < -0.5 ∨ u.y > 0.5 ∨ u.y < -0.5 then
    { x := u.y, y := -u.x, z := 0.0 }
  else
    { x := 0.0, y := u.z, z := -u.y }

/-- The function `GetOrtho(u, v, w)` (LinearR3.cpp, lines 541-555): the pair
`(v, w)` after the call. -/
def GetOrtho (sqrt : K → K) (u : VectorR3 K) : VectorR3 K × VectorR3 K :=
  let v : VectorR3 K :=
    if u.x > 0.5 ∨ u.x < -0.5 ∨ u.y > 0.5 ∨ u.y < -0.5 then
      { x := u.y, y := -u.x, z := 0.0 }
    else
      { x := 0.0, y := u.z, z := -u.y }
  let v := VectorR3.Normalize sqrt v
  let w := u
  let w := VectorR3.cross w v
  let w := VectorR3.Normalize sqrt w
  (v, w)

/-- The two-argument function `GetOrtho(u, v)` (LinearR3.cpp, lines 558-568): `v`
after the call. -/
def GetOrtho2 (sqrt : K → K) (u : VectorR3 K) : VectorR3 K :=
  let v : VectorR3 K :=
    if u.x > 0.5 ∨ u.x < -0.5 ∨ u.y > 0.5 ∨ u.y < -0.5 then
      { x := u.y, y := -u.x, z := 0.0 }
    else
      { x := 0.0, y := u.z, z := -u.y }
  let v := VectorR3.Normalize sqrt v
  v

/-- A unit vector of `ℚ³` in the `xy` plane. -/
def orthoSample : VectorR3 ℚ := { x := 3 / 5, y := 4 / 5, z := 0 }

/-- The unit vector `(0,0,1)` of `ℚ³`. -/
def unitZ3 : VectorR3 ℚ := { x := 0, y := 0, z := 1 }

/-! ## The animation clock of `myRenderScene` (SolarSystemProject.cpp)

The update step reads and writes global variables; they are the fields of
`ClockState`.  The conversion `(int)` truncates toward zero and has a result only
when the truncated value is a 32-bit `int`; the product of two `int`s is the 32-bit
two's-complement product. -/

/-- The global variables of SolarSystemProject.cpp that the update step of
`myRenderScene` reads or writes (lines 64-74). -/
structure ClockState (K : Type) where
  spinMode : Bool
  singleStep : Bool
  UseRealTime : Bool
  PreviousTime : K
  HourOfDay : K
  DayOfYear : K
  DayOfPlanetXYear : K
  AnimateIncrement : K

/-- The conversion `(int)x` of a `double`: truncation toward zero, with a result
only when the truncated value lies in the range of a 32-bit `int`. -/
def castToInt [FloorRing K] (x : K) : Option ℤ :=
  let t : ℤ := if 0 ≤ x then Int.floor x else Int.ceil x
  if -2147483648 ≤ t ∧ t ≤ 2147483647 then some t else none

/-- The product `a * b` of two `int`s: the 32-bit two's-complement result. -/
def intMul (a b : ℤ) : ℤ := (a * b + 2147483648) % 4294967296 - 2147483648

/-- The statement `t = t - ((int)(t / m)) * m` of `myRenderScene` (lines 183-186,
with `m = 24`, `365`, `600`): the new value of `t`. -/
def wrapBack [FloorRing K] (t : K) (m : ℤ) : Option K :=
  match castToInt (t / (m : K)) with
  | none => none
  | some q => some (t - ((intMul q m : ℤ) : K))

/-- The local variable `thisAnimateIncrement` of `myRenderScene` (lines 171-176);
`curTime` is the value returned by `glfwGetTime()`. -/
def thisAnimateIncrement (st : ClockState K) (curTime : K) : K :=
  let thisAnimateIncrement := st.AnimateIncrement
  if st.UseRealTime && !st.singleStep then
    thisAnimateIncrement * ((curTime - st.PreviousTime) * 60.0)
  else thisAnimateIncrement

/-- The update step of the function `myRenderScene` (SolarSystemProject.cpp, lines
169-191); `curTime` is the value returned by `glfwGetTime()`.  The drawing code of
the function writes none of these variables. -/
def myRenderScene [FloorRing K] (st : ClockState K) (curTime : K) : Option (ClockState K) :=
  if st.spinMode then
    let thisAnimateIncrement := st.AnimateIncrement
    let realTime := st.UseRealTime && !st.singleStep
    let thisAnimateIncrement :=
      if realTime then thisAnimateIncrement * ((curTime - st.PreviousTime) * 60.0)
      else thisAnimateIncrement
    let st := if realTime then { st with PreviousTime := curTime } else st
    let st := { st with HourOfDay := st.HourOfDay + thisAnimateIncrement }
    let st := { st with DayOfYear := st.DayOfYear + thisAnimateIncrement / 24.0 }
    let st := { st with DayOfPlanetXYear := st.DayOfPlanetXYear + thisAnimateIncrement / 39.45 }
    (wrapBack st.HourOfDay 24).bind fun h =>
      let st := { st with HourOfDay := h }
      (wrapBack st.DayOfYear 365).bind fun d =>
        let st := { st with DayOfYear := d }
        (wrapBack st.DayOfPlanetXYear 600).bind fun p =>
          let st := { st with DayOfPlanetXYear := p }
          let st := if st.singleStep then { st with spinMode := false } else st
          some st
  else some st

/-- The clock is wrapped: `HourOfDay` in `[0,24)`, `DayOfYear` in `[0,365)`,
`DayOfPlanetXYear` in `[0,600)`. -/
def ClockState.Wrapped (st : ClockState K) : Prop :=
  (0 ≤ st.HourOfDay ∧ st.HourOfDay < 24) ∧ (0 ≤ st.DayOfYear ∧ st.DayOfYear < 365) ∧
    (0 ≤ st.DayOfPlanetXYear ∧ st.DayOfPlanetXYear < 600)

instance (st : ClockState K) : Decidable (ClockState.Wrapped st) := by
  unfold ClockState.Wrapped
  infer_instance

/-- The clock at program start, after the time step was doubled 27 times (27
presses of the `UP` key): `AnimateIncrement = 24·2^27`. -/
def fastClock : ClockState ℚ :=
  { spinMode := true, singleStep := false, UseRealTime := false, PreviousTime := 0,
    HourOfDay := 0, DayOfYear := 0, DayOfPlanetXYear := 0, AnimateIncrement := 3221225472 }

/-- The clock at program start: `AnimateIncrement = 24`. -/
def startClock : ClockState ℚ :=
  { spinMode := true, singleStep := false, UseRealTime := false, PreviousTime := 0,
    HourOfDay := 0, DayOfYear := 0, DayOfPlanetXYear := 0, AnimateIncrement := 24 }

/-! ## LinearMapR3: `InvertPosDefSafe` with the rounding of `double` arithmetic

A `double` operation is the exact operation followed by a rounding.  In the
definitions below the rounding of the product `1.0e-5*trace` is the parameter
`rndEps` and the rounding of every other operation is the parameter `rnd`; nothing
is assumed of either, so a statement proved for all of them holds whatever the
operations round to, underflow to zero included.  With both the identity this is
exact arithmetic, `LinearMapR3.InvertPosDefSafe`.  Comparisons and negation are
exact; overflow to an infinity is not modelled. -/

/-- The member function `LinearMapR3::InvertPosDefSafe` (LinearR3.cpp, lines 495-533),
each `double` operation followed by its rounding. -/
def LinearMapR3.InvertPosDefSafeRounded (rndEps rnd : K → K) (s : LinearMapR3 K) :
    LinearMapR3 K :=
  let trace := rnd (rnd (s.m11 + s.m22) + s.m33)
  let epsilon := rndEps (1.0e-5 * trace)
  let s := s.set_m11 (Max epsilon s.m11)
  let d1 := rnd (1.0 / s.m11)
  let a := rnd (s.m12 * d1)
  let b := rnd (s.m13 * d1)
  let u22star := rnd (s.m22 - rnd (s.m12 * a))
  let u23star := rnd (s.m23 - rnd (s.m12 * b))
  let u33star := rnd (s.m33 - rnd (s.m13 * b))
  let u22star := Max epsilon u22star
  let d2 := rnd (1.0 / u22star)
  let c := rnd (u23star * d2)
  let u33starstar := rnd (u33star - rnd (u23star * c))
  let u33starstar := Max epsilon u33starstar
  let d3 := rnd (1.0 / u33starstar)
  let s := s.set_m33 d3
  let s := s.set_m32 (rnd (-c * d3))
  let s := s.set_m23 s.m32
  let s := s.set_m22 (rnd (d2 - rnd (c * s.m23)))
  let acminusb := rnd (rnd (a * c) - b)
  let s := s.set_m31 (rnd (acminusb * d3))
  let s := s.set_m13 s.m31
  let ad2 := rnd (a * d2)
  let s := s.set_m21 (rnd (rnd (-c * s.m13) - ad2))
  let s := s.set_m12 s.m21
  let s := s.set_m11 (rnd (rnd (d1 + rnd (a * ad2)) + rnd (acminusb * s.m13)))
  s

/-- The value of the local variable `epsilon` of `LinearMapR3::InvertPosDefSafe`
(line 500), with rounding. -/
def LinearMapR3.InvertPosDefSafeRoundedEpsilon (rndEps rnd : K → K) (s : LinearMapR3 K) : K :=
  let trace := rnd (rnd (s.m11 + s.m22) + s.m33)
  let epsilon := rndEps (1.0e-5 * trace)
  epsilon

/-- The assertions of `LinearMapR3::InvertPosDefSafe`, with rounding, each on the
values its operands have where it stands: `trace>=0.0`, `m11 > -epsilon`,
`u22star > -epsilon`, `u33starstar > - epsilon`. -/
def LinearMapR3.InvertPosDefSafeRoundedAsserts (rndEps rnd : K → K) (s : LinearMapR3 K) :
    Prop :=
  let trace := rnd (rnd (s.m11 + s.m22) + s.m33)
  let epsilon := rndEps (1.0e-5 * trace)
  let assert2 := s.m11 > -epsilon
  let s := s.set_m11 (Max epsilon s.m11)
  let d1 := rnd (1.0 / s.m11)
  let a := rnd (s.m12 * d1)
  let b := rnd (s.m13 * d1)
  let u22star := rnd (s.m22 - rnd (s.m12 * a))
  let u23star := rnd (s.m23 - rnd (s.m12 * b))
  let u33star := rnd (s.m33 - rnd (s.m13 * b))
  let assert3 := u22star > -epsilon
  let u22star := Max epsilon u22star
  let d2 := rnd (1.0 / u22star)
  let c := rnd (u23star * d2)
  let u33starstar := rnd (u33star - rnd (u23star * c))
  let assert4 := u33starstar > -epsilon
  trace ≥ 0.0 ∧ assert2 ∧ assert3 ∧ assert4

instance (rndEps rnd : K → K) (s : LinearMapR3 K) :
    Decidable (LinearMapR3.InvertPosDefSafeRoundedAsserts rndEps rnd s) := by
  unfold LinearMapR3.InvertPosDefSafeRoundedAsserts
  infer_instance

/-- The three numbers `LinearMapR3::InvertPosDefSafe` divides by, with rounding, in
source order: `m11`, `u22star` and `u33starstar`, each after its `Max`. -/
def LinearMapR3.InvertPosDefSafeRoundedDivisors (rndEps rnd : K → K) (s : LinearMapR3 K) :
    K × K × K :=
  let trace := rnd (rnd (s.m11 + s.m22) + s.m33)
  let epsilon := rndEps (1.0e-5 * trace)
  let s := s.set_m11 (Max epsilon s.m11)
  let d1 := rnd (1.0 / s.m11)
  let a := rnd (s.m12 * d1)
  let b := rnd (s.m13 * d1)
  let u22star := rnd (s.m22 - rnd (s.m12 * a))
  let u23star := rnd (s.m23 - rnd (s.m12 * b))
  let u33star := rnd (s.m33 - rnd (s.m13 * b))
  let u22star := Max epsilon u22star
  let d2 := rnd (1.0 / u22star)
  let c := rnd (u23star * d2)
  let u33starstar := rnd (u33star - rnd (u23star * c))
  let u33starstar := Max epsilon u33starstar
  (s.m11, u22star, u33starstar)

/-- The three multipliers `a`, `c` and `acminusb` of `LinearMapR3::InvertPosDefSafe`,
with rounding, computed as in the code: the entries below the diagonal of the unit
triangular factor of the result. -/
def LinearMapR3.InvertPosDefSafeRoundedMultipliers (rndEps rnd : K → K)
    (s : LinearMapR3 K) : K × K × K :=
  let trace := rnd (rnd (s.m11 + s.m22) + s.m33)
  let epsilon := rndEps (1.0e-5 * trace)
  let s := s.set_m11 (Max epsilon s.m11)
  let d1 := rnd (1.0 / s.m11)
  let a := rnd (s.m12 * d1)
  let b := rnd (s.m13 * d1)
  let u22star := rnd (s.m22 - rnd (s.m12 * a))
  let u23star := rnd (s.m23 - rnd (s.m12 * b))
  let u22star := Max epsilon u22star
  let d2 := rnd (1.0 / u22star)
  let c := rnd (u23star * d2)
  let acminusb := rnd (rnd (a * c) - b)
  (a, c, acminusb)

/-- A stand-in over `ℚ` for the rounding of a `double` operation: a result of
magnitude below `2^-1075`, half the smallest positive `double`, underflows to zero;
any other result is taken exactly. -/
def flushToZero (x : ℚ) : ℚ := if |x| < 1 / 2 ^ 1075 then 0 else x

/-- The cofactor expansion is the determinant of the denoted matrix. -/
theorem cofactorExpansion3_eq_det (M : Matrix3x3 K) :
    cofactorExpansion3 M = (Matrix3x3.toMatrix M).det := by
  simp only [cofactorExpansion3, Matrix3x3.toMatrix, Matrix.det_fin_three, Matrix.of_apply,
    Matrix.cons_val_zero, Matrix.cons_val_one, Matrix.head_cons, Matrix.cons_val_two,
    Matrix.tail_cons]
  ring

/-- The determinant routine differs from the cofactor expansion by the term
`m13 * m21 * (m23 - m32)`. -/
theorem Determinant_eq_cofactorExpansion3_add (M : LinearMapR3 K) :
    LinearMapR3.Determinant M = cofactorExpansion3 M + M.m13 * M.m21 * (M.m23 - M.m32) := by
  simp only [LinearMapR3.Determinant, cofactorExpansion3]
  ring

/-- C1 (fails on the code): on the permutation matrix `detProbe`, with
`m13 = m21 = m32 = 1`, `LinearMapR3::Determinant` returns 0 although the first-row
cofactor expansion, which is the determinant of the matrix, is 1. -/
theorem C1_Determinant_misses_cofactor_expansion :
    LinearMapR3.Determinant detProbe = 0 ∧ cofactorExpansion3 detProbe = 1 ∧
      (Matrix3x3.toMatrix detProbe).det = 1 := by
  refine ⟨?_, ?_, ?_⟩
  · norm_num [LinearMapR3.Determinant, detProbe]
  · norm_num [cofactorExpansion3, detProbe]
  · rw [← cofactorExpansion3_eq_det]
    norm_num [cofactorExpansion3, detProbe]

/-- The determinant of the matrix denoted by a `Matrix3x3`, written out. -/
theorem det_toMatrix3 (M : Matrix3x3 K) :
    (Matrix3x3.toMatrix M).det =
      M.m11 * (M.m22 * M.m33 - M.m23 * M.m32) + M.m12 * (M.m31 * M.m23 - M.m21 * M.m33)
        + M.m13 * (M.m21 * M.m32 - M.m31 * M.m22) := by
  rw [← cofactorExpansion3_eq_det, cofactorExpansion3]
  ring

/-- The determinant of the matrix denoted by a `Matrix4x4`, expanded along the
first row into the four 3x3 minors that `LinearMapR4::Inverse` calls `sd11..sd14`. -/
theorem det_toMatrix4 (M : Matrix4x4 K) :
    (Matrix4x4.toMatrix M).det =
      M.m11 * (M.m22 * (M.m33 * M.m44 - M.m34 * M.m43) - M.m23 * (M.m32 * M.m44 - M.m34 * M.m42)
          + M.m24 * (M.m32 * M.m43 - M.m33 * M.m42))
        - M.m12 * (M.m21 * (M.m33 * M.m44 - M.m34 * M.m43)
          - M.m23 * (M.m31 * M.m44 - M.m34 * M.m41) + M.m24 * (M.m31 * M.m43 - M.m33 * M.m41))
        + M.m13 * (M.m21 * (M.m32 * M.m44 - M.m34 * M.m42)
          - M.m22 * (M.m31 * M.m44 - M.m34 * M.m41) + M.m24 * (M.m31 * M.m42 - M.m32 * M.m41))
        - M.m14 * (M.m21 * (M.m32 * M.m43 - M.m33 * M.m42)
          - M.m22 * (M.m31 * M.m43 - M.m33 * M.m41) + M.m23 * (M.m31 * M.m42 - M.m32 * M.m41)) := by
  have e1 : (Fin.succ 2 : Fin 4) = 3 := rfl
  have e2 : (Fin.castSucc 2 : Fin 4) = 2 := rfl
  rw [Matrix4x4.toMatrix, Matrix.det_succ_row_zero]
  simp [Fin.sum_univ_succ, Matrix.det_fin_three, Matrix.submatrix, Fin.succAbove, e1, e2]
  ring

omit [LinearOrderedField K] in
/-- Two `Matrix3x3` objects denoting the same matrix are equal. -/
theorem Matrix3x3.toMatrix3_injective {A B : Matrix3x3 K}
    (h : Matrix3x3.toMatrix A = Matrix3x3.toMatrix B) : A = B :=
  Matrix3x3.ext (congrFun (congrFun h 0) 0) (congrFun (congrFun h 0) 1)
    (congrFun (congrFun h 0) 2) (congrFun (congrFun h 1) 0) (congrFun (congrFun h 1) 1)
    (congrFun (congrFun h 1) 2) (congrFun (congrFun h 2) 0) (congrFun (congrFun h 2) 1)
    (congrFun (congrFun h 2) 2)

omit [LinearOrderedField K] in
/-- Two `Matrix4x4` objects denoting the same matrix are equal. -/
theorem Matrix4x4.toMatrix4_injective {A B : Matrix4x4 K}
    (h : Matrix4x4.toMatrix A = Matrix4x4.toMatrix B) : A = B :=
  Matrix4x4.ext (congrFun (congrFun h 0) 0) (congrFun (congrFun h 0) 1)
    (congrFun (congrFun h 0) 2) (congrFun (congrFun h 0) 3)
    (congrFun (congrFun h 1) 0) (congrFun (congrFun h 1) 1)
    (congrFun (congrFun h 1) 2) (congrFun (congrFun h 1) 3)
    (congrFun (congrFun h 2) 0) (congrFun (congrFun h 2) 1)
    (congrFun (congrFun h 2) 2) (congrFun (congrFun h 2) 3)
    (congrFun (congrFun h 3) 0) (congrFun (congrFun h 3) 1)
    (congrFun (congrFun h 3) 2) (congrFun (congrFun h 3) 3)

/-- The object `Matrix3x3::Identity` denotes the identity matrix. -/
theorem Matrix3x3.toMatrix3_Identity :
    Matrix3x3.toMatrix (Matrix3x3.Identity : Matrix3x3 K) = 1 := by
  ext i j
  fin_cases i <;> fin_cases j <;> rfl

/-- The object `Matrix4x4::Identity` denotes the identity matrix. -/
theorem Matrix4x4.toMatrix4_Identity :
    Matrix4x4.toMatrix (Matrix4x4.Identity : Matrix4x4 K) = 1 := by
  ext i j
  fin_cases i <;> fin_cases j <;> rfl

/-- The pure product `operator*` denotes the matrix product. -/
theorem LinearMapR3.toMatrix3_operatorTimes (A B : LinearMapR3 K) :
    Matrix3x3.toMatrix (LinearMapR3.operatorTimes A B)
      = Matrix3x3.toMatrix A * Matrix3x3.toMatrix B := by
  ext i j
  rw [Matrix.mul_apply, Fin.sum_univ_three]
  fin_cases i <;> fin_cases j <;> rfl

/-- When the first-row expansion that `Inverse` divides by is not zero, the matrix
returned by `Inverse` is a two-sided inverse under `operator*`. -/
theorem LinearMapR3.operatorTimes_Inverse (M : LinearMapR3 K)
    (hdet : M.m11 * (M.m22 * M.m33 - M.m23 * M.m32) + M.m12 * (M.m31 * M.m23 - M.m21 * M.m33)
        + M.m13 * (M.m21 * M.m32 - M.m31 * M.m22) ≠ 0) :
    LinearMapR3.operatorTimes M (LinearMapR3.Inverse M) = Matrix3x3.Identity ∧
      LinearMapR3.operatorTimes (LinearMapR3.Inverse M) M = Matrix3x3.Identity := by
  have hd := mul_one_div_cancel hdet
  simp only [LinearMapR3.operatorTimes, LinearMapR3.Inverse, Matrix3x3.Identity,
    LinearMapR3.ofColumns, Matrix3x3.mk.injEq]
  generalize 1 / _ = e at hd ⊢
  constructor <;>
    refine ⟨?_, ?_, ?_, ?_, ?_, ?_, ?_, ?_, ?_⟩ <;> first | ring1 | linear_combination hd

/-- C2: for every 3x3 matrix whose determinant is not zero, `operator*` applied to
the matrix and its `Inverse()` is exactly the identity matrix, in both orders. -/
theorem C2_Inverse_is_two_sided_inverse (M : LinearMapR3 K)
    (hdet : (Matrix3x3.toMatrix M).det ≠ 0) :
    LinearMapR3.operatorTimes M (LinearMapR3.Inverse M) = Matrix3x3.Identity ∧
      LinearMapR3.operatorTimes (LinearMapR3.Inverse M) M = Matrix3x3.Identity := by
  rw [det_toMatrix3] at hdet
  exact LinearMapR3.operatorTimes_Inverse M hdet

/-- C2 run on `sample3`, whose determinant is 3. -/
theorem C2_Inverse_is_two_sided_inverse_witness :
    (Matrix3x3.toMatrix sample3).det ≠ 0 ∧
      LinearMapR3.operatorTimes sample3 (LinearMapR3.Inverse sample3) = Matrix3x3.Identity ∧
      LinearMapR3.operatorTimes (LinearMapR3.Inverse sample3) sample3 = Matrix3x3.Identity :=
  have h : (Matrix3x3.toMatrix sample3).det ≠ 0 := by
    rw [det_toMatrix3]; norm_num [sample3]
  ⟨h, C2_Inverse_is_two_sided_inverse sample3 h⟩

/-- The receiver after `A.OperatorTimesEquals(B)`, `B` a distinct object, entry by entry. -/
theorem Matrix3x3.OperatorTimesEquals_eq (A B : Matrix3x3 K) :
    Matrix3x3.OperatorTimesEquals A B =
      { m11 := A.m11 * B.m11 + A.m12 * B.m21 + A.m13 * B.m31,
        m12 := A.m11 * B.m12 + A.m12 * B.m22 + A.m13 * B.m32,
        m13 := A.m11 * B.m13 + A.m12 * B.m23 + A.m13 * B.m33,
        m21 := A.m21 * B.m11 + A.m22 * B.m21 + A.m23 * B.m31,
        m22 := A.m21 * B.m12 + A.m22 * B.m22 + A.m23 * B.m32,
        m23 := A.m21 * B.m13 + A.m22 * B.m23 + A.m23 * B.m33,
        m31 := A.m31 * B.m11 + A.m32 * B.m21 + A.m33 * B.m31,
        m32 := A.m31 * B.m12 + A.m32 * B.m22 + A.m33 * B.m32,
        m33 := A.m31 * B.m13 + A.m32 * B.m23 + A.m33 * B.m33 } := by
  rfl

/-- With a distinct argument, `OperatorTimesEquals` leaves the matrix product in the receiver. -/
theorem Matrix3x3.toMatrix3_OperatorTimesEquals (A B : Matrix3x3 K) :
    Matrix3x3.toMatrix (Matrix3x3.OperatorTimesEquals A B)
      = Matrix3x3.toMatrix A * Matrix3x3.toMatrix B := by
  rw [Matrix3x3.OperatorTimesEquals_eq]
  ext i j
  rw [Matrix.mul_apply, Fin.sum_univ_three]
  fin_cases i <;> fin_cases j <;> rfl

/-- The receiver after `A *= B`, `B` a distinct object, entry by entry. -/
theorem Matrix4x4.operatorTimesEquals4_eq (A B : Matrix4x4 K) :
    Matrix4x4.operatorTimesEquals A B =
      { m11 := A.m11 * B.m11 + A.m12 * B.m21 + A.m13 * B.m31 + A.m14 * B.m41,
        m12 := A.m11 * B.m12 + A.m12 * B.m22 + A.m13 * B.m32 + A.m14 * B.m42,
        m13 := A.m11 * B.m13 + A.m12 * B.m23 + A.m13 * B.m33 + A.m14 * B.m43,
        m14 := A.m11 * B.m14 + A.m12 * B.m24 + A.m13 * B.m34 + A.m14 * B.m44,
        m21 := A.m21 * B.m11 + A.m22 * B.m21 + A.m23 * B.m31 + A.m24 * B.m41,
        m22 := A.m21 * B.m12 + A.m22 * B.m22 + A.m23 * B.m32 + A.m24 * B.m42,
        m23 := A.m21 * B.m13 + A.m22 * B.m23 + A.m23 * B.m33 + A.m24 * B.m43,
        m24 := A.m21 * B.m14 + A.m22 * B.m24 + A.m23 * B.m34 + A.m24 * B.m44,
        m31 := A.m31 * B.m11 + A.m32 * B.m21 + A.m33 * B.m31 + A.m34 * B.m41,
        m32 := A.m31 * B.m12 + A.m32 * B.m22 + A.m33 * B.m32 + A.m34 * B.m42,
        m33 := A.m31 * B.m13 + A.m32 * B.m23 + A.m33 * B.m33 + A.m34 * B.m43,
        m34 := A.m31 * B.m14 + A.m32 * B.m24 + A.m33 * B.m34 + A.m34 * B.m44,
        m41 := A.m41 * B.m11 + A.m42 * B.m21 + A.m43 * B.m31 + A.m44 * B.m41,
        m42 := A.m41 * B.m12 + A.m42 * B.m22 + A.m43 * B.m32 + A.m44 * B.m42,
        m43 := A.m41 * B.m13 + A.m42 * B.m23 + A.m43 * B.m33 + A.m44 * B.m43,
        m44 := A.m41 * B.m14 + A.m42 * B.m24 + A.m43 * B.m34 + A.m44 * B.m44 } := by
  rfl

/-- With a distinct argument, `operator*=` leaves the matrix product in the receiver. -/
theorem Matrix4x4.toMatrix4_operatorTimesEquals (A B : Matrix4x4 K) :
    Matrix4x4.toMatrix (Matrix4x4.operatorTimesEquals A B)
      = Matrix4x4.toMatrix A * Matrix4x4.toMatrix B := by
  rw [Matrix4x4.operatorTimesEquals4_eq]
  ext i j
  rw [Matrix.mul_apply, Fin.sum_univ_four]
  fin_cases i <;> fin_cases j <;> rfl

/-- The 4x4 determinant routine returns the determinant of the denoted matrix. -/
theorem LinearMapR4.Determinant_eq_det (M : LinearMapR4 K) :
    LinearMapR4.Determinant M = (Matrix4x4.toMatrix M).det := by
  rw [det_toMatrix4]
  rfl

/-- The matrix returned by `LinearMapR4::Inverse` is the adjugate, the transposed
matrix of cofactors, times the reciprocal of what `Determinant` returns. -/
theorem LinearMapR4.toMatrix4_Inverse (M : LinearMapR4 K) :
    Matrix4x4.toMatrix (LinearMapR4.Inverse M)
      = (1 / LinearMapR4.Determinant M) • (Matrix4x4.toMatrix M).adjugate := by
  have e1 : (Fin.succ 2 : Fin 4) = 3 := rfl
  have e2 : (Fin.castSucc 2 : Fin 4) = 2 := rfl
  ext i j
  rw [Matrix.smul_apply, Matrix.adjugate_fin_succ_eq_det_submatrix, Matrix.det_fin_three]
  simp only [LinearMapR4.Inverse, LinearMapR4.Determinant, LinearMapR4.ofColumns]
  generalize 1 / _ = e
  fin_cases i <;> fin_cases j <;>
    simp [Matrix4x4.toMatrix, Matrix.submatrix, Fin.succAbove, e1, e2, pow_succ] <;> ring

/-- C3: for every 4x4 matrix whose determinant is not zero, `M *= M.Inverse()`
(argument a distinct object) leaves exactly the 4x4 identity matrix, and so does
`M.Inverse() *= M`. -/
theorem C3_Inverse4_is_two_sided_inverse (M : LinearMapR4 K)
    (hdet : (Matrix4x4.toMatrix M).det ≠ 0) :
    Matrix4x4.operatorTimesEquals M (LinearMapR4.Inverse M) = Matrix4x4.Identity ∧
      Matrix4x4.operatorTimesEquals (LinearMapR4.Inverse M) M = Matrix4x4.Identity := by
  have hm : Matrix4x4.toMatrix M * Matrix4x4.toMatrix (LinearMapR4.Inverse M) = 1 := by
    rw [LinearMapR4.toMatrix4_Inverse, Matrix.mul_smul, Matrix.mul_adjugate,
      LinearMapR4.Determinant_eq_det, smul_smul, one_div, inv_mul_cancel₀ hdet, one_smul]
  refine ⟨Matrix4x4.toMatrix4_injective ?_, Matrix4x4.toMatrix4_injective ?_⟩
  · rw [Matrix4x4.toMatrix4_operatorTimesEquals, Matrix4x4.toMatrix4_Identity]
    exact hm
  · rw [Matrix4x4.toMatrix4_operatorTimesEquals, Matrix4x4.toMatrix4_Identity]
    exact Matrix.mul_eq_one_comm.mp hm

/-- C3 run on `sample4`, whose determinant is -4. -/
theorem C3_Inverse4_is_two_sided_inverse_witness :
    (Matrix4x4.toMatrix sample4).det ≠ 0 ∧
      Matrix4x4.operatorTimesEquals sample4 (LinearMapR4.Inverse sample4)
        = Matrix4x4.Identity ∧
      Matrix4x4.operatorTimesEquals (LinearMapR4.Inverse sample4) sample4
        = Matrix4x4.Identity :=
  have h : (Matrix4x4.toMatrix sample4).det ≠ 0 := by
    rw [det_toMatrix4]; norm_num [sample4]
  ⟨h, C3_Inverse4_is_two_sided_inverse sample4 h⟩

/-- C4 (fails on the code): with the argument aliased to the receiver, the
receiver does not end up equal to the product `A·A`.  On the matrix exchanging
the first two coordinates, whose square is the identity, `A.OperatorTimesEquals(A)`
leaves rows `(1,0,0)`, `(1,0,0)`, `(0,0,1)`, and `A *= A` differs from `A·A` too. -/
theorem C4_self_composition_not_safe :
    Matrix3x3.OperatorTimesEqualsSelf swap3
        = { m11 := 1, m12 := 0, m13 := 0, m21 := 1, m22 := 0, m23 := 0,
            m31 := 0, m32 := 0, m33 := 1 } ∧
      Matrix3x3.toMatrix (Matrix3x3.OperatorTimesEqualsSelf swap3)
        ≠ Matrix3x3.toMatrix swap3 * Matrix3x3.toMatrix swap3 ∧
      Matrix4x4.toMatrix (Matrix4x4.operatorTimesEqualsSelf swap4)
        ≠ Matrix4x4.toMatrix swap4 * Matrix4x4.toMatrix swap4 := by
  refine ⟨?_, ?_, ?_⟩
  · norm_num [Matrix3x3.OperatorTimesEqualsSelf, Matrix3x3.OperatorTimesEqualsOn, swap3]
  · intro h
    have h21 := congrFun (congrFun h 1) 0
    norm_num [Matrix3x3.OperatorTimesEqualsSelf, Matrix3x3.OperatorTimesEqualsOn, swap3,
      Matrix3x3.toMatrix, Matrix.mul_apply, Fin.sum_univ_succ] at h21
  · intro h
    have h21 := congrFun (congrFun h 1) 0
    norm_num [Matrix4x4.operatorTimesEqualsSelf, Matrix4x4.operatorTimesEqualsOn, swap4,
      Matrix4x4.toMatrix, Matrix.mul_apply, Fin.sum_univ_succ] at h21

/-- C4 (amended): self-composition is safe through a copy.  For every matrix `A`,
`A.OperatorTimesEquals(A')` (3x3) and `A *= A'` (4x4) with `A'` a distinct object
holding the value of `A` leave the receiver equal to the product `A·A`; with the
argument aliased to the receiver, the first row of the result is still the first
row of `A·A`. -/
theorem C4_self_composition_through_copy (A : Matrix3x3 K) (A4 : Matrix4x4 K) :
    Matrix3x3.toMatrix (Matrix3x3.OperatorTimesEquals A A)
        = Matrix3x3.toMatrix A * Matrix3x3.toMatrix A ∧
      (∀ j, Matrix3x3.toMatrix (Matrix3x3.OperatorTimesEqualsSelf A) 0 j
        = (Matrix3x3.toMatrix A * Matrix3x3.toMatrix A) 0 j) ∧
      Matrix4x4.toMatrix (Matrix4x4.operatorTimesEquals A4 A4)
        = Matrix4x4.toMatrix A4 * Matrix4x4.toMatrix A4 ∧
      (∀ j, Matrix4x4.toMatrix (Matrix4x4.operatorTimesEqualsSelf A4) 0 j
        = (Matrix4x4.toMatrix A4 * Matrix4x4.toMatrix A4) 0 j) := by
  refine ⟨Matrix3x3.toMatrix3_OperatorTimesEquals A A, ?_,
    Matrix4x4.toMatrix4_operatorTimesEquals A4 A4, ?_⟩
  · intro j
    rw [Matrix.mul_apply, Fin.sum_univ_three]
    fin_cases j <;> rfl
  · intro j
    rw [Matrix.mul_apply, Fin.sum_univ_four]
    fin_cases j <;> rfl

/-- The leading principal minors of a symmetric positive-definite matrix are positive. -/
theorem Matrix3x3.IsSymPosDef.minors_pos {M : Matrix3x3 K} (h : Matrix3x3.IsSymPosDef M) :
    0 < M.m11 ∧ 0 < M.m11 * M.m22 - M.m12 * M.m12 ∧
      0 < M.m11 * (M.m22 * M.m33 - M.m23 * M.m32) + M.m12 * (M.m31 * M.m23 - M.m21 * M.m33)
        + M.m13 * (M.m21 * M.m32 - M.m31 * M.m22) := by
  obtain ⟨⟨h12, h13, h23⟩, hq⟩ := h
  have p1 : 0 < M.m11 := by
    have := hq 1 0 0 (Or.inl one_ne_zero)
    simpa [Matrix3x3.quadForm] using this
  have p2 : 0 < M.m11 * M.m22 - M.m12 * M.m12 := by
    have := hq (-M.m12) M.m11 0 (Or.inr (Or.inl p1.ne.symm))
    have e : Matrix3x3.quadForm M (-M.m12) M.m11 0
        = M.m11 * (M.m11 * M.m22 - M.m12 * M.m12) := by
      simp only [Matrix3x3.quadForm, ← h12]; ring
    rw [e] at this
    exact (mul_pos_iff_of_pos_left p1).mp this
  refine ⟨p1, p2, ?_⟩
  have := hq (M.m12 * M.m23 - M.m22 * M.m13) (M.m21 * M.m13 - M.m11 * M.m23)
    (M.m11 * M.m22 - M.m12 * M.m12) (Or.inr (Or.inr p2.ne.symm))
  have e : Matrix3x3.quadForm M (M.m12 * M.m23 - M.m22 * M.m13) (M.m21 * M.m13 - M.m11 * M.m23)
      (M.m11 * M.m22 - M.m12 * M.m12)
      = (M.m11 * M.m22 - M.m12 * M.m12) *
        (M.m11 * (M.m22 * M.m33 - M.m23 * M.m32) + M.m12 * (M.m31 * M.m23 - M.m21 * M.m33)
        + M.m13 * (M.m21 * M.m32 - M.m31 * M.m22)) := by
    simp only [Matrix3x3.quadForm, ← h12, ← h13, ← h23]; ring
  rw [e] at this
  exact (mul_pos_iff_of_pos_left p2).mp this

/-- Over the reals, `IsSymPosDef` is positive-definiteness of the denoted matrix. -/
theorem Matrix3x3.isSymPosDef_iff_posDef (M : Matrix3x3 ℝ) :
    Matrix3x3.IsSymPosDef M ↔ (Matrix3x3.toMatrix M).PosDef := by
  have hq : ∀ v : Fin 3 → ℝ, Matrix.dotProduct (star v) ((Matrix3x3.toMatrix M).mulVec v)
      = Matrix3x3.quadForm M (v 0) (v 1) (v 2) := by
    intro v
    simp [Matrix.dotProduct, Matrix.mulVec, Fin.sum_univ_three, Matrix3x3.toMatrix,
      Matrix3x3.quadForm]
  constructor
  · rintro ⟨⟨h12, h13, h23⟩, hpos⟩
    refine ⟨?_, ?_⟩
    · ext i j
      fin_cases i <;> fin_cases j <;>
        simp [Matrix3x3.toMatrix, Matrix.conjTranspose_apply, h12, h13, h23]
    · intro v hv
      rw [hq]
      apply hpos
      by_contra hcon
      push_neg at hcon
      apply hv
      funext i
      fin_cases i
      · exact hcon.1
      · exact hcon.2.1
      · exact hcon.2.2
  · rintro ⟨hh, hpos⟩
    refine ⟨⟨?_, ?_, ?_⟩, ?_⟩
    · have := congrFun (congrFun hh 1) 0
      simpa [Matrix3x3.toMatrix, Matrix.conjTranspose_apply] using this
    · have := congrFun (congrFun hh 2) 0
      simpa [Matrix3x3.toMatrix, Matrix.conjTranspose_apply] using this
    · have := congrFun (congrFun hh 2) 1
      simpa [Matrix3x3.toMatrix, Matrix.conjTranspose_apply] using this
    · intro x y z hxyz
      have hv : (![x, y, z] : Fin 3 → ℝ) ≠ 0 := by
        intro h0
        have h1 := congrFun h0 0
        have h2 := congrFun h0 1
        have h3 := congrFun h0 2
        simp at h1 h2 h3
        rcases hxyz with h | h | h
        · exact h h1
        · exact h h2
        · exact h h3
      have := hpos ![x, y, z] hv
      rw [hq] at this
      simpa using this

/-- The first Schur complement `u22star` of the LDLᵗ routines, as a quotient of minors. -/
theorem u22star_eq (a11 a12 a22 : K) (h1 : a11 ≠ 0) :
    a22 - a12 * (a12 * (1 / a11)) = (a11 * a22 - a12 * a12) / a11 := by
  field_simp
  ring

/-- The final Schur complement `u33starstar` of the LDLᵗ routines, as a quotient
of minors. -/
theorem u33starstar_eq (a11 a12 a13 a22 a23 a33 : K) (h1 : a11 ≠ 0)
    (h2 : a11 * a22 - a12 * a12 ≠ 0) :
    a33 - a13 * (a13 * (1 / a11))
      - (a23 - a12 * (a13 * (1 / a11))) * ((a23 - a12 * (a13 * (1 / a11))) *
        (1 / (a22 - a12 * (a12 * (1 / a11)))))
      = (a11 * (a22 * a33 - a23 * a23) + a12 * (a13 * a23 - a12 * a33)
        + a13 * (a12 * a23 - a13 * a22)) / (a11 * a22 - a12 * a12) := by
  rw [u22star_eq a11 a12 a22 h1]
  field_simp
  ring

/-- On a symmetric matrix whose leading principal minors are not zero, the
LDLᵗ routine `InvertPosDef` computes the same matrix as `Inverse`. -/
theorem LinearMapR3.InvertPosDef_eq_Inverse {M : LinearMapR3 K}
    (hs : Matrix3x3.IsSymmetric M) (h1 : M.m11 ≠ 0)
    (h2 : M.m11 * M.m22 - M.m12 * M.m12 ≠ 0)
    (h3 : M.m11 * (M.m22 * M.m33 - M.m23 * M.m32) + M.m12 * (M.m31 * M.m23 - M.m21 * M.m33)
        + M.m13 * (M.m21 * M.m32 - M.m31 * M.m22) ≠ 0) :
    LinearMapR3.InvertPosDef M = LinearMapR3.Inverse M := by
  obtain ⟨h12, h13, h23⟩ := hs
  obtain ⟨a11, a12, a13, a21, a22, a23, a31, a32, a33⟩ := M
  simp only at h12 h13 h23 h1 h2 h3
  subst h12 h13 h23
  simp only [LinearMapR3.InvertPosDef, LinearMapR3.Inverse, LinearMapR3.ofColumns,
    Matrix3x3.set_m11, Matrix3x3.set_m12, Matrix3x3.set_m13, Matrix3x3.set_m21,
    Matrix3x3.set_m22, Matrix3x3.set_m23, Matrix3x3.set_m31, Matrix3x3.set_m32,
    Matrix3x3.set_m33, Matrix3x3.mk.injEq]
  rw [u33starstar_eq a11 a12 a13 a22 a23 a33 h1 h2, u22star_eq a11 a12 a22 h1]
  refine ⟨?_, ?_, ?_, ?_, ?_, ?_, ?_, ?_, ?_⟩ <;> field_simp <;> ring

/-- The returned-copy routine `InversePosDef` and the in-place routine
`InvertPosDef` compute the same matrix, whatever the default-constructed `ret`. -/
theorem LinearMapR3.InversePosDef_eq_InvertPosDef (ret M : LinearMapR3 K) :
    LinearMapR3.InversePosDef ret M = LinearMapR3.InvertPosDef M := by
  have e : M.m13 * (M.m12 * (1 / M.m11)) = M.m12 * (M.m13 * (1 / M.m11)) := by ring
  simp only [LinearMapR3.InversePosDef, LinearMapR3.InversePosDefInto, LinearMapR3.InvertPosDef,
    Matrix3x3.set_m11, Matrix3x3.set_m12, Matrix3x3.set_m13, Matrix3x3.set_m21,
    Matrix3x3.set_m22, Matrix3x3.set_m23, Matrix3x3.set_m31, Matrix3x3.set_m32,
    Matrix3x3.set_m33, e]

/-- The assertions of `InvertPosDef` hold on a symmetric positive-definite matrix. -/
theorem LinearMapR3.InvertPosDefAsserts_of_posDef {M : LinearMapR3 K}
    (h : Matrix3x3.IsSymPosDef M) : LinearMapR3.InvertPosDefAsserts M := by
  obtain ⟨p1, p2, p3⟩ := h.minors_pos
  obtain ⟨⟨h12, h13, h23⟩, -⟩ := h
  obtain ⟨a11, a12, a13, a21, a22, a23, a31, a32, a33⟩ := M
  simp only at h12 h13 h23 p1 p2 p3
  subst h12 h13 h23
  simp only [LinearMapR3.InvertPosDefAsserts]
  rw [u33starstar_eq a11 a12 a13 a22 a23 a33 p1.ne.symm p2.ne.symm,
    u22star_eq a11 a12 a22 p1.ne.symm]
  exact ⟨p1, div_pos p2 p1, div_pos p3 p2⟩

/-- The assertions of `InversePosDef` and of `InvertPosDef` are the same conditions. -/
theorem LinearMapR3.InversePosDefAsserts_iff (M : LinearMapR3 K) :
    LinearMapR3.InversePosDefAsserts M ↔ LinearMapR3.InvertPosDefAsserts M := by
  have e : M.m13 * (M.m12 * (1 / M.m11)) = M.m12 * (M.m13 * (1 / M.m11)) := by ring
  simp only [LinearMapR3.InversePosDefAsserts, LinearMapR3.InvertPosDefAsserts, e]

/-- C5: for every symmetric positive-definite 3x3 matrix `M` the assertions of the
LDLᵗ routines hold, and `InvertPosDef()` (in place), `InversePosDef()` (returned
copy, whatever the default-constructed `ret`) and the general `Inverse()` all yield
the same matrix, which is the inverse of `M`: its product with `M` under
`operator*` is the identity in both orders. -/
theorem C5_PosDef_inverses_agree (ret M : LinearMapR3 K) (h : Matrix3x3.IsSymPosDef M) :
    LinearMapR3.InvertPosDefAsserts M ∧ LinearMapR3.InversePosDefAsserts M ∧
      LinearMapR3.InvertPosDef M = LinearMapR3.Inverse M ∧
      LinearMapR3.InversePosDef ret M = LinearMapR3.Inverse M ∧
      LinearMapR3.operatorTimes M (LinearMapR3.Inverse M) = Matrix3x3.Identity ∧
      LinearMapR3.operatorTimes (LinearMapR3.Inverse M) M = Matrix3x3.Identity := by
  obtain ⟨p1, p2, p3⟩ := h.minors_pos
  have hA := LinearMapR3.InvertPosDefAsserts_of_posDef h
  have hI := LinearMapR3.InvertPosDef_eq_Inverse h.1 p1.ne.symm p2.ne.symm p3.ne.symm
  obtain ⟨h1, h2⟩ := LinearMapR3.operatorTimes_Inverse M p3.ne.symm
  exact ⟨hA, (LinearMapR3.InversePosDefAsserts_iff M).mpr hA, hI,
    (LinearMapR3.InversePosDef_eq_InvertPosDef ret M).trans hI, h1, h2⟩

/-- The matrix `samplePosDef` is symmetric positive-definite. -/
theorem samplePosDef_isSymPosDef : Matrix3x3.IsSymPosDef samplePosDef := by
  refine ⟨by decide, ?_⟩
  intro x y z hxyz
  have e : Matrix3x3.quadForm samplePosDef x y z
      = (2 * x + y) ^ 2 / 2 + (2 * z + y) ^ 2 / 2 + y ^ 2 := by
    simp only [Matrix3x3.quadForm, samplePosDef]; ring
  rw [e]
  rcases hxyz with hx | hy | hz
  · by_contra hcon
    have h0 : (2 * x + y) ^ 2 / 2 + (2 * z + y) ^ 2 / 2 + y ^ 2 = 0 :=
      le_antisymm (not_lt.mp hcon) (by positivity)
    have hy0 : y = 0 := by
      have : y ^ 2 = 0 := by linarith [sq_nonneg (2 * x + y), sq_nonneg (2 * z + y), sq_nonneg y]
      simpa using this
    subst hy0
    have : x ^ 2 = 0 := by linarith [sq_nonneg (2 * z), sq_nonneg x]
    exact hx (by simpa using this)
  · have := sq_pos_of_ne_zero hy
    positivity
  · by_contra hcon
    have h0 : (2 * x + y) ^ 2 / 2 + (2 * z + y) ^ 2 / 2 + y ^ 2 = 0 :=
      le_antisymm (not_lt.mp hcon) (by positivity)
    have hy0 : y = 0 := by
      have : y ^ 2 = 0 := by linarith [sq_nonneg (2 * x + y), sq_nonneg (2 * z + y), sq_nonneg y]
      simpa using this
    subst hy0
    have : z ^ 2 = 0 := by linarith [sq_nonneg (2 * x), sq_nonneg z]
    exact hz (by simpa using this)

/-- C5 run on `samplePosDef`, with the identity as the default-constructed value. -/
theorem C5_PosDef_inverses_agree_witness :
    Matrix3x3.IsSymPosDef samplePosDef ∧
      LinearMapR3.InvertPosDefAsserts samplePosDef ∧
      LinearMapR3.InversePosDefAsserts samplePosDef ∧
      LinearMapR3.InvertPosDef samplePosDef = LinearMapR3.Inverse samplePosDef ∧
      LinearMapR3.InversePosDef Matrix3x3.Identity samplePosDef
        = LinearMapR3.Inverse samplePosDef ∧
      LinearMapR3.operatorTimes samplePosDef (LinearMapR3.Inverse samplePosDef)
        = Matrix3x3.Identity ∧
      LinearMapR3.operatorTimes (LinearMapR3.Inverse samplePosDef) samplePosDef
        = Matrix3x3.Identity :=
  ⟨samplePosDef_isSymPosDef,
    C5_PosDef_inverses_agree Matrix3x3.Identity samplePosDef samplePosDef_isSymPosDef⟩

/-- C6: on `diag(1, 1, -1e-7)` every assertion of `InvertPosDefSafe` holds, the
three divisors are `1`, `1` and `ε = 1e-5·(2 − 1e-7)`, none of them zero, the result
is `diag(1, 1, 1/ε)`, and the product of the result with the input (in either order)
is `diag(1, 1, -1e-7/ε)`: identity upper-left 2x2 block, zero off-diagonal entries. -/
theorem C6_InvertPosDefSafe_slightly_indefinite :
    LinearMapR3.InvertPosDefSafeAsserts (slightlyIndefinite : LinearMapR3 K) ∧
      LinearMapR3.InvertPosDefSafeDivisors (slightlyIndefinite : LinearMapR3 K)
        = (1, 1, 1.0e-5 * (2 - 1.0e-7)) ∧
      (1.0e-5 * (2 - 1.0e-7) : K) ≠ 0 ∧
      LinearMapR3.InvertPosDefSafe (slightlyIndefinite : LinearMapR3 K)
        = LinearMapR3.ofColumns 1 0 0 0 1 0 0 0 (1 / (1.0e-5 * (2 - 1.0e-7))) ∧
      LinearMapR3.operatorTimes (LinearMapR3.InvertPosDefSafe slightlyIndefinite)
          (slightlyIndefinite : LinearMapR3 K)
        = LinearMapR3.ofColumns 1 0 0 0 1 0 0 0 (-1.0e-7 / (1.0e-5 * (2 - 1.0e-7))) ∧
      LinearMapR3.operatorTimes (slightlyIndefinite : LinearMapR3 K)
          (LinearMapR3.InvertPosDefSafe slightlyIndefinite)
        = LinearMapR3.ofColumns 1 0 0 0 1 0 0 0 (-1.0e-7 / (1.0e-5 * (2 - 1.0e-7))) := by
  have hr : LinearMapR3.InvertPosDefSafe (slightlyIndefinite : LinearMapR3 K)
      = LinearMapR3.ofColumns 1 0 0 0 1 0 0 0 (1 / (1.0e-5 * (2 - 1.0e-7))) := by
    norm_num [LinearMapR3.InvertPosDefSafe, slightlyIndefinite, Max, LinearMapR3.ofColumns]
  refine ⟨?_, ?_, ?_, hr, ?_, ?_⟩
  · norm_num [LinearMapR3.InvertPosDefSafeAsserts, slightlyIndefinite, Max]
  · norm_num [LinearMapR3.InvertPosDefSafeDivisors, slightlyIndefinite, Max]
  · norm_num
  · rw [hr]
    norm_num [LinearMapR3.operatorTimes, slightlyIndefinite, LinearMapR3.ofColumns]
  · rw [hr]
    norm_num [LinearMapR3.operatorTimes, slightlyIndefinite, LinearMapR3.ofColumns]

/-- The squared norm of `v.Rotate(θ, w)` is that of `v` when `cos²θ + sin²θ = 1` and
`w` has unit length. -/
theorem VectorR3.NormSq_Rotate (cos sin : K → K) (v w : VectorR3 K) (theta : K)
    (hcs : cos theta * cos theta + sin theta * sin theta = 1)
    (hw : VectorR3.NormSq w = 1) :
    VectorR3.NormSq (VectorR3.Rotate cos sin v theta w) = VectorR3.NormSq v := by
  obtain ⟨x, y, z⟩ := v
  obtain ⟨wx, wy, wz⟩ := w
  simp only [VectorR3.NormSq, VectorR3.Rotate, VectorR3.set_x, VectorR3.set_y,
    VectorR3.set_z] at hw ⊢
  generalize cos theta = c at hcs ⊢
  generalize sin theta = s at hcs ⊢
  linear_combination
    (x * x + y * y + z * z - 2 * (x * wx + y * wy + z * wz) ^ 2
        + (x * wx + y * wy + z * wz) ^ 2 * (wx * wx + wy * wy + wz * wz)) * hcs
    + (2 * (x * wx + y * wy + z * wz) ^ 2
        + s ^ 2 * (x * x + y * y + z * z - 2 * (x * wx + y * wy + z * wz) ^ 2
          + (x * wx + y * wy + z * wz) ^ 2 * (wx * wx + wy * wy + wz * wz))
        - s ^ 2 * (x * wx + y * wy + z * wz) ^ 2 * (wx * wx + wy * wy + wz * wz - 1)
        - 2 * c * (x * wx + y * wy + z * wz) ^ 2) * hw

/-- Rotating by `θ` and then by `−θ` about a unit axis gives the vector back. -/
theorem VectorR3.Rotate_Rotate_neg (cos sin : K → K) (v w : VectorR3 K) (theta : K)
    (hcs : cos theta * cos theta + sin theta * sin theta = 1)
    (hcneg : cos (-theta) = cos theta) (hsneg : sin (-theta) = -sin theta)
    (hw : VectorR3.NormSq w = 1) :
    VectorR3.Rotate cos sin (VectorR3.Rotate cos sin v theta w) (-theta) w = v := by
  obtain ⟨x, y, z⟩ := v
  obtain ⟨wx, wy, wz⟩ := w
  simp only [VectorR3.NormSq, VectorR3.Rotate, VectorR3.set_x, VectorR3.set_y,
    VectorR3.set_z, hcneg, hsneg, VectorR3.mk.injEq] at hw ⊢
  generalize cos theta = c at hcs ⊢
  generalize sin theta = s at hcs ⊢
  refine ⟨?_, ?_, ?_⟩
  · linear_combination (x - (x * wx + y * wy + z * wz) * wx) * hcs
      + ((1 - c) ^ 2 * (x * wx + y * wy + z * wz) * wx + s ^ 2 * x) * hw
  · linear_combination (y - (x * wx + y * wy + z * wz) * wy) * hcs
      + ((1 - c) ^ 2 * (x * wx + y * wy + z * wz) * wy + s ^ 2 * y) * hw
  · linear_combination (z - (x * wx + y * wy + z * wz) * wz) * hcs
      + ((1 - c) ^ 2 * (x * wx + y * wy + z * wz) * wz + s ^ 2 * z) * hw

/-- With the real cosine and sine, `Rotate` about a unit axis preserves the
squared norm, for every angle. -/
theorem VectorR3.NormSq_Rotate_real (v w : VectorR3 ℝ) (theta : ℝ)
    (hw : VectorR3.NormSq w = 1) :
    VectorR3.NormSq (VectorR3.Rotate Real.cos Real.sin v theta w) = VectorR3.NormSq v :=
  VectorR3.NormSq_Rotate Real.cos Real.sin v w theta
    (by rw [← sq, ← sq]; exact Real.cos_sq_add_sin_sq theta) hw

/-- With the real cosine and sine, `Rotate(θ, w)` followed by `Rotate(−θ, w)` about
a unit axis is the identity, for every angle. -/
theorem VectorR3.Rotate_Rotate_neg_real (v w : VectorR3 ℝ) (theta : ℝ)
    (hw : VectorR3.NormSq w = 1) :
    VectorR3.Rotate Real.cos Real.sin (VectorR3.Rotate Real.cos Real.sin v theta w)
      (-theta) w = v :=
  VectorR3.Rotate_Rotate_neg Real.cos Real.sin v w theta
    (by rw [← sq, ← sq]; exact Real.cos_sq_add_sin_sq theta)
    (Real.cos_neg theta) (Real.sin_neg theta) hw

/-- C7: for every vector `v`, angle `θ` and axis `w` of unit length, `v.Rotate(θ, w)`
has the same squared Euclidean norm as `v`; of `cos` and `sin` only
`cos²θ + sin²θ = 1` is used. -/
theorem C7_Rotate_preserves_NormSq (cos sin : K → K) (v w : VectorR3 K) (theta : K)
    (hcs : cos theta * cos theta + sin theta * sin theta = 1)
    (hw : VectorR3.NormSq w = 1) :
    VectorR3.NormSq (VectorR3.Rotate cos sin v theta w) = VectorR3.NormSq v :=
  VectorR3.NormSq_Rotate cos sin v w theta hcs hw

/-- C7 run over `ℚ` on `sampleVec`, the unit axis `sampleAxis` and the angle
parameter 2, where `ratCos 2 = -3/5` and `ratSin 2 = 4/5`. -/
theorem C7_Rotate_preserves_NormSq_witness :
    ratCos 2 * ratCos 2 + ratSin 2 * ratSin 2 = 1 ∧ VectorR3.NormSq sampleAxis = 1 ∧
      VectorR3.NormSq (VectorR3.Rotate ratCos ratSin sampleVec 2 sampleAxis)
        = VectorR3.NormSq sampleVec :=
  have hcs : ratCos 2 * ratCos 2 + ratSin 2 * ratSin 2 = 1 := by norm_num [ratCos, ratSin]
  have hw : VectorR3.NormSq sampleAxis = 1 := by norm_num [VectorR3.NormSq, sampleAxis]
  ⟨hcs, hw, C7_Rotate_preserves_NormSq ratCos ratSin sampleVec sampleAxis 2 hcs hw⟩

/-- C8: for every vector `v`, angle `θ` and axis `w` of unit length, `Rotate(θ, w)`
followed by `Rotate(−θ, w)` returns exactly `v`; of `cos` and `sin` only
`cos²θ + sin²θ = 1`, `cos(−θ) = cos θ` and `sin(−θ) = −sin θ` are used. -/
theorem C8_Rotate_round_trip (cos sin : K → K) (v w : VectorR3 K) (theta : K)
    (hcs : cos theta * cos theta + sin theta * sin theta = 1)
    (hcneg : cos (-theta) = cos theta) (hsneg : sin (-theta) = -sin theta)
    (hw : VectorR3.NormSq w = 1) :
    VectorR3.Rotate cos sin (VectorR3.Rotate cos sin v theta w) (-theta) w = v :=
  VectorR3.Rotate_Rotate_neg cos sin v w theta hcs hcneg hsneg hw

/-- C8 run over `ℚ` on `sampleVec`, the unit axis `sampleAxis` and the angle
parameter 2. -/
theorem C8_Rotate_round_trip_witness :
    ratCos 2 * ratCos 2 + ratSin 2 * ratSin 2 = 1 ∧ ratCos (-2) = ratCos 2 ∧
      ratSin (-2) = -ratSin 2 ∧ VectorR3.NormSq sampleAxis = 1 ∧
      VectorR3.Rotate ratCos ratSin (VectorR3.Rotate ratCos ratSin sampleVec 2 sampleAxis)
        (-2) sampleAxis = sampleVec :=
  have hcs : ratCos 2 * ratCos 2 + ratSin 2 * ratSin 2 = 1 := by norm_num [ratCos, ratSin]
  have hc : ratCos (-2) = ratCos 2 := by norm_num [ratCos]
  have hs : ratSin (-2) = -ratSin 2 := by norm_num [ratSin]
  have hw : VectorR3.NormSq sampleAxis = 1 := by norm_num [VectorR3.NormSq, sampleAxis]
  ⟨hcs, hc, hs, hw, C8_Rotate_round_trip ratCos ratSin sampleVec sampleAxis 2 hcs hc hs hw⟩

/-- On a matrix with mutually orthogonal columns, `Matrix3x3::ReNormalize` only
rescales each column by `1 - 0.5*(‖column‖² - 1)`: the pairwise corrections vanish. -/
theorem Matrix3x3.ReNormalize_of_orthogonal (M : Matrix3x3 K)
    (h : Matrix3x3.ColumnsOrthogonal M) :
    Matrix3x3.ReNormalize M =
      { m11 := M.m11 * (1.0 - 0.5 * (Matrix3x3.colNormSq M 0 - 1.0)),
        m12 := M.m12 * (1.0 - 0.5 * (Matrix3x3.colNormSq M 1 - 1.0)),
        m13 := M.m13 * (1.0 - 0.5 * (Matrix3x3.colNormSq M 2 - 1.0)),
        m21 := M.m21 * (1.0 - 0.5 * (Matrix3x3.colNormSq M 0 - 1.0)),
        m22 := M.m22 * (1.0 - 0.5 * (Matrix3x3.colNormSq M 1 - 1.0)),
        m23 := M.m23 * (1.0 - 0.5 * (Matrix3x3.colNormSq M 2 - 1.0)),
        m31 := M.m31 * (1.0 - 0.5 * (Matrix3x3.colNormSq M 0 - 1.0)),
        m32 := M.m32 * (1.0 - 0.5 * (Matrix3x3.colNormSq M 1 - 1.0)),
        m33 := M.m33 * (1.0 - 0.5 * (Matrix3x3.colNormSq M 2 - 1.0)) } := by
  obtain ⟨h12, h13, h23⟩ := h
  obtain ⟨a11, a12, a13, a21, a22, a23, a31, a32, a33⟩ := M
  simp only [Matrix3x3.ReNormalize, Matrix3x3.colNormSq,
    Matrix3x3.set_m11, Matrix3x3.set_m12, Matrix3x3.set_m13, Matrix3x3.set_m21,
    Matrix3x3.set_m22, Matrix3x3.set_m23, Matrix3x3.set_m31, Matrix3x3.set_m32,
    Matrix3x3.set_m33, Matrix3x3.mk.injEq] at h12 h13 h23 ⊢
  generalize (1.0 - 0.5 * (a11 * a11 + a21 * a21 + a31 * a31 - 1.0) : K) = α
  generalize (1.0 - 0.5 * (a12 * a12 + a22 * a22 + a32 * a32 - 1.0) : K) = β
  generalize (1.0 - 0.5 * (a13 * a13 + a23 * a23 + a33 * a33 - 1.0) : K) = γ
  have e12 : a11 * α * (a12 * β) + a21 * α * (a22 * β) + a31 * α * (a32 * β) = 0 := by
    linear_combination (α * β) * h12
  have e13 : a11 * α * (a13 * γ) + a21 * α * (a23 * γ) + a31 * α * (a33 * γ) = 0 := by
    linear_combination (α * γ) * h13
  have e23 : a12 * β * (a13 * γ) + a22 * β * (a23 * γ) + a32 * β * (a33 * γ) = 0 := by
    linear_combination (β * γ) * h23
  simp only [e12, e13, e23]
  refine ⟨?_, ?_, ?_, ?_, ?_, ?_, ?_, ?_, ?_⟩ <;> ring


/-- On a matrix with orthonormal columns, `Matrix4x4::ReNormalize` changes nothing. -/
theorem Matrix4x4.ReNormalize_of_orthonormal (M : Matrix4x4 K)
    (h : Matrix4x4.ColumnsOrthonormal M) : Matrix4x4.ReNormalize M = M := by
  obtain ⟨⟨n1, n2, n3, n4⟩, d12, d13, d14, d23, d24, d34⟩ := h
  obtain ⟨a11, a12, a13, a14, a21, a22, a23, a24, a31, a32, a33, a34, a41, a42, a43, a44⟩ := M
  have e : (1.0 - 0.5 * (1 - 1.0) : K) = 1 := by norm_num
  simp only at n1 n2 n3 n4 d12 d13 d14 d23 d24 d34
  simp only [Matrix4x4.ReNormalize, ReNormalizeHelper, Matrix4x4.set_m11, Matrix4x4.set_m12,
    Matrix4x4.set_m13, Matrix4x4.set_m14, Matrix4x4.set_m21, Matrix4x4.set_m22,
    Matrix4x4.set_m23, Matrix4x4.set_m24, Matrix4x4.set_m31, Matrix4x4.set_m32,
    Matrix4x4.set_m33, Matrix4x4.set_m34, Matrix4x4.set_m41, Matrix4x4.set_m42,
    Matrix4x4.set_m43, Matrix4x4.set_m44, n1, n2, n3, n4, e, mul_one, d12, d13, d14, d23, d24,
    d34, mul_zero, zero_mul, sub_zero, add_zero]

/-- C9: `ReNormalize` applied to a matrix whose columns are orthonormal (unit
length, pairwise dot product 0) returns that matrix unchanged, for
`Matrix3x3::ReNormalize` and for `Matrix4x4::ReNormalize`. -/
theorem C9_ReNormalize_fixes_orthonormal (M3 : Matrix3x3 K) (M4 : Matrix4x4 K)
    (h3 : Matrix3x3.ColumnsOrthonormal M3) (h4 : Matrix4x4.ColumnsOrthonormal M4) :
    Matrix3x3.ReNormalize M3 = M3 ∧ Matrix4x4.ReNormalize M4 = M4 := by
  refine ⟨?_, Matrix4x4.ReNormalize_of_orthonormal M4 h4⟩
  rw [Matrix3x3.ReNormalize_of_orthogonal M3 h3.2, h3.1 0, h3.1 1, h3.1 2]
  have e : (1.0 - 0.5 * (1 - 1.0) : K) = 1 := by norm_num
  simp only [e, mul_one]

/-- The columns of `sampleRot3` are orthonormal. -/
theorem sampleRot3_orthonormal : Matrix3x3.ColumnsOrthonormal sampleRot3 := by
  refine ⟨?_, by norm_num [Matrix3x3.ColumnsOrthogonal, sampleRot3]⟩
  intro j
  fin_cases j <;> norm_num [Matrix3x3.colNormSq, sampleRot3]

/-- C9 run on the rotation matrices `sampleRot3` and `sampleRot4`. -/
theorem C9_ReNormalize_fixes_orthonormal_witness :
    Matrix3x3.ColumnsOrthonormal sampleRot3 ∧ Matrix4x4.ColumnsOrthonormal sampleRot4 ∧
      Matrix3x3.ReNormalize sampleRot3 = sampleRot3 ∧
      Matrix4x4.ReNormalize sampleRot4 = sampleRot4 :=
  have h4 : Matrix4x4.ColumnsOrthonormal sampleRot4 := by
    norm_num [Matrix4x4.ColumnsOrthonormal, sampleRot4]
  ⟨sampleRot3_orthonormal, h4,
    C9_ReNormalize_fixes_orthonormal sampleRot3 sampleRot4 sampleRot3_orthonormal h4⟩

/-- The step `n ↦ n·(3 − n)²/4` on a squared norm `n ∈ [0, 2]` squares the distance
to 1 at least: `|n' − 1| ≤ (n − 1)² ≤ |n − 1|`. -/
theorem renorm_step_bounds (n : K) (h0 : 0 ≤ n) (h2 : n ≤ 2) :
    |n * (3 - n) ^ 2 / 4 - 1| ≤ (n - 1) ^ 2 ∧ (n - 1) ^ 2 ≤ |n - 1| := by
  constructor
  · rw [abs_le]
    constructor
    · nlinarith [mul_nonneg (sq_nonneg (n - 1)) h0]
    · nlinarith [mul_nonneg (sq_nonneg (n - 1)) (by linarith : (0 : K) ≤ 8 - n)]
  · have h1 : |n - 1| ≤ 1 := abs_le.mpr ⟨by linarith, by linarith⟩
    calc (n - 1) ^ 2 = |n - 1| * |n - 1| := by rw [abs_mul_abs_self]; ring
      _ ≤ 1 * |n - 1| := mul_le_mul_of_nonneg_right h1 (abs_nonneg _)
      _ = |n - 1| := one_mul _

/-- C10: for every 3x3 matrix whose columns are mutually orthogonal and whose
squared column norms `n_i` lie in `[0, 2]`, after one `ReNormalize` the columns are
still mutually orthogonal and each new squared norm is `n_i' = n_i·(3 − n_i)²/4`,
with `|n_i' − 1| ≤ (n_i − 1)² ≤ |n_i − 1|`. -/
theorem C10_ReNormalize_column_norms_converge (M : Matrix3x3 K)
    (h : Matrix3x3.ColumnsOrthogonal M)
    (hn : ∀ j, 0 ≤ Matrix3x3.colNormSq M j ∧ Matrix3x3.colNormSq M j ≤ 2) :
    Matrix3x3.ColumnsOrthogonal (Matrix3x3.ReNormalize M) ∧
      ∀ j, Matrix3x3.colNormSq (Matrix3x3.ReNormalize M) j
          = Matrix3x3.colNormSq M j * (3 - Matrix3x3.colNormSq M j) ^ 2 / 4 ∧
        |Matrix3x3.colNormSq (Matrix3x3.ReNormalize M) j - 1|
          ≤ (Matrix3x3.colNormSq M j - 1) ^ 2 ∧
        (Matrix3x3.colNormSq M j - 1) ^ 2 ≤ |Matrix3x3.colNormSq M j - 1| := by
  rw [Matrix3x3.ReNormalize_of_orthogonal M h]
  have hnorm : ∀ j, Matrix3x3.colNormSq
      ({ m11 := M.m11 * (1.0 - 0.5 * (Matrix3x3.colNormSq M 0 - 1.0)),
         m12 := M.m12 * (1.0 - 0.5 * (Matrix3x3.colNormSq M 1 - 1.0)),
         m13 := M.m13 * (1.0 - 0.5 * (Matrix3x3.colNormSq M 2 - 1.0)),
         m21 := M.m21 * (1.0 - 0.5 * (Matrix3x3.colNormSq M 0 - 1.0)),
         m22 := M.m22 * (1.0 - 0.5 * (Matrix3x3.colNormSq M 1 - 1.0)),
         m23 := M.m23 * (1.0 - 0.5 * (Matrix3x3.colNormSq M 2 - 1.0)),
         m31 := M.m31 * (1.0 - 0.5 * (Matrix3x3.colNormSq M 0 - 1.0)),
         m32 := M.m32 * (1.0 - 0.5 * (Matrix3x3.colNormSq M 1 - 1.0)),
         m33 := M.m33 * (1.0 - 0.5 * (Matrix3x3.colNormSq M 2 - 1.0)) } : Matrix3x3 K) j
      = Matrix3x3.colNormSq M j * (3 - Matrix3x3.colNormSq M j) ^ 2 / 4 := by
    intro j
    fin_cases j <;> simp only [Matrix3x3.colNormSq] <;> ring
  obtain ⟨h12, h13, h23⟩ := h
  refine ⟨⟨?_, ?_, ?_⟩, ?_⟩
  · linear_combination ((1.0 - 0.5 * (Matrix3x3.colNormSq M 0 - 1.0))
      * (1.0 - 0.5 * (Matrix3x3.colNormSq M 1 - 1.0))) * h12
  · linear_combination ((1.0 - 0.5 * (Matrix3x3.colNormSq M 0 - 1.0))
      * (1.0 - 0.5 * (Matrix3x3.colNormSq M 2 - 1.0))) * h13
  · linear_combination ((1.0 - 0.5 * (Matrix3x3.colNormSq M 1 - 1.0))
      * (1.0 - 0.5 * (Matrix3x3.colNormSq M 2 - 1.0))) * h23
  · intro j
    rw [hnorm j]
    exact ⟨rfl, renorm_step_bounds _ (hn j).1 (hn j).2⟩

/-- C10 run on `sampleDrift3`, whose columns are orthogonal with squared norms
`1/4`, `25/16`, `25/16`. -/
theorem C10_ReNormalize_column_norms_converge_witness :
    Matrix3x3.ColumnsOrthogonal sampleDrift3 ∧
      (∀ j, 0 ≤ Matrix3x3.colNormSq sampleDrift3 j ∧ Matrix3x3.colNormSq sampleDrift3 j ≤ 2) ∧
      Matrix3x3.ColumnsOrthogonal (Matrix3x3.ReNormalize sampleDrift3) ∧
      ∀ j, Matrix3x3.colNormSq (Matrix3x3.ReNormalize sampleDrift3) j
          = Matrix3x3.colNormSq sampleDrift3 j * (3 - Matrix3x3.colNormSq sampleDrift3 j) ^ 2 / 4 ∧
        |Matrix3x3.colNormSq (Matrix3x3.ReNormalize sampleDrift3) j - 1|
          ≤ (Matrix3x3.colNormSq sampleDrift3 j - 1) ^ 2 ∧
        (Matrix3x3.colNormSq sampleDrift3 j - 1) ^ 2 ≤ |Matrix3x3.colNormSq sampleDrift3 j - 1| :=
  have h : Matrix3x3.ColumnsOrthogonal sampleDrift3 := by
    norm_num [Matrix3x3.ColumnsOrthogonal, sampleDrift3]
  have hn : ∀ j, 0 ≤ Matrix3x3.colNormSq sampleDrift3 j ∧
      Matrix3x3.colNormSq sampleDrift3 j ≤ 2 := by
    intro j
    fin_cases j <;> norm_num [Matrix3x3.colNormSq, sampleDrift3]
  ⟨h, hn, C10_ReNormalize_column_norms_converge sampleDrift3 h hn⟩

/-- On a matrix with unit columns whose third column is orthogonal to the other
two, `Matrix3x3::ReNormalize` subtracts from each of the first two columns half
their dot product times the other, and leaves the third column alone. -/
theorem Matrix3x3.ReNormalize_of_unit_third_orthogonal (M : Matrix3x3 K)
    (hunit : ∀ j, Matrix3x3.colNormSq M j = 1)
    (h13 : Matrix3x3.colDot13 M = 0) (h23 : Matrix3x3.colDot23 M = 0) :
    Matrix3x3.ReNormalize M =
      { m11 := M.m11 - Matrix3x3.colDot12 M * 0.5 * M.m12,
        m12 := M.m12 - Matrix3x3.colDot12 M * 0.5 * M.m11,
        m13 := M.m13,
        m21 := M.m21 - Matrix3x3.colDot12 M * 0.5 * M.m22,
        m22 := M.m22 - Matrix3x3.colDot12 M * 0.5 * M.m21,
        m23 := M.m23,
        m31 := M.m31 - Matrix3x3.colDot12 M * 0.5 * M.m32,
        m32 := M.m32 - Matrix3x3.colDot12 M * 0.5 * M.m31,
        m33 := M.m33 } := by
  have n1 := hunit 0
  have n2 := hunit 1
  have n3 := hunit 2
  obtain ⟨a11, a12, a13, a21, a22, a23, a31, a32, a33⟩ := M
  have e : (1.0 - 0.5 * (1 - 1.0) : K) = 1 := by norm_num
  simp only [Matrix3x3.colNormSq, Matrix3x3.colDot13, Matrix3x3.colDot23] at n1 n2 n3 h13 h23
  simp only [Matrix3x3.ReNormalize, Matrix3x3.colDot12,
    Matrix3x3.set_m11, Matrix3x3.set_m12, Matrix3x3.set_m13, Matrix3x3.set_m21,
    Matrix3x3.set_m22, Matrix3x3.set_m23, Matrix3x3.set_m31, Matrix3x3.set_m32,
    Matrix3x3.set_m33, n1, n2, n3, e, mul_one, h13, h23, zero_mul, sub_zero, add_zero]

/-- C11: for every 3x3 matrix with unit-length columns in which column 3 is
orthogonal to columns 1 and 2 and columns 1 and 2 have dot product `δ`, after one
`ReNormalize` the dot product of the new columns 1 and 2 is exactly `δ³/4`, column 3
is unchanged, and column 3 is still orthogonal to the new columns 1 and 2. -/
theorem C11_ReNormalize_dot_product_converges (M : Matrix3x3 K)
    (hunit : ∀ j, Matrix3x3.colNormSq M j = 1)
    (h13 : Matrix3x3.colDot13 M = 0) (h23 : Matrix3x3.colDot23 M = 0) :
    Matrix3x3.colDot12 (Matrix3x3.ReNormalize M) = Matrix3x3.colDot12 M ^ 3 / 4 ∧
      (Matrix3x3.ReNormalize M).m13 = M.m13 ∧ (Matrix3x3.ReNormalize M).m23 = M.m23 ∧
      (Matrix3x3.ReNormalize M).m33 = M.m33 ∧
      Matrix3x3.colDot13 (Matrix3x3.ReNormalize M) = 0 ∧
      Matrix3x3.colDot23 (Matrix3x3.ReNormalize M) = 0 := by
  rw [Matrix3x3.ReNormalize_of_unit_third_orthogonal M hunit h13 h23]
  have n1 := hunit 0
  have n2 := hunit 1
  simp only [Matrix3x3.colNormSq, Matrix3x3.colDot12, Matrix3x3.colDot13,
    Matrix3x3.colDot23] at n1 n2 h13 h23 ⊢
  refine ⟨?_, trivial, trivial, trivial, ?_, ?_⟩
  · linear_combination
      (-(M.m11 * M.m12 + M.m21 * M.m22 + M.m31 * M.m32) * 0.5) * n1
      + (-(M.m11 * M.m12 + M.m21 * M.m22 + M.m31 * M.m32) * 0.5) * n2
  · linear_combination h13 - ((M.m11 * M.m12 + M.m21 * M.m22 + M.m31 * M.m32) * 0.5) * h23
  · linear_combination h23 - ((M.m11 * M.m12 + M.m21 * M.m22 + M.m31 * M.m32) * 0.5) * h13

/-- C11 run on `sampleSkew3`, where `δ = 24/25`. -/
theorem C11_ReNormalize_dot_product_converges_witness :
    (∀ j, Matrix3x3.colNormSq sampleSkew3 j = 1) ∧ Matrix3x3.colDot13 sampleSkew3 = 0 ∧
      Matrix3x3.colDot23 sampleSkew3 = 0 ∧
      Matrix3x3.colDot12 (Matrix3x3.ReNormalize sampleSkew3)
        = Matrix3x3.colDot12 sampleSkew3 ^ 3 / 4 ∧
      (Matrix3x3.ReNormalize sampleSkew3).m13 = sampleSkew3.m13 ∧
      (Matrix3x3.ReNormalize sampleSkew3).m23 = sampleSkew3.m23 ∧
      (Matrix3x3.ReNormalize sampleSkew3).m33 = sampleSkew3.m33 ∧
      Matrix3x3.colDot13 (Matrix3x3.ReNormalize sampleSkew3) = 0 ∧
      Matrix3x3.colDot23 (Matrix3x3.ReNormalize sampleSkew3) = 0 :=
  have hunit : ∀ j, Matrix3x3.colNormSq sampleSkew3 j = 1 := by
    intro j
    fin_cases j <;> norm_num [Matrix3x3.colNormSq, sampleSkew3]
  have h13 : Matrix3x3.colDot13 sampleSkew3 = 0 := by
    norm_num [Matrix3x3.colDot13, sampleSkew3]
  have h23 : Matrix3x3.colDot23 sampleSkew3 = 0 := by
    norm_num [Matrix3x3.colDot23, sampleSkew3]
  ⟨hunit, h13, h23, C11_ReNormalize_dot_product_converges sampleSkew3 hunit h13 h23⟩

/-- The third and fourth rows written by `Set_glFrustum`: `m31 = m32 = 0`,
`m41 = m42 = 0`, `m43 = -1`, and the depth row sends `z = -near` to `-near` and
`z = -far` to `far`. -/
theorem LinearMapR4.Set_glFrustum_depth_rows (s : LinearMapR4 K)
    (left right bottom top near far : K) (hnf : near ≠ far) :
    (LinearMapR4.Set_glFrustum s left right bottom top near far).m31 = 0 ∧
      (LinearMapR4.Set_glFrustum s left right bottom top near far).m32 = 0 ∧
      (LinearMapR4.Set_glFrustum s left right bottom top near far).m41 = 0 ∧
      (LinearMapR4.Set_glFrustum s left right bottom top near far).m42 = 0 ∧
      (LinearMapR4.Set_glFrustum s left right bottom top near far).m43 = -1 ∧
      (LinearMapR4.Set_glFrustum s left right bottom top near far).m33 * (-near)
        + (LinearMapR4.Set_glFrustum s left right bottom top near far).m34 = -near ∧
      (LinearMapR4.Set_glFrustum s left right bottom top near far).m33 * (-far)
        + (LinearMapR4.Set_glFrustum s left right bottom top near far).m34 = far := by
  have h : near - far ≠ 0 := sub_ne_zero.mpr hnf
  simp only [LinearMapR4.Set_glFrustum, Matrix4x4.set_m11, Matrix4x4.set_m12,
    Matrix4x4.set_m13, Matrix4x4.set_m14, Matrix4x4.set_m21, Matrix4x4.set_m22,
    Matrix4x4.set_m23, Matrix4x4.set_m24, Matrix4x4.set_m31, Matrix4x4.set_m32,
    Matrix4x4.set_m33, Matrix4x4.set_m34, Matrix4x4.set_m41, Matrix4x4.set_m42,
    Matrix4x4.set_m43, Matrix4x4.set_m44]
  refine ⟨by norm_num, by norm_num, by norm_num, by norm_num, by norm_num, ?_, ?_⟩
  · field_simp
    ring
  · field_simp
    ring

/-- The depth computed by `AffineTransformPosition` at a point `(0,0,z)`: the depth
row applied to `(0,0,z,1)`, divided by the entry `m44`. -/
theorem LinearMapR4.AffineTransformPosition_z_axis (M : LinearMapR4 K) (z : K) :
    (LinearMapR4.AffineTransformPosition M { x := 0, y := 0, z := z }).z
      = (M.m33 * z + M.m34) / M.m44 := by
  simp only [LinearMapR4.AffineTransformPosition, VectorR3.set_x, VectorR3.set_y,
    VectorR3.set_z]
  norm_num
  ring

/-- C12 (fails on the code): on the identity matrix as receiver,
`Set_glFrustum(-1, 1, -1, 1, 2, 4)` (so `near = 2 < far = 4`) followed by
`AffineTransformPosition` sends `(0,0,-2)` to depth `-2` and `(0,0,-4)` to depth `4`,
not to `-1` and `+1`; and so does `Set_gluPerspective` with `tan(fov/2) = 1` and
aspect ratio 1. -/
theorem C12_frustum_depth_not_normalized :
    (LinearMapR4.AffineTransformPosition
        (LinearMapR4.Set_glFrustum (Matrix4x4.Identity : Matrix4x4 ℚ) (-1) 1 (-1) 1 2 4)
        { x := 0, y := 0, z := -2 }).z = -2 ∧
      (LinearMapR4.AffineTransformPosition
        (LinearMapR4.Set_glFrustum (Matrix4x4.Identity : Matrix4x4 ℚ) (-1) 1 (-1) 1 2 4)
        { x := 0, y := 0, z := -4 }).z = 4 ∧
      (LinearMapR4.AffineTransformPosition
        (LinearMapR4.Set_gluPerspective (fun _ => 1) (Matrix4x4.Identity : Matrix4x4 ℚ)
          1 1 2 4) { x := 0, y := 0, z := -2 }).z = -2 ∧
      (LinearMapR4.AffineTransformPosition
        (LinearMapR4.Set_gluPerspective (fun _ => 1) (Matrix4x4.Identity : Matrix4x4 ℚ)
          1 1 2 4) { x := 0, y := 0, z := -4 }).z = 4 ∧
      (LinearMapR4.AffineTransformPosition
        (LinearMapR4.Set_glFrustum (Matrix4x4.Identity : Matrix4x4 ℚ) (-1) 1 (-1) 1 2 4)
        { x := 0, y := 0, z := -2 }).z ≠ -1 ∧
      (LinearMapR4.AffineTransformPosition
        (LinearMapR4.Set_glFrustum (Matrix4x4.Identity : Matrix4x4 ℚ) (-1) 1 (-1) 1 2 4)
        { x := 0, y := 0, z := -4 }).z ≠ 1 := by
  refine ⟨?_, ?_, ?_, ?_, ?_, ?_⟩ <;>
    norm_num [LinearMapR4.AffineTransformPosition, LinearMapR4.Set_gluPerspective,
      LinearMapR4.Set_glFrustum, Matrix4x4.Identity, LinearMapR4.ofColumns]

/-- C12 (amended): for all `near ≠ far` (in particular `0 < near < far`), all `left`,
`right`, `bottom`, `top` and every `fov`, `aspect`, after `Set_glFrustum` or
`Set_gluPerspective` on any matrix the result `M` has `m41 = m42 = 0`, `m43 = -1`, so
it is not affine and `w = -z` is what its last row contributes at a point `(0,0,z)`;
its depth row sends `z = -near` to `-near` and `z = -far` to `far`, that is to `-1·w`
and `+1·w`; and `AffineTransformPosition`, which divides by the entry `m44` instead
of `w`, returns the depths `-near/m44` and `far/m44` when `m44 ≠ 0`. -/
theorem C12_frustum_depth_before_divide (tan : K → K) (s : LinearMapR4 K)
    (left right bottom top fov aspect near far : K) (hnf : near ≠ far) :
    LinearMapR4.FrustumDepth (LinearMapR4.Set_glFrustum s left right bottom top near far)
        near far ∧
      LinearMapR4.FrustumDepth (LinearMapR4.Set_gluPerspective tan s fov aspect near far)
        near far := by
  have key : ∀ l r b t : K,
      LinearMapR4.FrustumDepth (LinearMapR4.Set_glFrustum s l r b t near far) near far := by
    intro l r b t
    obtain ⟨-, -, h41, h42, h43, hn, hf⟩ :=
      LinearMapR4.Set_glFrustum_depth_rows s l r b t near far hnf
    refine ⟨h41, h42, h43, ?_, hn, hf, ?_⟩
    · rintro ⟨-, -, h, -⟩
      rw [h43] at h
      norm_num at h
    · intro _
      rw [LinearMapR4.AffineTransformPosition_z_axis,
        LinearMapR4.AffineTransformPosition_z_axis, hn, hf]
      exact ⟨rfl, rfl⟩
  exact ⟨key left right bottom top, key _ _ _ _⟩

/-- C12 (amended) run over `ℚ` on the identity matrix as receiver, with the frustum
`(-1, 1, -1, 1, 2, 4)` and the perspective of half-angle parameter `1/2`, aspect 1. -/
theorem C12_frustum_depth_before_divide_witness :
    (2 : ℚ) ≠ 4 ∧
      LinearMapR4.FrustumDepth
        (LinearMapR4.Set_glFrustum (Matrix4x4.Identity : Matrix4x4 ℚ) (-1) 1 (-1) 1 2 4) 2 4 ∧
      LinearMapR4.FrustumDepth
        (LinearMapR4.Set_gluPerspective ratTan (Matrix4x4.Identity : Matrix4x4 ℚ) 1 1 2 4)
        2 4 :=
  ⟨by norm_num,
    C12_frustum_depth_before_divide ratTan Matrix4x4.Identity (-1) 1 (-1) 1 1 1 2 4
      (by norm_num)⟩

/-- The look-at scenario for any `sqrt` that is exact at 1 and 25: the matrix built,
the assertion, and the image of the eye point. -/
theorem LinearMapR4.Set_gluLookAt_scenario (sqrt : K → K) (s : LinearMapR4 K)
    (h1 : sqrt 1 = 1) (h25 : sqrt 25 = 5) :
    LinearMapR4.Set_gluLookAt sqrt s { x := 0, y := 0, z := 5 } { x := 0, y := 0, z := 0 }
        { x := 0, y := 1, z := 0 } = lookAtScenarioView ∧
      LinearMapR4.Set_gluLookAtAsserts sqrt { x := 0, y := 0, z := 5 }
        { x := 0, y := 0, z := 0 } { x := 0, y := 1, z := 0 } ∧
      LinearMapR4.IsAffine (lookAtScenarioView : LinearMapR4 K) ∧
      LinearMapR4.AffineTransformPosition (lookAtScenarioView : LinearMapR4 K)
        { x := 0, y := 0, z := 5 } = { x := 0, y := 0, z := 0 } := by
  have e25 : VectorR3.Norm sqrt ({ x := 0, y := 0, z := 5 } : VectorR3 K) = 5 := by
    norm_num [VectorR3.Norm, VectorR3.NormSq, h25]
  have e1 : VectorR3.Norm sqrt ({ x := 0, y := 1, z := 0 } : VectorR3 K) = 1 := by
    norm_num [VectorR3.Norm, VectorR3.NormSq, h1]
  refine ⟨?_, ?_, ?_, ?_⟩
  · norm_num [LinearMapR4.Set_gluLookAt, VectorR3.sub, VectorR3.Normalize, VectorR3.AddScaled,
      VectorR3.dot, VectorR3.cross, VectorR3.ReNormalize, VectorR3.NormSq, e25, e1,
      lookAtScenarioView]
  · norm_num [LinearMapR4.Set_gluLookAtAsserts, VectorR3.sub, VectorR3.Normalize,
      VectorR3.AddScaled, VectorR3.dot, VectorR3.cross, VectorR3.NormSq, e25, e1]
  · norm_num [LinearMapR4.IsAffine, lookAtScenarioView]
  · norm_num [LinearMapR4.AffineTransformPosition, lookAtScenarioView]

/-- C13: `Set_gluLookAt` with `eye = (0,0,5)`, `target = (0,0,0)`, `up = (0,1,0)`,
over the reals with the real square root and on any receiver, produces the matrix
with rows `(1,0,0,0)`, `(0,1,0,0)`, `(0,0,1,-5)`, `(0,0,0,1)`; its assertion holds,
the matrix is affine, and `AffineTransformPosition` with it sends the eye point
`(0,0,5)` to `(0,0,0)`. -/
theorem C13_lookAt_scenario (s : LinearMapR4 ℝ) :
    LinearMapR4.Set_gluLookAt Real.sqrt s { x := 0, y := 0, z := 5 }
        { x := 0, y := 0, z := 0 } { x := 0, y := 1, z := 0 } = lookAtScenarioView ∧
      (lookAtScenarioView : LinearMapR4 ℝ).m31 = 0 ∧
      (lookAtScenarioView : LinearMapR4 ℝ).m32 = 0 ∧
      (lookAtScenarioView : LinearMapR4 ℝ).m33 = 1 ∧
      (lookAtScenarioView : LinearMapR4 ℝ).m34 = -5 ∧
      LinearMapR4.Set_gluLookAtAsserts Real.sqrt { x := 0, y := 0, z := 5 }
        { x := 0, y := 0, z := 0 } { x := 0, y := 1, z := 0 } ∧
      LinearMapR4.IsAffine (lookAtScenarioView : LinearMapR4 ℝ) ∧
      LinearMapR4.AffineTransformPosition (lookAtScenarioView : LinearMapR4 ℝ)
        { x := 0, y := 0, z := 5 } = { x := 0, y := 0, z := 0 } := by
  have h25 : Real.sqrt 25 = 5 := by
    rw [show (25 : ℝ) = 5 ^ 2 by norm_num]
    exact Real.sqrt_sq (by norm_num)
  obtain ⟨hM, hA, hI, hP⟩ := LinearMapR4.Set_gluLookAt_scenario Real.sqrt s Real.sqrt_one h25
  exact ⟨hM, rfl, rfl, rfl, rfl, hA, hI, hP⟩

/-- The look-at scenario run over `ℚ` with the stand-in `ratSqrt`. -/
theorem Set_gluLookAt_scenario_rat :
    LinearMapR4.Set_gluLookAt ratSqrt Matrix4x4.Identity { x := 0, y := 0, z := 5 }
        { x := 0, y := 0, z := 0 } { x := 0, y := 1, z := 0 } = lookAtScenarioView :=
  (LinearMapR4.Set_gluLookAt_scenario ratSqrt Matrix4x4.Identity (by norm_num [ratSqrt])
    (by norm_num [ratSqrt])).1

/-- C14: composition with `Matrix4x4::operator*=` is associative: for all 4x4
matrices `A`, `B`, `C` held in distinct objects, `A *= B` followed by `*= C` leaves the
same matrix as `A *= (B *= C)`. -/
theorem C14_operatorTimesEquals_assoc (A B C : Matrix4x4 K) :
    Matrix4x4.operatorTimesEquals (Matrix4x4.operatorTimesEquals A B) C
      = Matrix4x4.operatorTimesEquals A (Matrix4x4.operatorTimesEquals B C) := by
  apply Matrix4x4.toMatrix4_injective
  simp only [Matrix4x4.toMatrix4_operatorTimesEquals, Matrix.mul_assoc]

/-- C15: for all 3x3 matrices `A` and `B` held in distinct objects, after
`A.OperatorTimesEquals(B)` the receiver is exactly the matrix returned by the pure
`operator*(A, B)`, and it denotes the matrix product `A·B`. -/
theorem C15_OperatorTimesEquals_is_operatorTimes (A B : Matrix3x3 K) :
    Matrix3x3.OperatorTimesEquals A B = LinearMapR3.operatorTimes A B ∧
      Matrix3x3.toMatrix (Matrix3x3.OperatorTimesEquals A B)
        = Matrix3x3.toMatrix A * Matrix3x3.toMatrix B :=
  ⟨rfl, Matrix3x3.toMatrix3_OperatorTimesEquals A B⟩

/-- C16: for all 3x3 matrices held in distinct objects, `A.LeftMultiplyBy(M)` leaves
`M·A` in the receiver, `A.RightMultiplyByTranspose(B)` leaves `A·Bᵗ`, and
`A.LeftMultiplyByTranspose(M)` leaves `Mᵗ·A`. -/
theorem C16_left_and_transpose_products (A M B : Matrix3x3 K) :
    Matrix3x3.toMatrix (Matrix3x3.LeftMultiplyBy A M)
        = Matrix3x3.toMatrix M * Matrix3x3.toMatrix A ∧
      Matrix3x3.toMatrix (Matrix3x3.RightMultiplyByTranspose A B)
        = Matrix3x3.toMatrix A * (Matrix3x3.toMatrix B).transpose ∧
      Matrix3x3.toMatrix (Matrix3x3.LeftMultiplyByTranspose A M)
        = (Matrix3x3.toMatrix M).transpose * Matrix3x3.toMatrix A := by
  refine ⟨?_, ?_, ?_⟩ <;>
  · ext i j
    rw [Matrix.mul_apply, Fin.sum_univ_three]
    fin_cases i <;> fin_cases j <;> rfl

/-- C17: in-place inversion reads only pre-call values: for every 3x3 matrix and
every 4x4 matrix, the receiver after `Invert()` is the matrix that `Inverse()`
returns on the pre-call value. -/
theorem C17_Invert_eq_Inverse (M3 : LinearMapR3 K) (M4 : LinearMapR4 K) :
    LinearMapR3.Invert M3 = LinearMapR3.Inverse M3 ∧
      LinearMapR4.Invert M4 = LinearMapR4.Inverse M4 :=
  ⟨rfl, rfl⟩

/-- On every matrix, `InverseSym` computes what `Inverse` computes on the
symmetrization by the lower triangle. -/
theorem LinearMapR3.InverseSym_eq_Inverse_symmetrizeByLower (ret M : LinearMapR3 K) :
    LinearMapR3.InverseSym ret M = LinearMapR3.Inverse (Matrix3x3.symmetrizeByLower M) := by
  simp only [LinearMapR3.InverseSym, LinearMapR3.InverseSymInto, LinearMapR3.Inverse,
    Matrix3x3.symmetrizeByLower, LinearMapR3.ofColumns,
    Matrix3x3.set_m11, Matrix3x3.set_m12, Matrix3x3.set_m13, Matrix3x3.set_m21,
    Matrix3x3.set_m22, Matrix3x3.set_m23, Matrix3x3.set_m31, Matrix3x3.set_m32,
    Matrix3x3.set_m33, Matrix3x3.mk.injEq]
  generalize 1 / _ = e
  refine ⟨?_, ?_, ?_, ?_, ?_, ?_, ?_, ?_, ?_⟩ <;> first | trivial | ring1

/-- The in-place routine `InvertSym` and the returned-copy routine `InverseSym`
compute the same matrix, whatever the default-constructed `ret`. -/
theorem LinearMapR3.InvertSym_eq_InverseSym (ret M : LinearMapR3 K) :
    LinearMapR3.InvertSym M = LinearMapR3.InverseSym ret M := rfl

omit [LinearOrderedField K] in
/-- A symmetric matrix is its own symmetrization by the lower triangle. -/
theorem Matrix3x3.symmetrizeByLower_of_symmetric {M : Matrix3x3 K}
    (h : Matrix3x3.IsSymmetric M) : Matrix3x3.symmetrizeByLower M = M := by
  obtain ⟨h12, h13, h23⟩ := h
  obtain ⟨a11, a12, a13, a21, a22, a23, a31, a32, a33⟩ := M
  simp only at h12 h13 h23
  subst h12 h13 h23
  rfl

/-- C18: for every symmetric 3x3 matrix `M` with non-zero determinant, `InverseSym()`
(whatever the default-constructed `ret`) and `InvertSym()` yield the same matrix as
the general `Inverse()`, which is the inverse of `M`: its product with `M` under
`operator*` is the identity in both orders. -/
theorem C18_Sym_inverses_agree (ret M : LinearMapR3 K) (hs : Matrix3x3.IsSymmetric M)
    (hdet : (Matrix3x3.toMatrix M).det ≠ 0) :
    LinearMapR3.InverseSym ret M = LinearMapR3.Inverse M ∧
      LinearMapR3.InvertSym M = LinearMapR3.Inverse M ∧
      LinearMapR3.operatorTimes M (LinearMapR3.Inverse M) = Matrix3x3.Identity ∧
      LinearMapR3.operatorTimes (LinearMapR3.Inverse M) M = Matrix3x3.Identity := by
  have h1 : LinearMapR3.InverseSym ret M = LinearMapR3.Inverse M := by
    rw [LinearMapR3.InverseSym_eq_Inverse_symmetrizeByLower,
      Matrix3x3.symmetrizeByLower_of_symmetric hs]
  rw [det_toMatrix3] at hdet
  exact ⟨h1, (LinearMapR3.InvertSym_eq_InverseSym ret M).trans h1,
    LinearMapR3.operatorTimes_Inverse M hdet⟩

/-- C18 run on `sampleSym3` (symmetric, determinant -3, not positive-definite), with
the identity as the default-constructed value. -/
theorem C18_Sym_inverses_agree_witness :
    Matrix3x3.IsSymmetric sampleSym3 ∧ (Matrix3x3.toMatrix sampleSym3).det ≠ 0 ∧
      LinearMapR3.InverseSym Matrix3x3.Identity sampleSym3 = LinearMapR3.Inverse sampleSym3 ∧
      LinearMapR3.InvertSym sampleSym3 = LinearMapR3.Inverse sampleSym3 ∧
      LinearMapR3.operatorTimes sampleSym3 (LinearMapR3.Inverse sampleSym3)
        = Matrix3x3.Identity ∧
      LinearMapR3.operatorTimes (LinearMapR3.Inverse sampleSym3) sampleSym3
        = Matrix3x3.Identity :=
  have hs : Matrix3x3.IsSymmetric sampleSym3 := by
    norm_num [Matrix3x3.IsSymmetric, sampleSym3]
  have hdet : (Matrix3x3.toMatrix sampleSym3).det ≠ 0 := by
    rw [det_toMatrix3]; norm_num [sampleSym3]
  ⟨hs, hdet, C18_Sym_inverses_agree Matrix3x3.Identity sampleSym3 hs hdet⟩

/-- C19: for every 3x3 matrix `M`, symmetric or not, the result of `InverseSym()` is
symmetric, equals `Inverse()` applied to the symmetrization of `M` by its lower
triangle, and is the same on every matrix with the diagonal and the lower-triangle
entries `m21`, `m31`, `m32` of `M`: only those entries are read. -/
theorem C19_InverseSym_reads_lower_triangle (ret M : LinearMapR3 K) :
    Matrix3x3.IsSymmetric (LinearMapR3.InverseSym ret M) ∧
      LinearMapR3.InverseSym ret M = LinearMapR3.Inverse (Matrix3x3.symmetrizeByLower M) ∧
      ∀ N : LinearMapR3 K, Matrix3x3.SameLowerPart M N →
        LinearMapR3.InverseSym ret N = LinearMapR3.InverseSym ret M := by
  refine ⟨⟨rfl, rfl, rfl⟩, LinearMapR3.InverseSym_eq_Inverse_symmetrizeByLower ret M, ?_⟩
  rintro N ⟨h11, h22, h33, h21, h31, h32⟩
  simp only [LinearMapR3.InverseSym, LinearMapR3.InverseSymInto, h11, h22, h33, h21, h31, h32]

/-- The positive-definite routines read only the diagonal and the upper-triangle
entries `m12`, `m13`, `m23`: matrices that agree there get the same result. -/
theorem LinearMapR3.PosDef_inverses_read_upper_part (ret M N : LinearMapR3 K)
    (h : Matrix3x3.SameUpperPart M N) :
    LinearMapR3.InversePosDef ret M = LinearMapR3.InversePosDef ret N ∧
      LinearMapR3.InvertPosDef M = LinearMapR3.InvertPosDef N ∧
      LinearMapR3.InvertPosDefSafe M = LinearMapR3.InvertPosDefSafe N := by
  obtain ⟨h11, h22, h33, h12, h13, h23⟩ := h
  refine ⟨?_, ?_, ?_⟩
  · simp only [LinearMapR3.InversePosDef, LinearMapR3.InversePosDefInto, h11, h22, h33, h12,
      h13, h23]
  · simp only [LinearMapR3.InvertPosDef, Matrix3x3.set_m11, Matrix3x3.set_m12,
      Matrix3x3.set_m13, Matrix3x3.set_m21, Matrix3x3.set_m22, Matrix3x3.set_m23,
      Matrix3x3.set_m31, Matrix3x3.set_m32, Matrix3x3.set_m33, h11, h22, h33, h12, h13, h23]
  · simp only [LinearMapR3.InvertPosDefSafe, Matrix3x3.set_m11, Matrix3x3.set_m12,
      Matrix3x3.set_m13, Matrix3x3.set_m21, Matrix3x3.set_m22, Matrix3x3.set_m23,
      Matrix3x3.set_m31, Matrix3x3.set_m32, Matrix3x3.set_m33, h11, h22, h33, h12, h13, h23]

/-- C20 (fails on the code): `upperProbe` has the diagonal and the lower triangle of
the identity matrix and differs from it only in the upper-triangle entry `m12 = 1/2`;
all assertions hold on it, yet `InversePosDef()`, `InvertPosDef()` and
`InvertPosDefSafe()` return rows `(4/3, -2/3, 0)`, `(-2/3, 4/3, 0)`, `(0, 0, 1)` on it
and the identity on the identity matrix: changing `m12` changes the result. -/
theorem C20_PosDef_inverses_depend_on_upper_triangle :
    Matrix3x3.SameLowerPart upperProbe Matrix3x3.Identity ∧
      LinearMapR3.InvertPosDefAsserts upperProbe ∧
      LinearMapR3.InversePosDefAsserts upperProbe ∧
      LinearMapR3.InvertPosDefSafeAsserts upperProbe ∧
      LinearMapR3.InvertPosDef upperProbe
        = LinearMapR3.ofColumns (4 / 3) (-2 / 3) 0 (-2 / 3) (4 / 3) 0 0 0 1 ∧
      LinearMapR3.InversePosDef Matrix3x3.Identity upperProbe
        = LinearMapR3.ofColumns (4 / 3) (-2 / 3) 0 (-2 / 3) (4 / 3) 0 0 0 1 ∧
      LinearMapR3.InvertPosDefSafe upperProbe
        = LinearMapR3.ofColumns (4 / 3) (-2 / 3) 0 (-2 / 3) (4 / 3) 0 0 0 1 ∧
      LinearMapR3.InvertPosDef (Matrix3x3.Identity : LinearMapR3 ℚ) = Matrix3x3.Identity ∧
      LinearMapR3.InversePosDef Matrix3x3.Identity (Matrix3x3.Identity : LinearMapR3 ℚ)
        = Matrix3x3.Identity ∧
      LinearMapR3.InvertPosDefSafe (Matrix3x3.Identity : LinearMapR3 ℚ)
        = Matrix3x3.Identity ∧
      LinearMapR3.InvertPosDef upperProbe
        ≠ LinearMapR3.InvertPosDef (Matrix3x3.Identity : LinearMapR3 ℚ) := by
  refine ⟨?_, ?_, ?_, ?_, ?_, ?_, ?_, ?_, ?_, ?_, ?_⟩
  · norm_num [Matrix3x3.SameLowerPart, upperProbe, Matrix3x3.Identity, LinearMapR3.ofColumns]
  · norm_num [LinearMapR3.InvertPosDefAsserts, upperProbe]
  · norm_num [LinearMapR3.InversePosDefAsserts, upperProbe]
  · norm_num [LinearMapR3.InvertPosDefSafeAsserts, upperProbe, Max]
  · norm_num [LinearMapR3.InvertPosDef, upperProbe, LinearMapR3.ofColumns]
  · norm_num [LinearMapR3.InversePosDef, LinearMapR3.InversePosDefInto, upperProbe,
      LinearMapR3.ofColumns, Matrix3x3.Identity]
  · norm_num [LinearMapR3.InvertPosDefSafe, upperProbe, LinearMapR3.ofColumns, Max]
  · norm_num [LinearMapR3.InvertPosDef, Matrix3x3.Identity, LinearMapR3.ofColumns]
  · norm_num [LinearMapR3.InversePosDef, LinearMapR3.InversePosDefInto, Matrix3x3.Identity,
      LinearMapR3.ofColumns]
  · norm_num [LinearMapR3.InvertPosDefSafe, Matrix3x3.Identity, LinearMapR3.ofColumns, Max]
  · norm_num [LinearMapR3.InvertPosDef, upperProbe, Matrix3x3.Identity, LinearMapR3.ofColumns]

/-- The result of `Max` is at least its first argument. -/
theorem le_Max_left (x y : K) : x ≤ Max x y := by
  unfold Max
  split_ifs with h
  · exact le_refl x
  · exact not_lt.mp h

/-- The function `Max` returns its second argument when that is at least the first. -/
theorem Max_eq_right {x y : K} (h : x ≤ y) : Max x y = y := by
  unfold Max
  rw [if_neg (not_lt.mpr h)]

/-- When the three pivots of `InvertPosDef` are at least `ε`, no `Max` of
`InvertPosDefSafe` changes anything and the two routines compute the same matrix. -/
theorem LinearMapR3.InvertPosDefSafe_eq_InvertPosDef (M : LinearMapR3 K)
    (h1 : LinearMapR3.InvertPosDefSafeEpsilon M ≤ (LinearMapR3.InvertPosDefPivots M).1)
    (h2 : LinearMapR3.InvertPosDefSafeEpsilon M ≤ (LinearMapR3.InvertPosDefPivots M).2.1)
    (h3 : LinearMapR3.InvertPosDefSafeEpsilon M ≤ (LinearMapR3.InvertPosDefPivots M).2.2) :
    LinearMapR3.InvertPosDefSafe M = LinearMapR3.InvertPosDef M := by
  simp only [LinearMapR3.InvertPosDefSafeEpsilon, LinearMapR3.InvertPosDefPivots] at h1 h2 h3
  simp only [LinearMapR3.InvertPosDefSafe, LinearMapR3.InvertPosDef, Matrix3x3.set_m11,
    Matrix3x3.set_m12, Matrix3x3.set_m13, Matrix3x3.set_m21, Matrix3x3.set_m22,
    Matrix3x3.set_m23, Matrix3x3.set_m31, Matrix3x3.set_m32, Matrix3x3.set_m33,
    Max_eq_right h1, Max_eq_right h2, Max_eq_right h3]

/-- C22: for every 3x3 matrix whose three pivots (`m11`, `u22star`, `u33starstar`,
computed as in `InvertPosDef`) are each at least `ε = 1e-5·(m11+m22+m33)`,
`InvertPosDefSafe()` yields exactly the matrix of `InvertPosDef()`; and when the matrix
is moreover symmetric positive-definite, that matrix is the inverse: it is
`Inverse()`, and its product with the input under `operator*` is the identity in
both orders. -/
theorem C22_InvertPosDefSafe_exact_on_safe_pivots (M : LinearMapR3 K)
    (h1 : LinearMapR3.InvertPosDefSafeEpsilon M ≤ (LinearMapR3.InvertPosDefPivots M).1)
    (h2 : LinearMapR3.InvertPosDefSafeEpsilon M ≤ (LinearMapR3.InvertPosDefPivots M).2.1)
    (h3 : LinearMapR3.InvertPosDefSafeEpsilon M ≤ (LinearMapR3.InvertPosDefPivots M).2.2) :
    LinearMapR3.InvertPosDefSafe M = LinearMapR3.InvertPosDef M ∧
      (Matrix3x3.IsSymPosDef M →
        LinearMapR3.InvertPosDefSafe M = LinearMapR3.Inverse M ∧
        LinearMapR3.operatorTimes M (LinearMapR3.InvertPosDefSafe M) = Matrix3x3.Identity ∧
        LinearMapR3.operatorTimes (LinearMapR3.InvertPosDefSafe M) M = Matrix3x3.Identity) := by
  have e := LinearMapR3.InvertPosDefSafe_eq_InvertPosDef M h1 h2 h3
  refine ⟨e, fun hpd => ?_⟩
  obtain ⟨p1, p2, p3⟩ := hpd.minors_pos
  have hI := LinearMapR3.InvertPosDef_eq_Inverse hpd.1 p1.ne.symm p2.ne.symm p3.ne.symm
  rw [e, hI]
  exact ⟨rfl, LinearMapR3.operatorTimes_Inverse M p3.ne.symm⟩

/-- C22 run on `samplePosDef` (pivots `2`, `3/2`, `4/3`, `ε = 6e-5`), which is
symmetric positive-definite. -/
theorem C22_InvertPosDefSafe_exact_on_safe_pivots_witness :
    LinearMapR3.InvertPosDefPivots samplePosDef = (2, 3 / 2, 4 / 3) ∧
      LinearMapR3.InvertPosDefSafeEpsilon samplePosDef = 6 / 100000 ∧
      Matrix3x3.IsSymPosDef samplePosDef ∧
      LinearMapR3.InvertPosDefSafe samplePosDef = LinearMapR3.InvertPosDef samplePosDef ∧
      LinearMapR3.InvertPosDefSafe samplePosDef = LinearMapR3.Inverse samplePosDef ∧
      LinearMapR3.operatorTimes samplePosDef (LinearMapR3.InvertPosDefSafe samplePosDef)
        = Matrix3x3.Identity ∧
      LinearMapR3.operatorTimes (LinearMapR3.InvertPosDefSafe samplePosDef) samplePosDef
        = Matrix3x3.Identity :=
  have hp : LinearMapR3.InvertPosDefPivots samplePosDef = (2, 3 / 2, 4 / 3) := by
    norm_num [LinearMapR3.InvertPosDefPivots, samplePosDef]
  have he : LinearMapR3.InvertPosDefSafeEpsilon samplePosDef = 6 / 100000 := by
    norm_num [LinearMapR3.InvertPosDefSafeEpsilon, samplePosDef]
  have hc := C22_InvertPosDefSafe_exact_on_safe_pivots samplePosDef
    (by rw [hp, he]; norm_num) (by rw [hp, he]; norm_num) (by rw [hp, he]; norm_num)
  ⟨hp, he, samplePosDef_isSymPosDef, hc.1, hc.2 samplePosDef_isSymPosDef⟩

/-- The vector returned by `Solve` is the matrix returned by `Inverse` applied to
the right-hand side. -/
theorem Matrix3x3.toVec_Solve (M : Matrix3x3 K) (u : VectorR3 K) :
    VectorR3.toVec (Matrix3x3.Solve M u)
      = (Matrix3x3.toMatrix (LinearMapR3.Inverse M)).mulVec (VectorR3.toVec u) := by
  funext i
  rw [Matrix.mulVec, Matrix.dotProduct, Fin.sum_univ_three]
  fin_cases i <;>
    simp only [Matrix3x3.Solve, LinearMapR3.Inverse, LinearMapR3.ofColumns, VectorR3.toVec,
      Matrix3x3.toMatrix, Matrix.of_apply, Matrix.cons_val_zero, Matrix.cons_val_one,
      Matrix.head_cons, Matrix.cons_val_two, Matrix.tail_cons, Fin.zero_eta, Fin.mk_one,
      Fin.reduceFinMk] <;> ring

/-- C23: for every 3x3 matrix `M` with non-zero determinant and every vector `u`,
`x = M.Solve(u)` satisfies `M·x = u`, and `x` is `M.Inverse()` applied to `u`. -/
theorem C23_Solve_solves (M : Matrix3x3 K) (u : VectorR3 K)
    (hdet : (Matrix3x3.toMatrix M).det ≠ 0) :
    (Matrix3x3.toMatrix M).mulVec (VectorR3.toVec (Matrix3x3.Solve M u)) = VectorR3.toVec u ∧
      VectorR3.toVec (Matrix3x3.Solve M u)
        = (Matrix3x3.toMatrix (LinearMapR3.Inverse M)).mulVec (VectorR3.toVec u) := by
  refine ⟨?_, Matrix3x3.toVec_Solve M u⟩
  rw [det_toMatrix3] at hdet
  have h := congrArg Matrix3x3.toMatrix (LinearMapR3.operatorTimes_Inverse M hdet).1
  rw [LinearMapR3.toMatrix3_operatorTimes, Matrix3x3.toMatrix3_Identity] at h
  rw [Matrix3x3.toVec_Solve, Matrix.mulVec_mulVec, h, Matrix.one_mulVec]

/-- C23 run on `sample3` (determinant 3) and `sampleVec = (1, 2, 3)`: the solution
is `(1, 0, 2)`. -/
theorem C23_Solve_solves_witness :
    (Matrix3x3.toMatrix sample3).det ≠ 0 ∧
      Matrix3x3.Solve sample3 sampleVec = { x := 1, y := 0, z := 2 } ∧
      (Matrix3x3.toMatrix sample3).mulVec (VectorR3.toVec (Matrix3x3.Solve sample3 sampleVec))
        = VectorR3.toVec sampleVec ∧
      VectorR3.toVec (Matrix3x3.Solve sample3 sampleVec)
        = (Matrix3x3.toMatrix (LinearMapR3.Inverse sample3)).mulVec
            (VectorR3.toVec sampleVec) :=
  have h : (Matrix3x3.toMatrix sample3).det ≠ 0 := by
    rw [det_toMatrix3]; norm_num [sample3]
  ⟨h, by norm_num [Matrix3x3.Solve, sample3, sampleVec], C23_Solve_solves sample3 sampleVec h⟩

/-- One step of `MaxAbs`: the running maximum `m ≥ 0` becomes `max m |y|`. -/
theorem MaxAbs_step (m y : K) :
    (if y > m then y else if -y > m then -y else m) = max m |y| ∨ m < 0 := by
  by_cases hm : m < 0
  · exact Or.inr hm
  · left
    push_neg at hm
    split_ifs with h1 h2
    · rw [abs_of_pos (lt_of_le_of_lt hm h1), max_eq_right h1.le]
    · rw [abs_of_neg (by linarith), max_eq_right h2.le]
    · rw [max_eq_left]
      exact abs_le.mpr ⟨by linarith, by linarith⟩

/-- The first statement of `MaxAbs` computes the absolute value. -/
theorem MaxAbs_init (x : K) : (if x > 0.0 then x else -x) = |x| := by
  have e0 : (0.0 : K) = 0 := by norm_num
  rw [e0]
  split_ifs with h
  · exact (abs_of_pos h).symm
  · exact (abs_of_nonpos (not_lt.mp h)).symm

/-- The routine `VectorR3::MaxAbs` returns `max(|x|, |y|, |z|)`. -/
theorem VectorR3.MaxAbs_eq (v : VectorR3 K) :
    VectorR3.MaxAbs v = max (max |v.x| |v.y|) |v.z| := by
  simp only [VectorR3.MaxAbs, MaxAbs_init]
  rcases MaxAbs_step |v.x| v.y with h1 | h1
  · rw [h1]
    rcases MaxAbs_step (max |v.x| |v.y|) v.z with h2 | h2
    · exact h2
    · exact absurd (le_max_of_le_left (abs_nonneg v.x)) (not_le.mpr h2)
  · exact absurd (abs_nonneg v.x) (not_le.mpr h1)

/-- The routine `VectorR4::MaxAbs` returns `max(|x|, |y|, |z|, |w|)`. -/
theorem VectorR4.MaxAbs4_eq (v : VectorR4 K) :
    VectorR4.MaxAbs v = max (max (max |v.x| |v.y|) |v.z|) |v.w| := by
  simp only [VectorR4.MaxAbs, MaxAbs_init]
  rcases MaxAbs_step |v.x| v.y with h1 | h1
  · rw [h1]
    rcases MaxAbs_step (max |v.x| |v.y|) v.z with h2 | h2
    · rw [h2]
      rcases MaxAbs_step (max (max |v.x| |v.y|) |v.z|) v.w with h3 | h3
      · exact h3
      · exact absurd (le_max_of_le_left (le_max_of_le_left (abs_nonneg v.x))) (not_le.mpr h3)
    · exact absurd (le_max_of_le_left (abs_nonneg v.x)) (not_le.mpr h2)
  · exact absurd (abs_nonneg v.x) (not_le.mpr h1)

/-- C26: for every vector, `MaxAbs()` returns the L∞ norm, `max(|x|,|y|,|z|)` for
`VectorR3` and `max(|x|,|y|,|z|,|w|)` for `VectorR4`; the result is non-negative and
is 0 only for the zero vector. -/
theorem C26_MaxAbs_is_sup_norm (v : VectorR3 K) (v4 : VectorR4 K) :
    VectorR3.MaxAbs v = max (max |v.x| |v.y|) |v.z| ∧ 0 ≤ VectorR3.MaxAbs v ∧
      (VectorR3.MaxAbs v = 0 ↔ v = { x := 0, y := 0, z := 0 }) ∧
      VectorR4.MaxAbs v4 = max (max (max |v4.x| |v4.y|) |v4.z|) |v4.w| ∧
      0 ≤ VectorR4.MaxAbs v4 ∧
      (VectorR4.MaxAbs v4 = 0 ↔ v4 = { x := 0, y := 0, z := 0, w := 0 }) := by
  rw [VectorR3.MaxAbs_eq, VectorR4.MaxAbs4_eq]
  refine ⟨rfl, le_max_of_le_right (abs_nonneg _), ?_, rfl, le_max_of_le_right (abs_nonneg _),
    ?_⟩
  · constructor
    · intro h
      have hz : |v.z| ≤ 0 := h ▸ le_max_right _ _
      have hxy : max |v.x| |v.y| ≤ 0 := h ▸ le_max_left _ _
      have hx : |v.x| ≤ 0 := le_trans (le_max_left _ _) hxy
      have hy : |v.y| ≤ 0 := le_trans (le_max_right _ _) hxy
      exact VectorR3.ext (abs_nonpos_iff.mp hx) (abs_nonpos_iff.mp hy) (abs_nonpos_iff.mp hz)
    · intro h
      rw [h]
      simp
  · constructor
    · intro h
      have hw : |v4.w| ≤ 0 := h ▸ le_max_right _ _
      have hxyz : max (max |v4.x| |v4.y|) |v4.z| ≤ 0 := h ▸ le_max_left _ _
      have hz : |v4.z| ≤ 0 := le_trans (le_max_right _ _) hxyz
      have hxy : max |v4.x| |v4.y| ≤ 0 := le_trans (le_max_left _ _) hxyz
      have hx : |v4.x| ≤ 0 := le_trans (le_max_left _ _) hxy
      have hy : |v4.y| ≤ 0 := le_trans (le_max_right _ _) hxy
      exact VectorR4.ext (abs_nonpos_iff.mp hx) (abs_nonpos_iff.mp hy) (abs_nonpos_iff.mp hz)
        (abs_nonpos_iff.mp hw)
    · intro h
      rw [h]
      simp

/-- The routine `MaxAbs` run on vectors of `ℚ³` and `ℚ⁴`. -/
theorem MaxAbs_run :
    VectorR3.MaxAbs ({ x := 1, y := -5, z := 3 } : VectorR3 ℚ) = 5 ∧
      VectorR4.MaxAbs ({ x := -2, y := 1, z := 0, w := -7 } : VectorR4 ℚ) = 7 := by
  constructor
  · norm_num [VectorR3.MaxAbs]
  · norm_num [VectorR4.MaxAbs]

/-- A vector of `VectorR3` with squared norm 0 is the zero vector. -/
theorem VectorR3.eq_Zero_of_NormSq_eq_zero {v : VectorR3 K} (h : VectorR3.NormSq v = 0) :
    v = VectorR3.Zero := by
  simp only [VectorR3.NormSq] at h
  have hx : v.x = 0 := by
    have : v.x * v.x = 0 := by
      linarith [mul_self_nonneg v.x, mul_self_nonneg v.y, mul_self_nonneg v.z]
    exact mul_self_eq_zero.mp this
  have hy : v.y = 0 := by
    have : v.y * v.y = 0 := by
      linarith [mul_self_nonneg v.x, mul_self_nonneg v.y, mul_self_nonneg v.z]
    exact mul_self_eq_zero.mp this
  have hz : v.z = 0 := by
    have : v.z * v.z = 0 := by
      linarith [mul_self_nonneg v.x, mul_self_nonneg v.y, mul_self_nonneg v.z]
    exact mul_self_eq_zero.mp this
  exact VectorR3.ext hx hy hz

/-- A vector of `VectorR4` with squared norm 0 is the zero vector. -/
theorem VectorR4.eq_Zero4_of_NormSq_eq_zero {v : VectorR4 K} (h : VectorR4.NormSq v = 0) :
    v = VectorR4.Zero := by
  simp only [VectorR4.NormSq] at h
  have hx : v.x = 0 := by
    have : v.x * v.x = 0 := by
      linarith [mul_self_nonneg v.x, mul_self_nonneg v.y, mul_self_nonneg v.z, mul_self_nonneg v.w]
    exact mul_self_eq_zero.mp this
  have hy : v.y = 0 := by
    have : v.y * v.y = 0 := by
      linarith [mul_self_nonneg v.x, mul_self_nonneg v.y, mul_self_nonneg v.z, mul_self_nonneg v.w]
    exact mul_self_eq_zero.mp this
  have hz : v.z = 0 := by
    have : v.z * v.z = 0 := by
      linarith [mul_self_nonneg v.x, mul_self_nonneg v.y, mul_self_nonneg v.z, mul_self_nonneg v.w]
    exact mul_self_eq_zero.mp this
  have hw : v.w = 0 := by
    have : v.w * v.w = 0 := by
      linarith [mul_self_nonneg v.x, mul_self_nonneg v.y, mul_self_nonneg v.z, mul_self_nonneg v.w]
    exact mul_self_eq_zero.mp this
  exact VectorR4.ext hx hy hz hw

/-- With the zero vector as direction, `VectorR3::RotateUnitInDirection` returns the
receiver unchanged. -/
theorem VectorR3.RotateUnitInDirection_Zero (cos sin sqrt : K → K) (v : VectorR3 K) :
    VectorR3.RotateUnitInDirection cos sin sqrt v VectorR3.Zero = v := by
  have e0 : (0.0 : K) = 0 := by norm_num
  simp [VectorR3.RotateUnitInDirection, VectorR3.NormSq, VectorR3.Zero, e0]

/-- With the zero vector as direction, `VectorR4::RotateUnitInDirection` returns the
receiver unchanged. -/
theorem VectorR4.RotateUnitInDirection4_Zero (cos sin sqrt : K → K) (v : VectorR4 K) :
    VectorR4.RotateUnitInDirection cos sin sqrt v VectorR4.Zero = v := by
  have e0 : (0.0 : K) = 0 := by norm_num
  simp [VectorR4.RotateUnitInDirection, VectorR4.NormSq, VectorR4.Zero, e0]

/-- On a non-zero direction `VectorR3::RotateUnitInDirection` returns
`cos θ · x + sin θ · dir/θ` with `θ = sqrt(dir.NormSq())`. -/
theorem VectorR3.RotateUnitInDirection_of_ne (cos sin sqrt : K → K) (v dir : VectorR3 K)
    (hdir : dir ≠ VectorR3.Zero) :
    VectorR3.RotateUnitInDirection cos sin sqrt v dir
      = VectorR3.add (VectorR3.smul (cos (VectorR3.Norm sqrt dir)) v)
          (VectorR3.smul (sin (VectorR3.Norm sqrt dir))
            (VectorR3.divScalar dir (VectorR3.Norm sqrt dir))) := by
  have e0 : (0.0 : K) = 0 := by norm_num
  have hn : VectorR3.NormSq dir ≠ 0 := fun h => hdir (VectorR3.eq_Zero_of_NormSq_eq_zero h)
  simp only [VectorR3.RotateUnitInDirection, e0, if_neg hn, VectorR3.Norm]

/-- On a non-zero direction `VectorR4::RotateUnitInDirection` returns
`cos θ · x + sin θ · dir/θ` with `θ = sqrt(dir.NormSq())`. -/
theorem VectorR4.RotateUnitInDirection4_of_ne (cos sin sqrt : K → K) (v dir : VectorR4 K)
    (hdir : dir ≠ VectorR4.Zero) :
    VectorR4.RotateUnitInDirection cos sin sqrt v dir
      = VectorR4.add (VectorR4.smul (cos (VectorR4.Norm sqrt dir)) v)
          (VectorR4.smul (sin (VectorR4.Norm sqrt dir))
            (VectorR4.divScalar dir (VectorR4.Norm sqrt dir))) := by
  have e0 : (0.0 : K) = 0 := by norm_num
  have hn : VectorR4.NormSq dir ≠ 0 := fun h => hdir (VectorR4.eq_Zero4_of_NormSq_eq_zero h)
  simp only [VectorR4.RotateUnitInDirection, e0, if_neg hn, VectorR4.Norm]

/-- For unit `x`, unit `d` perpendicular to `x` and `c² + s² = 1`, the vector
`c·x + s·d` is `x` rotated toward `d`. -/
theorem VectorR3.isRotatedToward_combination (c s : K) (x d : VectorR3 K)
    (hx : VectorR3.NormSq x = 1) (hd : VectorR3.NormSq d = 1) (hp : VectorR3.dot x d = 0)
    (hcs : c * c + s * s = 1) :
    VectorR3.IsRotatedToward c s x d (VectorR3.add (VectorR3.smul c x) (VectorR3.smul s d)) := by
  simp only [VectorR3.NormSq, VectorR3.dot] at hx hd hp
  simp only [VectorR3.IsRotatedToward, VectorR3.NormSq, VectorR3.dot, VectorR3.add,
    VectorR3.smul]
  refine ⟨trivial, ?_, ?_, ?_⟩
  · linear_combination c ^ 2 * hx + s ^ 2 * hd + 2 * c * s * hp + hcs
  · linear_combination c * hx + s * hp
  · linear_combination c * hp + s * hd

/-- For unit `x`, unit `d` perpendicular to `x` and `c² + s² = 1`, the vector
`c·x + s·d` is `x` rotated toward `d`, in four dimensions. -/
theorem VectorR4.isRotatedToward4_combination (c s : K) (x d : VectorR4 K)
    (hx : VectorR4.NormSq x = 1) (hd : VectorR4.NormSq d = 1) (hp : VectorR4.dot x d = 0)
    (hcs : c * c + s * s = 1) :
    VectorR4.IsRotatedToward c s x d (VectorR4.add (VectorR4.smul c x) (VectorR4.smul s d)) := by
  simp only [VectorR4.NormSq, VectorR4.dot] at hx hd hp
  simp only [VectorR4.IsRotatedToward, VectorR4.NormSq, VectorR4.dot, VectorR4.add,
    VectorR4.smul]
  refine ⟨trivial, ?_, ?_, ?_⟩
  · linear_combination c ^ 2 * hx + s ^ 2 * hd + 2 * c * s * hp + hcs
  · linear_combination c * hx + s * hp
  · linear_combination c * hp + s * hd

/-- Dividing a non-zero vector by a `θ` with `θ·θ = dir.NormSq()` gives a unit
vector, perpendicular to whatever `dir` is perpendicular to. -/
theorem VectorR3.divScalar_unit (x dir : VectorR3 K) (θ : K)
    (hdir : dir ≠ VectorR3.Zero) (hθ : θ * θ = VectorR3.NormSq dir)
    (hp : VectorR3.dot x dir = 0) :
    VectorR3.NormSq (VectorR3.divScalar dir θ) = 1 ∧
      VectorR3.dot x (VectorR3.divScalar dir θ) = 0 := by
  have hn : VectorR3.NormSq dir ≠ 0 := fun h => hdir (VectorR3.eq_Zero_of_NormSq_eq_zero h)
  have hθ0 : θ ≠ 0 := by
    rintro rfl
    exact hn (by rw [← hθ, mul_zero])
  simp only [VectorR3.NormSq, VectorR3.dot, VectorR3.divScalar] at hθ hp ⊢
  constructor
  · field_simp
    linear_combination -hθ
  · field_simp
    linear_combination hp

/-- Dividing a non-zero vector by a `θ` with `θ·θ = dir.NormSq()` gives a unit
vector, perpendicular to whatever `dir` is perpendicular to, in four dimensions. -/
theorem VectorR4.divScalar4_unit (x dir : VectorR4 K) (θ : K)
    (hdir : dir ≠ VectorR4.Zero) (hθ : θ * θ = VectorR4.NormSq dir)
    (hp : VectorR4.dot x dir = 0) :
    VectorR4.NormSq (VectorR4.divScalar dir θ) = 1 ∧
      VectorR4.dot x (VectorR4.divScalar dir θ) = 0 := by
  have hn : VectorR4.NormSq dir ≠ 0 := fun h => hdir (VectorR4.eq_Zero4_of_NormSq_eq_zero h)
  have hθ0 : θ ≠ 0 := by
    rintro rfl
    exact hn (by rw [← hθ, mul_zero])
  simp only [VectorR4.NormSq, VectorR4.dot, VectorR4.divScalar] at hθ hp ⊢
  constructor
  · field_simp
    linear_combination -hθ
  · field_simp
    linear_combination hp

/-- The rotation of a unit vector toward a perpendicular non-zero direction, for
`VectorR3`, from the defining properties of `sqrt`, `cos` and `sin` at the values
used. -/
theorem VectorR3.RotateUnitInDirection_isRotatedToward (cos sin sqrt : K → K)
    (x dir : VectorR3 K) (hx : VectorR3.NormSq x = 1) (hp : VectorR3.dot x dir = 0)
    (hdir : dir ≠ VectorR3.Zero)
    (hsq : VectorR3.Norm sqrt dir * VectorR3.Norm sqrt dir = VectorR3.NormSq dir)
    (hcs : cos (VectorR3.Norm sqrt dir) * cos (VectorR3.Norm sqrt dir)
      + sin (VectorR3.Norm sqrt dir) * sin (VectorR3.Norm sqrt dir) = 1) :
    VectorR3.IsRotatedToward (cos (VectorR3.Norm sqrt dir)) (sin (VectorR3.Norm sqrt dir)) x
      (VectorR3.divScalar dir (VectorR3.Norm sqrt dir))
      (VectorR3.RotateUnitInDirection cos sin sqrt x dir) := by
  rw [VectorR3.RotateUnitInDirection_of_ne cos sin sqrt x dir hdir]
  obtain ⟨hd, hpd⟩ := VectorR3.divScalar_unit x dir _ hdir hsq hp
  exact VectorR3.isRotatedToward_combination _ _ x _ hx hd hpd hcs

/-- The rotation of a unit vector toward a perpendicular non-zero direction, for
`VectorR4`, from the defining properties of `sqrt`, `cos` and `sin` at the values
used. -/
theorem VectorR4.RotateUnitInDirection4_isRotatedToward (cos sin sqrt : K → K)
    (x dir : VectorR4 K) (hx : VectorR4.NormSq x = 1) (hp : VectorR4.dot x dir = 0)
    (hdir : dir ≠ VectorR4.Zero)
    (hsq : VectorR4.Norm sqrt dir * VectorR4.Norm sqrt dir = VectorR4.NormSq dir)
    (hcs : cos (VectorR4.Norm sqrt dir) * cos (VectorR4.Norm sqrt dir)
      + sin (VectorR4.Norm sqrt dir) * sin (VectorR4.Norm sqrt dir) = 1) :
    VectorR4.IsRotatedToward (cos (VectorR4.Norm sqrt dir)) (sin (VectorR4.Norm sqrt dir)) x
      (VectorR4.divScalar dir (VectorR4.Norm sqrt dir))
      (VectorR4.RotateUnitInDirection cos sin sqrt x dir) := by
  rw [VectorR4.RotateUnitInDirection4_of_ne cos sin sqrt x dir hdir]
  obtain ⟨hd, hpd⟩ := VectorR4.divScalar4_unit x dir _ hdir hsq hp
  exact VectorR4.isRotatedToward4_combination _ _ x _ hx hd hpd hcs

/-- C24: `RotateUnitInDirection(dir)` of `VectorR3` and of `VectorR4` returns the
receiver unchanged when `dir` is the zero vector; and for every unit vector `x` and
every non-zero `dir` perpendicular to `x` the result is
`cos|dir|·x + sin|dir|·dir/|dir|`, a unit vector whose dot product with `x` is
`cos|dir|` and whose dot product with `dir/|dir|` is `sin|dir|`.  Of `sqrt`, `cos`
and `sin` only `|dir|² = dir·dir` and `cos² + sin² = 1` at `|dir|` are used. -/
theorem C24_RotateUnitInDirection_rotates_toward (cos sin sqrt : K → K)
    (x dir : VectorR3 K) (x4 dir4 : VectorR4 K)
    (hx : VectorR3.NormSq x = 1) (hp : VectorR3.dot x dir = 0) (hdir : dir ≠ VectorR3.Zero)
    (hsq : VectorR3.Norm sqrt dir * VectorR3.Norm sqrt dir = VectorR3.NormSq dir)
    (hcs : cos (VectorR3.Norm sqrt dir) * cos (VectorR3.Norm sqrt dir)
      + sin (VectorR3.Norm sqrt dir) * sin (VectorR3.Norm sqrt dir) = 1)
    (hx4 : VectorR4.NormSq x4 = 1) (hp4 : VectorR4.dot x4 dir4 = 0)
    (hdir4 : dir4 ≠ VectorR4.Zero)
    (hsq4 : VectorR4.Norm sqrt dir4 * VectorR4.Norm sqrt dir4 = VectorR4.NormSq dir4)
    (hcs4 : cos (VectorR4.Norm sqrt dir4) * cos (VectorR4.Norm sqrt dir4)
      + sin (VectorR4.Norm sqrt dir4) * sin (VectorR4.Norm sqrt dir4) = 1) :
    (∀ y : VectorR3 K, VectorR3.RotateUnitInDirection cos sin sqrt y VectorR3.Zero = y) ∧
      VectorR3.IsRotatedToward (cos (VectorR3.Norm sqrt dir)) (sin (VectorR3.Norm sqrt dir)) x
        (VectorR3.divScalar dir (VectorR3.Norm sqrt dir))
        (VectorR3.RotateUnitInDirection cos sin sqrt x dir) ∧
      (∀ y : VectorR4 K, VectorR4.RotateUnitInDirection cos sin sqrt y VectorR4.Zero = y) ∧
      VectorR4.IsRotatedToward (cos (VectorR4.Norm sqrt dir4)) (sin (VectorR4.Norm sqrt dir4))
        x4 (VectorR4.divScalar dir4 (VectorR4.Norm sqrt dir4))
        (VectorR4.RotateUnitInDirection cos sin sqrt x4 dir4) :=
  ⟨VectorR3.RotateUnitInDirection_Zero cos sin sqrt,
    VectorR3.RotateUnitInDirection_isRotatedToward cos sin sqrt x dir hx hp hdir hsq hcs,
    VectorR4.RotateUnitInDirection4_Zero cos sin sqrt,
    VectorR4.RotateUnitInDirection4_isRotatedToward cos sin sqrt x4 dir4 hx4 hp4 hdir4 hsq4
      hcs4⟩

/-- C24 run over `ℚ` with the stand-ins `ratCos`, `ratSin`, `ratSqrt`, on the unit
vectors `(1,0,0)`, `(1,0,0,0)` and the directions `(0,2,0)`, `(0,0,0,2)` of length 2:
the results are `(-3/5, 4/5, 0)` and `(-3/5, 0, 0, 4/5)`. -/
theorem C24_RotateUnitInDirection_rotates_toward_witness :
    VectorR3.RotateUnitInDirection ratCos ratSin ratSqrt unitX3 deltaY3
        = { x := -3 / 5, y := 4 / 5, z := 0 } ∧
      VectorR4.RotateUnitInDirection ratCos ratSin ratSqrt unitX4 deltaW4
        = { x := -3 / 5, y := 0, z := 0, w := 4 / 5 } ∧
      (∀ y : VectorR3 ℚ,
        VectorR3.RotateUnitInDirection ratCos ratSin ratSqrt y VectorR3.Zero = y) ∧
      VectorR3.IsRotatedToward (ratCos (VectorR3.Norm ratSqrt deltaY3))
        (ratSin (VectorR3.Norm ratSqrt deltaY3)) unitX3
        (VectorR3.divScalar deltaY3 (VectorR3.Norm ratSqrt deltaY3))
        (VectorR3.RotateUnitInDirection ratCos ratSin ratSqrt unitX3 deltaY3) ∧
      (∀ y : VectorR4 ℚ,
        VectorR4.RotateUnitInDirection ratCos ratSin ratSqrt y VectorR4.Zero = y) ∧
      VectorR4.IsRotatedToward (ratCos (VectorR4.Norm ratSqrt deltaW4))
        (ratSin (VectorR4.Norm ratSqrt deltaW4)) unitX4
        (VectorR4.divScalar deltaW4 (VectorR4.Norm ratSqrt deltaW4))
        (VectorR4.RotateUnitInDirection ratCos ratSin ratSqrt unitX4 deltaW4) :=
  have n3 : VectorR3.Norm ratSqrt deltaY3 = 2 := by
    norm_num [VectorR3.Norm, VectorR3.NormSq, deltaY3, ratSqrt]
  have n4 : VectorR4.Norm ratSqrt deltaW4 = 2 := by
    norm_num [VectorR4.Norm, VectorR4.NormSq, deltaW4, ratSqrt]
  have d3 : deltaY3 ≠ VectorR3.Zero := by
    intro h
    have := congrArg VectorR3.y h
    norm_num [deltaY3, VectorR3.Zero] at this
  have d4 : deltaW4 ≠ VectorR4.Zero := by
    intro h
    have := congrArg VectorR4.w h
    norm_num [deltaW4, VectorR4.Zero] at this
  have r3 : VectorR3.RotateUnitInDirection ratCos ratSin ratSqrt unitX3 deltaY3
      = { x := -3 / 5, y := 4 / 5, z := 0 } := by
    rw [VectorR3.RotateUnitInDirection_of_ne _ _ _ _ _ d3, n3]
    norm_num [VectorR3.add, VectorR3.smul, VectorR3.divScalar, unitX3, deltaY3, ratCos, ratSin]
  have r4 : VectorR4.RotateUnitInDirection ratCos ratSin ratSqrt unitX4 deltaW4
      = { x := -3 / 5, y := 0, z := 0, w := 4 / 5 } := by
    rw [VectorR4.RotateUnitInDirection4_of_ne _ _ _ _ _ d4, n4]
    norm_num [VectorR4.add, VectorR4.smul, VectorR4.divScalar, unitX4, deltaW4, ratCos, ratSin]
  ⟨r3, r4, C24_RotateUnitInDirection_rotates_toward ratCos ratSin ratSqrt unitX3 deltaY3
    unitX4 deltaW4 (by norm_num [VectorR3.NormSq, unitX3])
    (by norm_num [VectorR3.dot, unitX3, deltaY3]) d3
    (by rw [n3]; norm_num [VectorR3.NormSq, deltaY3])
    (by rw [n3]; norm_num [ratCos, ratSin])
    (by norm_num [VectorR4.NormSq, unitX4])
    (by norm_num [VectorR4.dot, unitX4, deltaW4]) d4
    (by rw [n4]; norm_num [VectorR4.NormSq, deltaW4])
    (by rw [n4]; norm_num [ratCos, ratSin])⟩

/-- For a unit vector `x` and a direction `dir` perpendicular to it and not zero,
`RotateUnitInDirection` is the rotation by `|dir|` about the axis `x × dir/|dir|`. -/
theorem VectorR3.RotateUnitInDirection_eq_Rotate_cross (cos sin sqrt : K → K)
    (x dir : VectorR3 K) (hx : VectorR3.NormSq x = 1) (hp : VectorR3.dot x dir = 0)
    (hdir : dir ≠ VectorR3.Zero) :
    VectorR3.RotateUnitInDirection cos sin sqrt x dir
      = VectorR3.Rotate cos sin x (VectorR3.Norm sqrt dir)
          (VectorR3.cross x (VectorR3.divScalar dir (VectorR3.Norm sqrt dir))) := by
  rw [VectorR3.RotateUnitInDirection_of_ne cos sin sqrt x dir hdir]
  generalize VectorR3.Norm sqrt dir = θ
  obtain ⟨x1, x2, x3⟩ := x
  obtain ⟨d1, d2, d3⟩ := dir
  simp only [VectorR3.NormSq, VectorR3.dot] at hx hp
  simp only [VectorR3.Rotate, VectorR3.cross, VectorR3.divScalar, VectorR3.add, VectorR3.smul,
    VectorR3.set_x, VectorR3.set_y, VectorR3.set_z, VectorR3.mk.injEq, div_eq_mul_inv]
  generalize cos θ = c
  generalize sin θ = s
  generalize θ⁻¹ = e
  refine ⟨?_, ?_, ?_⟩
  · linear_combination (-(s * d1 * e)) * hx + (s * x1 * e) * hp
  · linear_combination (-(s * d2 * e)) * hx + (s * x2 * e) * hp
  · linear_combination (-(s * d3 * e)) * hx + (s * x3 * e) * hp

/-- C25 (fails on the code): over the reals, with `x = (1,0,0)` a unit vector and
`dir = (0, π/2, 0)` non-zero and perpendicular to it, `x.RotateUnitInDirection(dir)`
is `(0,1,0)` while `x.Rotate(|dir|, dir/|dir|)` is `(0,0,-1)`. -/
theorem C25_RotateUnitInDirection_is_not_rotation_about_dir :
    VectorR3.NormSq ({ x := 1, y := 0, z := 0 } : VectorR3 ℝ) = 1 ∧
      VectorR3.dot ({ x := 1, y := 0, z := 0 } : VectorR3 ℝ)
        { x := 0, y := Real.pi / 2, z := 0 } = 0 ∧
      ({ x := 0, y := Real.pi / 2, z := 0 } : VectorR3 ℝ) ≠ VectorR3.Zero ∧
      VectorR3.RotateUnitInDirection Real.cos Real.sin Real.sqrt { x := 1, y := 0, z := 0 }
        { x := 0, y := Real.pi / 2, z := 0 } = { x := 0, y := 1, z := 0 } ∧
      VectorR3.Rotate Real.cos Real.sin { x := 1, y := 0, z := 0 }
        (VectorR3.Norm Real.sqrt { x := 0, y := Real.pi / 2, z := 0 })
        (VectorR3.divScalar { x := 0, y := Real.pi / 2, z := 0 }
          (VectorR3.Norm Real.sqrt { x := 0, y := Real.pi / 2, z := 0 }))
        = { x := 0, y := 0, z := -1 } ∧
      VectorR3.RotateUnitInDirection Real.cos Real.sin Real.sqrt { x := 1, y := 0, z := 0 }
        { x := 0, y := Real.pi / 2, z := 0 }
        ≠ VectorR3.Rotate Real.cos Real.sin { x := 1, y := 0, z := 0 }
          (VectorR3.Norm Real.sqrt { x := 0, y := Real.pi / 2, z := 0 })
          (VectorR3.divScalar { x := 0, y := Real.pi / 2, z := 0 }
            (VectorR3.Norm Real.sqrt { x := 0, y := Real.pi / 2, z := 0 })) := by
  have hpi : Real.pi / 2 ≠ 0 := by positivity
  have hn : VectorR3.Norm Real.sqrt ({ x := 0, y := Real.pi / 2, z := 0 } : VectorR3 ℝ)
      = Real.pi / 2 := by
    simp only [VectorR3.Norm, VectorR3.NormSq, mul_zero, zero_add, add_zero]
    exact Real.sqrt_mul_self (by positivity)
  have hd : ({ x := 0, y := Real.pi / 2, z := 0 } : VectorR3 ℝ) ≠ VectorR3.Zero := by
    intro h
    exact hpi (congrArg VectorR3.y h)
  have h1 : VectorR3.RotateUnitInDirection Real.cos Real.sin Real.sqrt
      { x := 1, y := 0, z := 0 } { x := 0, y := Real.pi / 2, z := 0 }
      = { x := 0, y := 1, z := 0 } := by
    rw [VectorR3.RotateUnitInDirection_of_ne _ _ _ _ _ hd, hn]
    simp [VectorR3.add, VectorR3.smul, VectorR3.divScalar, hpi]
  have h2 : VectorR3.Rotate Real.cos Real.sin { x := 1, y := 0, z := 0 }
      (VectorR3.Norm Real.sqrt { x := 0, y := Real.pi / 2, z := 0 })
      (VectorR3.divScalar { x := 0, y := Real.pi / 2, z := 0 }
        (VectorR3.Norm Real.sqrt { x := 0, y := Real.pi / 2, z := 0 }))
      = { x := 0, y := 0, z := -1 } := by
    rw [hn]
    simp [VectorR3.Rotate, VectorR3.divScalar, hpi]
  refine ⟨by norm_num [VectorR3.NormSq], by norm_num [VectorR3.dot], hd, h1, h2, ?_⟩
  rw [h1, h2]
  intro h
  have := congrArg VectorR3.y h
  norm_num at this

/-- C25 (amended): `RotateUnitInDirection` treats its argument as the direction
toward which the receiver moves and its length as the angle: for every unit vector
`x` in R3 and every non-zero `dir` perpendicular to `x`, `x.RotateUnitInDirection(dir)`
equals `x.Rotate(|dir|, x × dir/|dir|)`, the rotation about the axis perpendicular to
both. -/
theorem C25_RotateUnitInDirection_is_rotation_about_cross (cos sin sqrt : K → K)
    (x dir : VectorR3 K) (hx : VectorR3.NormSq x = 1) (hp : VectorR3.dot x dir = 0)
    (hdir : dir ≠ VectorR3.Zero) :
    VectorR3.RotateUnitInDirection cos sin sqrt x dir
      = VectorR3.Rotate cos sin x (VectorR3.Norm sqrt dir)
          (VectorR3.cross x (VectorR3.divScalar dir (VectorR3.Norm sqrt dir))) :=
  VectorR3.RotateUnitInDirection_eq_Rotate_cross cos sin sqrt x dir hx hp hdir

/-- C25 (amended) run over `ℚ` with the stand-ins `ratCos`, `ratSin`, `ratSqrt` on
`x = (1,0,0)` and `dir = (0,2,0)`. -/
theorem C25_RotateUnitInDirection_is_rotation_about_cross_witness :
    VectorR3.NormSq unitX3 = 1 ∧ VectorR3.dot unitX3 deltaY3 = 0 ∧
      deltaY3 ≠ VectorR3.Zero ∧
      VectorR3.RotateUnitInDirection ratCos ratSin ratSqrt unitX3 deltaY3
        = VectorR3.Rotate ratCos ratSin unitX3 (VectorR3.Norm ratSqrt deltaY3)
            (VectorR3.cross unitX3 (VectorR3.divScalar deltaY3
              (VectorR3.Norm ratSqrt deltaY3))) :=
  have hx : VectorR3.NormSq unitX3 = 1 := by norm_num [VectorR3.NormSq, unitX3]
  have hp : VectorR3.dot unitX3 deltaY3 = 0 := by norm_num [VectorR3.dot, unitX3, deltaY3]
  have hd : deltaY3 ≠ VectorR3.Zero := by
    intro h
    have := congrArg VectorR3.y h
    norm_num [deltaY3, VectorR3.Zero] at this
  ⟨hx, hp, hd,
    C25_RotateUnitInDirection_is_rotation_about_cross ratCos ratSin ratSqrt unitX3 deltaY3
      hx hp hd⟩

/-- With the real `sqrt`, `cos` and `sin`, `RotateUnitInDirection` turns a unit
vector toward a perpendicular non-zero direction by the angle `|dir|`. -/
theorem VectorR3.RotateUnitInDirection_real (x dir : VectorR3 ℝ)
    (hx : VectorR3.NormSq x = 1) (hp : VectorR3.dot x dir = 0) (hdir : dir ≠ VectorR3.Zero) :
    VectorR3.IsRotatedToward (Real.cos (VectorR3.Norm Real.sqrt dir))
      (Real.sin (VectorR3.Norm Real.sqrt dir)) x
      (VectorR3.divScalar dir (VectorR3.Norm Real.sqrt dir))
      (VectorR3.RotateUnitInDirection Real.cos Real.sin Real.sqrt x dir) := by
  apply VectorR3.RotateUnitInDirection_isRotatedToward Real.cos Real.sin Real.sqrt x dir hx hp
    hdir
  · apply Real.mul_self_sqrt
    exact add_nonneg (add_nonneg (mul_self_nonneg _) (mul_self_nonneg _)) (mul_self_nonneg _)
  · rw [← sq, ← sq]
    exact Real.cos_sq_add_sin_sq _

/-- C27: for every 4x4 matrix `M`, `LinearMapR4::Determinant()` equals the
determinant of `M`, and it is the value whose reciprocal `Inverse()` and `Invert()`
multiply the cofactors by: both leave the adjugate of `M` (the transposed matrix of
cofactors) scaled by `1/Determinant()`. -/
theorem C27_Determinant4_is_det (M : LinearMapR4 K) :
    LinearMapR4.Determinant M = (Matrix4x4.toMatrix M).det ∧
      Matrix4x4.toMatrix (LinearMapR4.Inverse M)
        = (1 / LinearMapR4.Determinant M) • (Matrix4x4.toMatrix M).adjugate ∧
      Matrix4x4.toMatrix (LinearMapR4.Invert M)
        = (1 / LinearMapR4.Determinant M) • (Matrix4x4.toMatrix M).adjugate :=
  ⟨LinearMapR4.Determinant_eq_det M, LinearMapR4.toMatrix4_Inverse M,
    LinearMapR4.toMatrix4_Inverse M⟩

/-- The 4x4 determinant routine run on `sample4`. -/
theorem Determinant4_run : LinearMapR4.Determinant sample4 = -4 := by
  norm_num [LinearMapR4.Determinant, sample4]

/-- The builders `Set_glOrtho`, `Set_glRotate` and `Set_gluLookAt` write all
sixteen entries: their result does not depend on the receiver. -/
theorem LinearMapR4.Set_builders_ignore_receiver (sqrt : K → K) (s s' : LinearMapR4 K)
    (left right bottom top near far costheta sintheta x y z : K)
    (eyePos lookAtPos upDir : VectorR3 K) :
    LinearMapR4.Set_glOrtho s left right bottom top near far
        = LinearMapR4.Set_glOrtho s' left right bottom top near far ∧
      LinearMapR4.Set_glRotate sqrt s costheta sintheta x y z
        = LinearMapR4.Set_glRotate sqrt s' costheta sintheta x y z ∧
      LinearMapR4.Set_gluLookAt sqrt s eyePos lookAtPos upDir
        = LinearMapR4.Set_gluLookAt sqrt s' eyePos lookAtPos upDir :=
  ⟨rfl, rfl, rfl⟩

/-- The builder `Set_glFrustum` writes fifteen entries and leaves `m44` as it was:
two results agree exactly when the receivers agree in `m44`. -/
theorem LinearMapR4.Set_glFrustum_keeps_m44 (s s' : LinearMapR4 K)
    (left right bottom top near far : K) :
    (LinearMapR4.Set_glFrustum s left right bottom top near far).m44 = s.m44 ∧
      (LinearMapR4.Set_glFrustum s left right bottom top near far
          = LinearMapR4.Set_glFrustum s' left right bottom top near far ↔ s.m44 = s'.m44) := by
  refine ⟨rfl, ?_⟩
  simp only [LinearMapR4.Set_glFrustum, Matrix4x4.set_m11, Matrix4x4.set_m12,
    Matrix4x4.set_m13, Matrix4x4.set_m14, Matrix4x4.set_m21, Matrix4x4.set_m22,
    Matrix4x4.set_m23, Matrix4x4.set_m24, Matrix4x4.set_m31, Matrix4x4.set_m32,
    Matrix4x4.set_m33, Matrix4x4.set_m34, Matrix4x4.set_m41, Matrix4x4.set_m42,
    Matrix4x4.set_m43, Matrix4x4.set_m44, Matrix4x4.mk.injEq, true_and, and_true]

/-- C28 (fails on the code): `Set_glFrustum(-1, 1, -1, 1, 1, 3)` and
`Set_gluPerspective` with the same arguments on two receivers, the identity matrix
and the zero matrix, leave different matrices: `m44` is never written, so it stays
`1` on the first and `0` on the second. -/
theorem C28_Set_glFrustum_leaves_m44 :
    (LinearMapR4.Set_glFrustum (Matrix4x4.Identity : Matrix4x4 ℚ) (-1) 1 (-1) 1 1 3).m44 = 1 ∧
      (LinearMapR4.Set_glFrustum (Matrix4x4.Zero : Matrix4x4 ℚ) (-1) 1 (-1) 1 1 3).m44 = 0 ∧
      LinearMapR4.Set_glFrustum (Matrix4x4.Identity : Matrix4x4 ℚ) (-1) 1 (-1) 1 1 3
        ≠ LinearMapR4.Set_glFrustum (Matrix4x4.Zero : Matrix4x4 ℚ) (-1) 1 (-1) 1 1 3 ∧
      LinearMapR4.Set_gluPerspective ratTan (Matrix4x4.Identity : Matrix4x4 ℚ) 1 1 1 3
        ≠ LinearMapR4.Set_gluPerspective ratTan (Matrix4x4.Zero : Matrix4x4 ℚ) 1 1 1 3 := by
  have h1 : (LinearMapR4.Set_glFrustum (Matrix4x4.Identity : Matrix4x4 ℚ)
      (-1) 1 (-1) 1 1 3).m44 = 1 := rfl
  have h0 : (LinearMapR4.Set_glFrustum (Matrix4x4.Zero : Matrix4x4 ℚ)
      (-1) 1 (-1) 1 1 3).m44 = 0 := rfl
  refine ⟨h1, h0, ?_, ?_⟩
  · intro h
    rw [h, h0] at h1
    norm_num at h1
  · intro h
    have h44 := congrArg Matrix4x4.m44 h
    have e1 : (LinearMapR4.Set_gluPerspective ratTan (Matrix4x4.Identity : Matrix4x4 ℚ)
        1 1 1 3).m44 = 1 := rfl
    have e0 : (LinearMapR4.Set_gluPerspective ratTan (Matrix4x4.Zero : Matrix4x4 ℚ)
        1 1 1 3).m44 = 0 := rfl
    rw [e1, e0] at h44
    norm_num at h44

/-- What `Set_glOrtho` followed by `AffineTransformPosition` does to the two
corners of the view box: the `x` and `y` coordinates are `∓1`, the depths are
`(3·near + far)/(far − near)` and `(3·far + near)/(far − near)`. -/
theorem LinearMapR4.Set_glOrtho_corners (s : LinearMapR4 K)
    (left right bottom top near far : K) (hlr : left ≠ right) (hbt : bottom ≠ top)
    (hnf : near ≠ far) :
    LinearMapR4.AffineTransformPosition
        (LinearMapR4.Set_glOrtho s left right bottom top near far)
        { x := left, y := bottom, z := -near }
        = { x := -1, y := -1, z := (3 * near + far) / (far - near) } ∧
      LinearMapR4.AffineTransformPosition
        (LinearMapR4.Set_glOrtho s left right bottom top near far)
        { x := right, y := top, z := -far }
        = { x := 1, y := 1, z := (3 * far + near) / (far - near) } := by
  have h1 : left - right ≠ 0 := sub_ne_zero.mpr hlr
  have h2 : bottom - top ≠ 0 := sub_ne_zero.mpr hbt
  have h3 : far - near ≠ 0 := sub_ne_zero.mpr (Ne.symm hnf)
  simp only [LinearMapR4.AffineTransformPosition, LinearMapR4.Set_glOrtho, Matrix4x4.set_m11,
    Matrix4x4.set_m12, Matrix4x4.set_m13, Matrix4x4.set_m14, Matrix4x4.set_m21,
    Matrix4x4.set_m22, Matrix4x4.set_m23, Matrix4x4.set_m24, Matrix4x4.set_m31,
    Matrix4x4.set_m32, Matrix4x4.set_m33, Matrix4x4.set_m34, Matrix4x4.set_m41,
    Matrix4x4.set_m42, Matrix4x4.set_m43, Matrix4x4.set_m44, VectorR3.set_x, VectorR3.set_y,
    VectorR3.set_z, VectorR3.mk.injEq]
  refine ⟨⟨?_, ?_, ?_⟩, ?_, ?_, ?_⟩ <;> field_simp <;> ring

/-- C29 (fails on the code): with `left = bottom = -1`, `right = top = 1`,
`near = 1`, `far = 3`, on any receiver, `Set_glOrtho` followed by
`AffineTransformPosition` sends the corner `(left, bottom, -near) = (-1,-1,-1)` to
`(-1,-1,3)` and the corner `(right, top, -far) = (1,1,-3)` to `(1,1,5)`, not to
`(-1,-1,-1)` and `(1,1,1)`: the entry `m34` is `(near+far)/(far-near) = 2` where
glOrtho has `-(far+near)/(far-near) = -2`. -/
theorem C29_Set_glOrtho_depth_offset_sign (s : LinearMapR4 ℚ) :
    LinearMapR4.AffineTransformPosition (LinearMapR4.Set_glOrtho s (-1) 1 (-1) 1 1 3)
        { x := -1, y := -1, z := -1 } = { x := -1, y := -1, z := 3 } ∧
      LinearMapR4.AffineTransformPosition (LinearMapR4.Set_glOrtho s (-1) 1 (-1) 1 1 3)
        { x := 1, y := 1, z := -3 } = { x := 1, y := 1, z := 5 } ∧
      (LinearMapR4.Set_glOrtho s (-1) 1 (-1) 1 1 3).m34 = 2 ∧
      LinearMapR4.IsAffine (LinearMapR4.Set_glOrtho s (-1) 1 (-1) 1 1 3) := by
  refine ⟨?_, ?_, ?_, ?_⟩ <;>
    norm_num [LinearMapR4.AffineTransformPosition, LinearMapR4.Set_glOrtho,
      LinearMapR4.IsAffine]

/-- C30: for `zNear ≠ 0`, `zNear ≠ zFar`, `aspect ≠ 0` and `tan(fov/2) ≠ 0`, on any
receiver, `Set_gluPerspective(fov, aspect, zNear, zFar)` leaves `m22 = 1/tan(fov/2)`,
`m11 = m22/aspect`, `m13 = m23 = 0`, `m33 = (zFar+zNear)/(zNear−zFar)`,
`m34 = 2·zFar·zNear/(zNear−zFar)` and `m43 = −1`, and it is
`Set_glFrustum(−a·h, a·h, −h, h, zNear, zFar)` with `h = zNear·tan(fov/2)`,
`a = aspect`. -/
theorem C30_Set_gluPerspective_is_symmetric_frustum (tan : K → K) (s : LinearMapR4 K)
    (fov aspect zNear zFar : K) (hn : zNear ≠ 0) (hnf : zNear ≠ zFar) (ha : aspect ≠ 0)
    (ht : tan (fov / 2) ≠ 0) :
    (LinearMapR4.Set_gluPerspective tan s fov aspect zNear zFar).m22 = 1 / tan (fov / 2) ∧
      (LinearMapR4.Set_gluPerspective tan s fov aspect zNear zFar).m11
        = (LinearMapR4.Set_gluPerspective tan s fov aspect zNear zFar).m22 / aspect ∧
      (LinearMapR4.Set_gluPerspective tan s fov aspect zNear zFar).m13 = 0 ∧
      (LinearMapR4.Set_gluPerspective tan s fov aspect zNear zFar).m23 = 0 ∧
      (LinearMapR4.Set_gluPerspective tan s fov aspect zNear zFar).m33
        = (zFar + zNear) / (zNear - zFar) ∧
      (LinearMapR4.Set_gluPerspective tan s fov aspect zNear zFar).m34
        = 2 * zFar * zNear / (zNear - zFar) ∧
      (LinearMapR4.Set_gluPerspective tan s fov aspect zNear zFar).m43 = -1 ∧
      LinearMapR4.Set_gluPerspective tan s fov aspect zNear zFar
        = LinearMapR4.Set_glFrustum s (-(aspect * (zNear * tan (fov / 2))))
            (aspect * (zNear * tan (fov / 2))) (-(zNear * tan (fov / 2)))
            (zNear * tan (fov / 2)) zNear zFar := by
  have e : (0.5 : K) * fov = fov / 2 := by norm_num; ring
  have h3 : zNear - zFar ≠ 0 := sub_ne_zero.mpr hnf
  simp only [LinearMapR4.Set_gluPerspective, e]
  generalize tan (fov / 2) = t at ht ⊢
  simp only [LinearMapR4.Set_glFrustum, Matrix4x4.set_m11, Matrix4x4.set_m12,
    Matrix4x4.set_m13, Matrix4x4.set_m14, Matrix4x4.set_m21, Matrix4x4.set_m22,
    Matrix4x4.set_m23, Matrix4x4.set_m24, Matrix4x4.set_m31, Matrix4x4.set_m32,
    Matrix4x4.set_m33, Matrix4x4.set_m34, Matrix4x4.set_m41, Matrix4x4.set_m42,
    Matrix4x4.set_m43, Matrix4x4.set_m44]
  have one : (1.0 : K) = 1 := by norm_num
  have two : (2.0 : K) = 2 := by norm_num
  rw [one, two]
  refine ⟨?_, ?_, ?_, ?_, ?_, ?_, ?_, trivial⟩
  · field_simp
    ring
  · field_simp
    ring
  · field_simp
  · field_simp
  · field_simp
  · field_simp
    ring
  · norm_num

/-- C30 run over `ℚ` with the stand-in `ratTan` on the identity receiver: `fov`
parameter 1 (so `tan(fov/2) = ratTan (1/2) = 4/3`), aspect 2, `zNear = 1`, `zFar = 3`. -/
theorem C30_Set_gluPerspective_is_symmetric_frustum_witness :
    (1 : ℚ) ≠ 0 ∧ (1 : ℚ) ≠ 3 ∧ (2 : ℚ) ≠ 0 ∧ ratTan (1 / 2) ≠ 0 ∧
      (LinearMapR4.Set_gluPerspective ratTan Matrix4x4.Identity 1 2 1 3).m22
        = 1 / ratTan (1 / 2) ∧
      (LinearMapR4.Set_gluPerspective ratTan Matrix4x4.Identity 1 2 1 3).m11
        = (LinearMapR4.Set_gluPerspective ratTan Matrix4x4.Identity 1 2 1 3).m22 / 2 ∧
      (LinearMapR4.Set_gluPerspective ratTan Matrix4x4.Identity 1 2 1 3).m13 = 0 ∧
      (LinearMapR4.Set_gluPerspective ratTan Matrix4x4.Identity 1 2 1 3).m23 = 0 ∧
      (LinearMapR4.Set_gluPerspective ratTan Matrix4x4.Identity 1 2 1 3).m33
        = (3 + 1) / (1 - 3) ∧
      (LinearMapR4.Set_gluPerspective ratTan Matrix4x4.Identity 1 2 1 3).m34
        = 2 * 3 * 1 / (1 - 3) ∧
      (LinearMapR4.Set_gluPerspective ratTan Matrix4x4.Identity 1 2 1 3).m43 = -1 ∧
      LinearMapR4.Set_gluPerspective ratTan Matrix4x4.Identity 1 2 1 3
        = LinearMapR4.Set_glFrustum Matrix4x4.Identity (-(2 * (1 * ratTan (1 / 2))))
            (2 * (1 * ratTan (1 / 2))) (-(1 * ratTan (1 / 2))) (1 * ratTan (1 / 2)) 1 3 :=
  have ht : ratTan (1 / 2) ≠ 0 := by norm_num [ratTan]
  ⟨by norm_num, by norm_num, by norm_num, ht,
    C30_Set_gluPerspective_is_symmetric_frustum ratTan Matrix4x4.Identity 1 2 1 3
      (by norm_num) (by norm_num) (by norm_num) ht⟩

/-- The matrix built by `Set_glRotate` depends on the axis only through the three
normalized components `x*normInv`, `y*normInv`, `z*normInv`. -/
theorem LinearMapR4.Set_glRotate_congr (sqrt : K → K) (s : LinearMapR4 K)
    (c sn x y z x' y' z' : K)
    (hx : x * (1.0 / sqrt (x * x + y * y + z * z))
      = x' * (1.0 / sqrt (x' * x' + y' * y' + z' * z')))
    (hy : y * (1.0 / sqrt (x * x + y * y + z * z))
      = y' * (1.0 / sqrt (x' * x' + y' * y' + z' * z')))
    (hz : z * (1.0 / sqrt (x * x + y * y + z * z))
      = z' * (1.0 / sqrt (x' * x' + y' * y' + z' * z'))) :
    LinearMapR4.Set_glRotate sqrt s c sn x y z = LinearMapR4.Set_glRotate sqrt s c sn x' y' z' := by
  simp only [LinearMapR4.Set_glRotate, hx, hy, hz]

/-- Scaling the axis of `Set_glRotate` by `k > 0` does not change the matrix, when
`sqrt` returns the non-negative square root at the two squared lengths. -/
theorem LinearMapR4.Set_glRotate_scale (sqrt : K → K) (s : LinearMapR4 K)
    (c sn x y z k : K) (hk : 0 < k) (hxyz : x ≠ 0 ∨ y ≠ 0 ∨ z ≠ 0)
    (h0 : 0 ≤ sqrt (x * x + y * y + z * z))
    (h1 : sqrt (x * x + y * y + z * z) * sqrt (x * x + y * y + z * z) = x * x + y * y + z * z)
    (h0k : 0 ≤ sqrt (k * x * (k * x) + k * y * (k * y) + k * z * (k * z)))
    (h1k : sqrt (k * x * (k * x) + k * y * (k * y) + k * z * (k * z))
        * sqrt (k * x * (k * x) + k * y * (k * y) + k * z * (k * z))
      = k * x * (k * x) + k * y * (k * y) + k * z * (k * z)) :
    LinearMapR4.Set_glRotate sqrt s c sn (k * x) (k * y) (k * z)
      = LinearMapR4.Set_glRotate sqrt s c sn x y z := by
  have hn : 0 < x * x + y * y + z * z := by
    rcases hxyz with h | h | h
    · have := mul_self_pos.mpr h
      linarith [mul_self_nonneg y, mul_self_nonneg z]
    · have := mul_self_pos.mpr h
      linarith [mul_self_nonneg x, mul_self_nonneg z]
    · have := mul_self_pos.mpr h
      linarith [mul_self_nonneg x, mul_self_nonneg y]
  have hr : sqrt (x * x + y * y + z * z) ≠ 0 := by
    intro h
    rw [h, mul_zero] at h1
    exact hn.ne h1
  have hrk : sqrt (k * x * (k * x) + k * y * (k * y) + k * z * (k * z))
      = k * sqrt (x * x + y * y + z * z) := by
    have hsq : sqrt (k * x * (k * x) + k * y * (k * y) + k * z * (k * z))
          * sqrt (k * x * (k * x) + k * y * (k * y) + k * z * (k * z))
        = k * sqrt (x * x + y * y + z * z) * (k * sqrt (x * x + y * y + z * z)) := by
      rw [h1k]
      linear_combination (-(k * k)) * h1
    exact (mul_self_inj_of_nonneg h0k (mul_nonneg hk.le h0)).mp hsq
  have one : (1.0 : K) = 1 := by norm_num
  apply LinearMapR4.Set_glRotate_congr
  · rw [hrk, one]
    field_simp
    ring
  · rw [hrk, one]
    field_simp
    ring
  · rw [hrk, one]
    field_simp
    ring

/-- C31: `Set_glRotate` normalizes its axis internally: for every non-zero axis
`(x,y,z)`, every `k > 0` and all values `costheta`, `sintheta`, on any receiver,
`Set_glRotate(costheta, sintheta, k·x, k·y, k·z)` produces the same matrix as
`Set_glRotate(costheta, sintheta, x, y, z)`, and the assertion `normSq > 0.0` holds in
both calls.  Of `sqrt` only that it returns the non-negative square root of the two
squared lengths is used. -/
theorem C31_Set_glRotate_normalizes_axis (sqrt : K → K) (s : LinearMapR4 K)
    (costheta sintheta x y z k : K) (hk : 0 < k) (hxyz : x ≠ 0 ∨ y ≠ 0 ∨ z ≠ 0)
    (h0 : 0 ≤ sqrt (x * x + y * y + z * z))
    (h1 : sqrt (x * x + y * y + z * z) * sqrt (x * x + y * y + z * z) = x * x + y * y + z * z)
    (h0k : 0 ≤ sqrt (k * x * (k * x) + k * y * (k * y) + k * z * (k * z)))
    (h1k : sqrt (k * x * (k * x) + k * y * (k * y) + k * z * (k * z))
        * sqrt (k * x * (k * x) + k * y * (k * y) + k * z * (k * z))
      = k * x * (k * x) + k * y * (k * y) + k * z * (k * z)) :
    LinearMapR4.Set_glRotate sqrt s costheta sintheta (k * x) (k * y) (k * z)
        = LinearMapR4.Set_glRotate sqrt s costheta sintheta x y z ∧
      LinearMapR4.Set_glRotateAsserts x y z ∧
      LinearMapR4.Set_glRotateAsserts (k * x) (k * y) (k * z) := by
  have hn : 0 < x * x + y * y + z * z := by
    rcases hxyz with h | h | h
    · have := mul_self_pos.mpr h
      linarith [mul_self_nonneg y, mul_self_nonneg z]
    · have := mul_self_pos.mpr h
      linarith [mul_self_nonneg x, mul_self_nonneg z]
    · have := mul_self_pos.mpr h
      linarith [mul_self_nonneg x, mul_self_nonneg y]
  have hnk : 0 < k * x * (k * x) + k * y * (k * y) + k * z * (k * z) := by
    have e : k * x * (k * x) + k * y * (k * y) + k * z * (k * z)
        = k * k * (x * x + y * y + z * z) := by ring
    rw [e]
    exact mul_pos (mul_pos hk hk) hn
  have zero : (0.0 : K) = 0 := by norm_num
  refine ⟨LinearMapR4.Set_glRotate_scale sqrt s costheta sintheta x y z k hk hxyz h0 h1 h0k h1k,
    ?_, ?_⟩
  · simp only [LinearMapR4.Set_glRotateAsserts, zero]
    exact hn
  · simp only [LinearMapR4.Set_glRotateAsserts, zero]
    exact hnk

/-- C31 run over `ℚ` with the stand-in `ratSqrt`: the unit axis `(0, 3/5, 4/5)` and
its multiple by `k = 5`, the axis `(0, 3, 4)`, with `costheta = 3/5`,
`sintheta = 4/5`, on the zero receiver. -/
theorem C31_Set_glRotate_normalizes_axis_witness :
    (0 : ℚ) < 5 ∧ ((0 : ℚ) ≠ 0 ∨ (3 / 5 : ℚ) ≠ 0 ∨ (4 / 5 : ℚ) ≠ 0) ∧
      LinearMapR4.Set_glRotate ratSqrt Matrix4x4.Zero (3 / 5) (4 / 5) 0 3 4
        = { m11 := 3 / 5, m12 := -16 / 25, m13 := 12 / 25, m14 := 0,
            m21 := 16 / 25, m22 := 93 / 125, m23 := 24 / 125, m24 := 0,
            m31 := -12 / 25, m32 := 24 / 125, m33 := 107 / 125, m34 := 0,
            m41 := 0, m42 := 0, m43 := 0, m44 := 1 } ∧
      LinearMapR4.Set_glRotate ratSqrt Matrix4x4.Zero (3 / 5) (4 / 5) (5 * 0) (5 * (3 / 5))
          (5 * (4 / 5))
        = LinearMapR4.Set_glRotate ratSqrt Matrix4x4.Zero (3 / 5) (4 / 5) 0 (3 / 5) (4 / 5) ∧
      LinearMapR4.Set_glRotateAsserts (0 : ℚ) (3 / 5) (4 / 5) ∧
      LinearMapR4.Set_glRotateAsserts (5 * (0 : ℚ)) (5 * (3 / 5)) (5 * (4 / 5)) :=
  ⟨by norm_num, by norm_num,
    by norm_num [LinearMapR4.Set_glRotate, Matrix4x4.Zero, LinearMapR4.ofColumns, ratSqrt],
    C31_Set_glRotate_normalizes_axis ratSqrt Matrix4x4.Zero (3 / 5) (4 / 5) 0 (3 / 5) (4 / 5) 5
      (by norm_num) (by norm_num) (by norm_num [ratSqrt]) (by norm_num [ratSqrt])
      (by norm_num [ratSqrt]) (by norm_num [ratSqrt])⟩

/-- Over the reals with the real square root, scaling the axis of `Set_glRotate` by
`k > 0` does not change the matrix. -/
theorem LinearMapR4.Set_glRotate_scale_real (s : LinearMapR4 ℝ) (c sn x y z k : ℝ)
    (hk : 0 < k) (hxyz : x ≠ 0 ∨ y ≠ 0 ∨ z ≠ 0) :
    LinearMapR4.Set_glRotate Real.sqrt s c sn (k * x) (k * y) (k * z)
      = LinearMapR4.Set_glRotate Real.sqrt s c sn x y z :=
  LinearMapR4.Set_glRotate_scale Real.sqrt s c sn x y z k hk hxyz (Real.sqrt_nonneg _)
    (Real.mul_self_sqrt (add_nonneg (add_nonneg (mul_self_nonneg _) (mul_self_nonneg _))
      (mul_self_nonneg _)))
    (Real.sqrt_nonneg _)
    (Real.mul_self_sqrt (add_nonneg (add_nonneg (mul_self_nonneg _) (mul_self_nonneg _))
      (mul_self_nonneg _)))

/-- The matrix of `Set_glRotate` for a unit axis, applied to a direction, is the
vector rotation `Rotate`. -/
theorem LinearMapR4.AffineTransformDirection_Set_glRotate (cos sin sqrt : K → K)
    (s : LinearMapR4 K) (w v : VectorR3 K) (theta : K) (hw : VectorR3.NormSq w = 1)
    (h1 : sqrt 1 = 1) :
    LinearMapR4.AffineTransformDirection
        (LinearMapR4.Set_glRotate sqrt s (cos theta) (sin theta) w.x w.y w.z) v
      = VectorR3.Rotate cos sin v theta w := by
  have hw' : w.x * w.x + w.y * w.y + w.z * w.z = 1 := hw
  have one : (1.0 : K) = 1 := by norm_num
  simp only [LinearMapR4.AffineTransformDirection, LinearMapR4.Set_glRotate, VectorR3.Rotate,
    hw', h1, one, div_one, mul_one, Matrix4x4.set_m11, Matrix4x4.set_m12,
    Matrix4x4.set_m13, Matrix4x4.set_m14, Matrix4x4.set_m21, Matrix4x4.set_m22,
    Matrix4x4.set_m23, Matrix4x4.set_m24, Matrix4x4.set_m31, Matrix4x4.set_m32,
    Matrix4x4.set_m33, Matrix4x4.set_m34, Matrix4x4.set_m41, Matrix4x4.set_m42,
    Matrix4x4.set_m43, Matrix4x4.set_m44, VectorR3.set_x, VectorR3.set_y, VectorR3.set_z,
    VectorR3.mk.injEq]
  refine ⟨?_, ?_, ?_⟩ <;> ring

/-- C32: the matrix form and the vector form of Rodrigues' rotation agree: for
every unit axis `w`, angle `θ` and vector `v`, on any receiver, applying the matrix
built by `Set_glRotate(cos θ, sin θ, w.x, w.y, w.z)` to `v` with
`AffineTransformDirection` gives exactly `v.Rotate(θ, w)`; the matrix is affine and
the assertion `normSq > 0.0` holds.  Of `sqrt` only `sqrt 1 = 1` is used. -/
theorem C32_Set_glRotate_matches_Rotate (cos sin sqrt : K → K) (s : LinearMapR4 K)
    (w v : VectorR3 K) (theta : K) (hw : VectorR3.NormSq w = 1) (h1 : sqrt 1 = 1) :
    LinearMapR4.AffineTransformDirection
        (LinearMapR4.Set_glRotate sqrt s (cos theta) (sin theta) w.x w.y w.z) v
        = VectorR3.Rotate cos sin v theta w ∧
      LinearMapR4.IsAffine
        (LinearMapR4.Set_glRotate sqrt s (cos theta) (sin theta) w.x w.y w.z) ∧
      LinearMapR4.Set_glRotateAsserts w.x w.y w.z := by
  have hw' : w.x * w.x + w.y * w.y + w.z * w.z = 1 := hw
  refine ⟨LinearMapR4.AffineTransformDirection_Set_glRotate cos sin sqrt s w v theta hw h1,
    ?_, ?_⟩
  · norm_num [LinearMapR4.IsAffine, LinearMapR4.Set_glRotate]
  · simp only [LinearMapR4.Set_glRotateAsserts, hw']
    norm_num

/-- C32 run over `ℚ` with the stand-ins `ratCos`, `ratSin`, `ratSqrt`: the vector
`(1,2,3)` about the unit axis `(0, 3/5, 4/5)` with angle parameter `1/2`
(`cos = 3/5`, `sin = 4/5`); both forms give `(19/25, 338/125, 309/125)`. -/
theorem C32_Set_glRotate_matches_Rotate_witness :
    VectorR3.NormSq sampleAxis = 1 ∧ ratSqrt 1 = 1 ∧
      VectorR3.Rotate ratCos ratSin sampleVec (1 / 2) sampleAxis
        = { x := 19 / 25, y := 338 / 125, z := 309 / 125 } ∧
      LinearMapR4.AffineTransformDirection
        (LinearMapR4.Set_glRotate ratSqrt Matrix4x4.Identity (ratCos (1 / 2)) (ratSin (1 / 2))
          sampleAxis.x sampleAxis.y sampleAxis.z) sampleVec
        = VectorR3.Rotate ratCos ratSin sampleVec (1 / 2) sampleAxis ∧
      LinearMapR4.IsAffine
        (LinearMapR4.Set_glRotate ratSqrt Matrix4x4.Identity (ratCos (1 / 2)) (ratSin (1 / 2))
          sampleAxis.x sampleAxis.y sampleAxis.z) ∧
      LinearMapR4.Set_glRotateAsserts sampleAxis.x sampleAxis.y sampleAxis.z :=
  have hw : VectorR3.NormSq sampleAxis = 1 := by norm_num [VectorR3.NormSq, sampleAxis]
  have h1 : ratSqrt 1 = 1 := by norm_num [ratSqrt]
  ⟨hw, h1, by norm_num [VectorR3.Rotate, ratCos, ratSin, sampleVec, sampleAxis],
    C32_Set_glRotate_matches_Rotate ratCos ratSin ratSqrt Matrix4x4.Identity sampleAxis
      sampleVec (1 / 2) hw h1⟩

/-- What `AffineTransformPosition` computes on any matrix: the first three
coordinates of the homogeneous image, each divided by the entry `m44`. -/
theorem LinearMapR4.AffineTransformPosition_eq (M : LinearMapR4 K) (p : VectorR3 K) :
    LinearMapR4.AffineTransformPosition M p
      = { x := (Matrix4x4.homogeneousImage M p).x / M.m44,
          y := (Matrix4x4.homogeneousImage M p).y / M.m44,
          z := (Matrix4x4.homogeneousImage M p).z / M.m44 } := by
  have one : (1.0 : K) = 1 := by norm_num
  simp only [LinearMapR4.AffineTransformPosition, Matrix4x4.homogeneousImage, VectorR3.set_x,
    VectorR3.set_y, VectorR3.set_z, VectorR3.mk.injEq, one]
  refine ⟨?_, ?_, ?_⟩ <;> ring

/-- On an affine matrix the homogeneous image of a point has `w = 1`. -/
theorem Matrix4x4.homogeneousImage_w_of_affine (M : Matrix4x4 K) (p : VectorR3 K)
    (h : LinearMapR4.IsAffine M) : (Matrix4x4.homogeneousImage M p).w = 1 := by
  obtain ⟨h1, h2, h3, h4⟩ := h
  simp only [Matrix4x4.homogeneousImage, h1, h2, h3, h4]
  ring

/-- C34 (fails on the code): on the projective matrix `projProbe` (the identity with
last row `(0,0,1,1)`), which the assertion `IsAffine()` excludes, and the point
`(2,4,1)`, the homogeneous image is `(2,4,1,2)`, so dividing by the resulting `w`
gives `(1, 2, 1/2)`, while `AffineTransformPosition` returns `(2,4,1)`. -/
theorem C34_AffineTransformPosition_divides_by_m44 :
    ¬ LinearMapR4.IsAffine projProbe ∧
      Matrix4x4.homogeneousImage projProbe { x := 2, y := 4, z := 1 }
        = { x := 2, y := 4, z := 1, w := 2 } ∧
      Matrix4x4.transformPositionSpec projProbe { x := 2, y := 4, z := 1 }
        = { x := 1, y := 2, z := 1 / 2 } ∧
      LinearMapR4.AffineTransformPosition projProbe { x := 2, y := 4, z := 1 }
        = { x := 2, y := 4, z := 1 } ∧
      LinearMapR4.AffineTransformPosition projProbe { x := 2, y := 4, z := 1 }
        ≠ Matrix4x4.transformPositionSpec projProbe { x := 2, y := 4, z := 1 } := by
  have h1 : Matrix4x4.transformPositionSpec projProbe { x := 2, y := 4, z := 1 }
      = { x := 1, y := 2, z := 1 / 2 } := by
    norm_num [Matrix4x4.transformPositionSpec, VectorR4.perspectiveDivide,
      Matrix4x4.homogeneousImage, projProbe]
  have h2 : LinearMapR4.AffineTransformPosition projProbe { x := 2, y := 4, z := 1 }
      = { x := 2, y := 4, z := 1 } := by
    norm_num [LinearMapR4.AffineTransformPosition, projProbe]
  refine ⟨?_, ?_, h1, h2, ?_⟩
  · norm_num [LinearMapR4.IsAffine, projProbe]
  · norm_num [Matrix4x4.homogeneousImage, projProbe]
  · rw [h1, h2]
    intro h
    have := congrArg VectorR3.x h
    norm_num at this

/-- C34 (amended): for every 4x4 matrix `M` and every point `p`,
`AffineTransformPosition` replaces `p` by `(x', y', z')/m44` where
`(x', y', z', w') = M·(p.x, p.y, p.z, 1)`: it applies `M` with implicit `w = 1` and
then divides by the entry `m44`; when `M` is affine (last row `(0,0,0,1)`, the
routine's assertion) the resulting `w'` is `1 = m44` and the result is
`(x', y', z')/w'`. -/
theorem C34_AffineTransformPosition_on_affine (M : LinearMapR4 K) (p : VectorR3 K) :
    LinearMapR4.AffineTransformPosition M p
        = { x := (Matrix4x4.homogeneousImage M p).x / M.m44,
            y := (Matrix4x4.homogeneousImage M p).y / M.m44,
            z := (Matrix4x4.homogeneousImage M p).z / M.m44 } ∧
      (LinearMapR4.IsAffine M →
        (Matrix4x4.homogeneousImage M p).w = 1 ∧ M.m44 = 1 ∧
          LinearMapR4.AffineTransformPosition M p = Matrix4x4.transformPositionSpec M p) := by
  refine ⟨LinearMapR4.AffineTransformPosition_eq M p, fun h => ?_⟩
  have hw := Matrix4x4.homogeneousImage_w_of_affine M p h
  refine ⟨hw, h.2.2.2, ?_⟩
  rw [LinearMapR4.AffineTransformPosition_eq, Matrix4x4.transformPositionSpec,
    VectorR4.perspectiveDivide, hw, h.2.2.2]

/-- C34 (amended) run on the affine matrix `sampleAffine4` and the point `(1,2,3)`:
the result is `(10, 4, 8)`. -/
theorem C34_AffineTransformPosition_on_affine_witness :
    LinearMapR4.IsAffine sampleAffine4 ∧
      LinearMapR4.AffineTransformPosition sampleAffine4 sampleVec
        = { x := 10, y := 4, z := 8 } ∧
      (Matrix4x4.homogeneousImage sampleAffine4 sampleVec).w = 1 ∧ sampleAffine4.m44 = 1 ∧
      LinearMapR4.AffineTransformPosition sampleAffine4 sampleVec
        = Matrix4x4.transformPositionSpec sampleAffine4 sampleVec :=
  have h : LinearMapR4.IsAffine sampleAffine4 := by
    norm_num [LinearMapR4.IsAffine, sampleAffine4]
  ⟨h, by norm_num [LinearMapR4.AffineTransformPosition, sampleAffine4, sampleVec],
    (C34_AffineTransformPosition_on_affine sampleAffine4 sampleVec).2 h⟩

/-- C35: for every affine 4x4 matrix `M` (last row `(0,0,0,1)`) with upper-left
3x3 block `L` and translation column `t`, `AffineTransformPosition` sends `p` to
`L·p + t`, `AffineTransformDirection` sends `d` to `L·d` (computed from the
components `d` has before the call), and
`position(p + d) − position(p) = direction(d)` for all `p` and `d`. -/
theorem C35_position_and_direction (M : LinearMapR4 K) (p d : VectorR3 K)
    (h : LinearMapR4.IsAffine M) :
    LinearMapR4.AffineTransformPosition M p
        = { x := M.m11 * p.x + M.m12 * p.y + M.m13 * p.z + M.m14,
            y := M.m21 * p.x + M.m22 * p.y + M.m23 * p.z + M.m24,
            z := M.m31 * p.x + M.m32 * p.y + M.m33 * p.z + M.m34 } ∧
      LinearMapR4.AffineTransformDirection M d
        = { x := M.m11 * d.x + M.m12 * d.y + M.m13 * d.z,
            y := M.m21 * d.x + M.m22 * d.y + M.m23 * d.z,
            z := M.m31 * d.x + M.m32 * d.y + M.m33 * d.z } ∧
      VectorR3.sub (LinearMapR4.AffineTransformPosition M (VectorR3.add p d))
          (LinearMapR4.AffineTransformPosition M p)
        = LinearMapR4.AffineTransformDirection M d := by
  have h44 : M.m44 = 1 := h.2.2.2
  have one : (1.0 : K) = 1 := by norm_num
  simp only [LinearMapR4.AffineTransformPosition, LinearMapR4.AffineTransformDirection,
    VectorR3.sub, VectorR3.add, VectorR3.set_x, VectorR3.set_y, VectorR3.set_z,
    VectorR3.mk.injEq, h44, one]
  refine ⟨⟨?_, ?_, ?_⟩, ⟨?_, ?_, ?_⟩, ?_, ?_, ?_⟩ <;> ring

/-- C35 run on the affine matrix `sampleAffine4` with `p = (1,2,3)` and
`d = (0, 3/5, 4/5)`: the direction goes to `(6/5, 7/5, 4/5)`. -/
theorem C35_position_and_direction_witness :
    LinearMapR4.IsAffine sampleAffine4 ∧
      LinearMapR4.AffineTransformDirection sampleAffine4 sampleAxis
        = { x := 6 / 5, y := 7 / 5, z := 4 / 5 } ∧
      LinearMapR4.AffineTransformPosition sampleAffine4 sampleVec
        = { x := sampleAffine4.m11 * sampleVec.x + sampleAffine4.m12 * sampleVec.y
              + sampleAffine4.m13 * sampleVec.z + sampleAffine4.m14,
            y := sampleAffine4.m21 * sampleVec.x + sampleAffine4.m22 * sampleVec.y
              + sampleAffine4.m23 * sampleVec.z + sampleAffine4.m24,
            z := sampleAffine4.m31 * sampleVec.x + sampleAffine4.m32 * sampleVec.y
              + sampleAffine4.m33 * sampleVec.z + sampleAffine4.m34 } ∧
      LinearMapR4.AffineTransformDirection sampleAffine4 sampleAxis
        = { x := sampleAffine4.m11 * sampleAxis.x + sampleAffine4.m12 * sampleAxis.y
              + sampleAffine4.m13 * sampleAxis.z,
            y := sampleAffine4.m21 * sampleAxis.x + sampleAffine4.m22 * sampleAxis.y
              + sampleAffine4.m23 * sampleAxis.z,
            z := sampleAffine4.m31 * sampleAxis.x + sampleAffine4.m32 * sampleAxis.y
              + sampleAffine4.m33 * sampleAxis.z } ∧
      VectorR3.sub
          (LinearMapR4.AffineTransformPosition sampleAffine4 (VectorR3.add sampleVec sampleAxis))
          (LinearMapR4.AffineTransformPosition sampleAffine4 sampleVec)
        = LinearMapR4.AffineTransformDirection sampleAffine4 sampleAxis :=
  have h : LinearMapR4.IsAffine sampleAffine4 := by
    norm_num [LinearMapR4.IsAffine, sampleAffine4]
  ⟨h, by norm_num [LinearMapR4.AffineTransformDirection, sampleAffine4, sampleAxis],
    C35_position_and_direction sampleAffine4 sampleVec sampleAxis h⟩

/-- Two different points have a non-zero difference. -/
theorem VectorR3.sub_ne_Zero {a b : VectorR3 K} (h : a ≠ b) :
    VectorR3.sub a b ≠ VectorR3.Zero := by
  intro h0
  apply h
  have hx := congrArg VectorR3.x h0
  have hy := congrArg VectorR3.y h0
  have hz := congrArg VectorR3.z h0
  simp only [VectorR3.sub, VectorR3.Zero] at hx hy hz
  exact VectorR3.ext (sub_eq_zero.mp hx) (sub_eq_zero.mp hy) (sub_eq_zero.mp hz)

/-- A non-zero vector has a non-zero squared length. -/
theorem VectorR3.NormSq_ne_zero {v : VectorR3 K} (hv : v ≠ VectorR3.Zero) :
    VectorR3.NormSq v ≠ 0 :=
  fun h => hv (VectorR3.eq_Zero_of_NormSq_eq_zero h)

/-- A vector of non-zero squared length is not the zero vector. -/
theorem VectorR3.ne_Zero_of_NormSq_ne_zero {v : VectorR3 K} (h : VectorR3.NormSq v ≠ 0) :
    v ≠ VectorR3.Zero := by
  intro h0
  apply h
  rw [h0]
  simp [VectorR3.NormSq, VectorR3.Zero]

/-- The norm of a non-zero vector is not zero, when `sqrt` returns a square root of
its squared length. -/
theorem VectorR3.Norm_ne_zero (sqrt : K → K) {v : VectorR3 K} (hv : v ≠ VectorR3.Zero)
    (h : VectorR3.Norm sqrt v * VectorR3.Norm sqrt v = VectorR3.NormSq v) :
    VectorR3.Norm sqrt v ≠ 0 := by
  intro h0
  rw [h0, mul_zero] at h
  exact VectorR3.NormSq_ne_zero hv h.symm

/-- Normalizing a non-zero vector gives a unit vector. -/
theorem VectorR3.NormSq_Normalize (sqrt : K → K) {v : VectorR3 K} (hv : v ≠ VectorR3.Zero)
    (h : VectorR3.Norm sqrt v * VectorR3.Norm sqrt v = VectorR3.NormSq v) :
    VectorR3.NormSq (VectorR3.Normalize sqrt v) = 1 := by
  have hr := VectorR3.Norm_ne_zero sqrt hv h
  simp only [VectorR3.Normalize, VectorR3.NormSq] at h ⊢
  generalize VectorR3.Norm sqrt v = r at h hr
  field_simp
  linear_combination -h

/-- The dot product with a normalized vector. -/
theorem VectorR3.dot_Normalize_left (sqrt : K → K) (v w : VectorR3 K) :
    VectorR3.dot (VectorR3.Normalize sqrt v) w = VectorR3.dot v w / VectorR3.Norm sqrt v := by
  simp only [VectorR3.Normalize, VectorR3.dot]
  ring

/-- Lagrange's identity for the cross product. -/
theorem VectorR3.NormSq_cross (a b : VectorR3 K) :
    VectorR3.NormSq (VectorR3.cross a b)
      = VectorR3.NormSq a * VectorR3.NormSq b - VectorR3.dot a b * VectorR3.dot a b := by
  simp only [VectorR3.NormSq, VectorR3.cross, VectorR3.dot]
  ring

/-- The cross product is orthogonal to both factors. -/
theorem VectorR3.dot_cross_self (a b : VectorR3 K) :
    VectorR3.dot (VectorR3.cross a b) a = 0 ∧ VectorR3.dot (VectorR3.cross a b) b = 0 := by
  simp only [VectorR3.cross, VectorR3.dot]
  constructor <;> ring

/-- The vector `ReNormalize` leaves a unit vector unchanged. -/
theorem VectorR3.ReNormalize_of_unit {v : VectorR3 K} (h : VectorR3.NormSq v = 1) :
    VectorR3.ReNormalize v = v := by
  simp only [VectorR3.ReNormalize, h]
  ext <;> norm_num

/-- The vector `Set_gluLookAt` normalizes into its second row is the component of
`up` orthogonal to forward. -/
theorem VectorR3.AddScaled_eq_lookAtUpPart (sqrt : K → K) (eye target up : VectorR3 K) :
    VectorR3.AddScaled up (VectorR3.Normalize sqrt (VectorR3.sub eye target))
        (-(VectorR3.dot up (VectorR3.Normalize sqrt (VectorR3.sub eye target))))
      = lookAtUpPart sqrt eye target up := by
  simp only [lookAtUpPart, lookAtForward, VectorR3.AddScaled, VectorR3.sub, VectorR3.smul,
    VectorR3.mk.injEq]
  refine ⟨?_, ?_, ?_⟩ <;> ring

/-- The squared length of the component of `up` orthogonal to `d/|d|`, times `|d|²`,
is the squared length of `up × d`. -/
theorem VectorR3.NormSq_AddScaled_Normalize (sqrt : K → K) (up d : VectorR3 K)
    (hd : d ≠ VectorR3.Zero)
    (h : VectorR3.Norm sqrt d * VectorR3.Norm sqrt d = VectorR3.NormSq d) :
    VectorR3.NormSq d
        * VectorR3.NormSq (VectorR3.AddScaled up (VectorR3.Normalize sqrt d)
            (-(VectorR3.dot up (VectorR3.Normalize sqrt d))))
      = VectorR3.NormSq (VectorR3.cross up d) := by
  have hr := VectorR3.Norm_ne_zero sqrt hd h
  have he : (VectorR3.Norm sqrt d)⁻¹ * (VectorR3.Norm sqrt d)⁻¹ * VectorR3.NormSq d = 1 := by
    rw [← h]
    field_simp
  simp only [VectorR3.NormSq, VectorR3.AddScaled, VectorR3.Normalize, VectorR3.dot,
    VectorR3.cross, div_eq_mul_inv] at he ⊢
  generalize (VectorR3.Norm sqrt d)⁻¹ = e at he
  linear_combination ((up.x * d.x + up.y * d.y + up.z * d.z) ^ 2
    * (e * e * (d.x * d.x + d.y * d.y + d.z * d.z) - 1)) * he

/-- The rows of the matrix left by `Set_gluLookAt`, read off the code. -/
theorem LinearMapR4.Set_gluLookAt_rows (sqrt : K → K) (s : LinearMapR4 K)
    (eye target up : VectorR3 K) :
    Matrix4x4.blockRow3 (LinearMapR4.Set_gluLookAt sqrt s eye target up)
        = VectorR3.Normalize sqrt (VectorR3.sub eye target) ∧
      Matrix4x4.blockRow2 (LinearMapR4.Set_gluLookAt sqrt s eye target up)
        = VectorR3.Normalize sqrt
            (VectorR3.AddScaled up (VectorR3.Normalize sqrt (VectorR3.sub eye target))
              (-(VectorR3.dot up (VectorR3.Normalize sqrt (VectorR3.sub eye target))))) ∧
      Matrix4x4.blockRow1 (LinearMapR4.Set_gluLookAt sqrt s eye target up)
        = VectorR3.ReNormalize (VectorR3.cross
            (Matrix4x4.blockRow2 (LinearMapR4.Set_gluLookAt sqrt s eye target up))
            (Matrix4x4.blockRow3 (LinearMapR4.Set_gluLookAt sqrt s eye target up))) ∧
      (LinearMapR4.Set_gluLookAt sqrt s eye target up).m14
        = -(VectorR3.dot eye
            (Matrix4x4.blockRow1 (LinearMapR4.Set_gluLookAt sqrt s eye target up))) ∧
      (LinearMapR4.Set_gluLookAt sqrt s eye target up).m24
        = -(VectorR3.dot eye
            (Matrix4x4.blockRow2 (LinearMapR4.Set_gluLookAt sqrt s eye target up))) ∧
      (LinearMapR4.Set_gluLookAt sqrt s eye target up).m34
        = -(VectorR3.dot eye
            (Matrix4x4.blockRow3 (LinearMapR4.Set_gluLookAt sqrt s eye target up))) ∧
      LinearMapR4.IsAffine (LinearMapR4.Set_gluLookAt sqrt s eye target up) := by
  refine ⟨rfl, rfl, rfl, rfl, rfl, rfl, ?_⟩
  norm_num [LinearMapR4.IsAffine, LinearMapR4.Set_gluLookAt]

/-- The basis built by `Set_gluLookAt`: forward and up are unit and orthogonal, and
the cross product `up' × forward` is a unit vector, so its `ReNormalize` changes
nothing. -/
theorem LinearMapR4.Set_gluLookAt_basis (sqrt : K → K) (s : LinearMapR4 K)
    (eye target up : VectorR3 K) (heye : eye ≠ target)
    (hup : VectorR3.cross up (VectorR3.sub eye target) ≠ VectorR3.Zero)
    (h1 : VectorR3.Norm sqrt (VectorR3.sub eye target)
        * VectorR3.Norm sqrt (VectorR3.sub eye target)
      = VectorR3.NormSq (VectorR3.sub eye target))
    (h2 : VectorR3.Norm sqrt (lookAtUpPart sqrt eye target up)
        * VectorR3.Norm sqrt (lookAtUpPart sqrt eye target up)
      = VectorR3.NormSq (lookAtUpPart sqrt eye target up)) :
    Matrix4x4.blockRow1 (LinearMapR4.Set_gluLookAt sqrt s eye target up)
        = lookAtRight sqrt eye target up ∧
      Matrix4x4.blockRow2 (LinearMapR4.Set_gluLookAt sqrt s eye target up)
        = lookAtUp sqrt eye target up ∧
      Matrix4x4.blockRow3 (LinearMapR4.Set_gluLookAt sqrt s eye target up)
        = lookAtForward sqrt eye target ∧
      lookAtUpPart sqrt eye target up ≠ VectorR3.Zero ∧
      VectorR3.NormSq (lookAtRight sqrt eye target up) = 1 ∧
      VectorR3.NormSq (lookAtUp sqrt eye target up) = 1 ∧
      VectorR3.NormSq (lookAtForward sqrt eye target) = 1 ∧
      VectorR3.dot (lookAtRight sqrt eye target up) (lookAtUp sqrt eye target up) = 0 ∧
      VectorR3.dot (lookAtRight sqrt eye target up) (lookAtForward sqrt eye target) = 0 ∧
      VectorR3.dot (lookAtUp sqrt eye target up) (lookAtForward sqrt eye target) = 0 := by
  have hd := VectorR3.sub_ne_Zero heye
  obtain ⟨r3, r2, r1, -, -, -, -⟩ := LinearMapR4.Set_gluLookAt_rows sqrt s eye target up
  have hf : VectorR3.NormSq (lookAtForward sqrt eye target) = 1 :=
    VectorR3.NormSq_Normalize sqrt hd h1
  have hn := VectorR3.NormSq_AddScaled_Normalize sqrt up (VectorR3.sub eye target) hd h1
  rw [VectorR3.AddScaled_eq_lookAtUpPart] at hn r2
  have hu0 : lookAtUpPart sqrt eye target up ≠ VectorR3.Zero := by
    apply VectorR3.ne_Zero_of_NormSq_ne_zero
    intro h0
    rw [h0, mul_zero] at hn
    exact VectorR3.NormSq_ne_zero hup hn.symm
  have hu : VectorR3.NormSq (lookAtUp sqrt eye target up) = 1 :=
    VectorR3.NormSq_Normalize sqrt hu0 h2
  have hdot0 : VectorR3.dot (lookAtUpPart sqrt eye target up) (lookAtForward sqrt eye target)
      = 0 := by
    have hf' := hf
    simp only [VectorR3.NormSq] at hf'
    simp only [lookAtUpPart, VectorR3.dot, VectorR3.sub, VectorR3.smul]
    generalize lookAtForward sqrt eye target = f at hf'
    linear_combination (-(up.x * f.x + up.y * f.y + up.z * f.z)) * hf'
  have hdot : VectorR3.dot (lookAtUp sqrt eye target up) (lookAtForward sqrt eye target) = 0 := by
    rw [lookAtUp, VectorR3.dot_Normalize_left, hdot0, zero_div]
  have hr : VectorR3.NormSq (lookAtRight sqrt eye target up) = 1 := by
    rw [lookAtRight, VectorR3.NormSq_cross, hu, hf, hdot]
    ring
  have hrow1 : Matrix4x4.blockRow1 (LinearMapR4.Set_gluLookAt sqrt s eye target up)
      = lookAtRight sqrt eye target up := by
    rw [r1, r2, r3]
    exact VectorR3.ReNormalize_of_unit hr
  exact ⟨hrow1, r2, r3, hu0, hr, hu, hf, (VectorR3.dot_cross_self _ _).1,
    (VectorR3.dot_cross_self _ _).2, hdot⟩

/-- The assertion of `Set_gluLookAt` holds when the cross product is a unit
vector. -/
theorem LinearMapR4.Set_gluLookAtAsserts_of_basis (sqrt : K → K) (eye target up : VectorR3 K)
    (hr : VectorR3.NormSq (lookAtRight sqrt eye target up) = 1) :
    LinearMapR4.Set_gluLookAtAsserts sqrt eye target up := by
  have e := VectorR3.AddScaled_eq_lookAtUpPart sqrt eye target up
  simp only [LinearMapR4.Set_gluLookAtAsserts, e]
  have hr' : VectorR3.NormSq (VectorR3.cross
      (VectorR3.Normalize sqrt (lookAtUpPart sqrt eye target up))
      (VectorR3.Normalize sqrt (VectorR3.sub eye target))) = 1 := hr
  rw [hr']
  constructor <;> norm_num

/-- C33: `Set_gluLookAt` constructs an orthonormal basis: for every `eye ≠ target`
and every `up` not parallel to `eye − target` (`up × (eye − target) ≠ 0`), on any
receiver, the three rows of the upper-left 3x3 block are `right`, `up'`, `forward`
with `forward = (eye − target)/|eye − target|`, `up'` the normalized component of
`up` orthogonal to `forward` (which is not zero) and `right = up' × forward`; they
are unit vectors and pairwise orthogonal; the last row is `(0,0,0,1)`; and the
routine's assertion holds.  Of `sqrt` only that it returns a square root of the two
squared lengths it is called on is used. -/
theorem C33_Set_gluLookAt_orthonormal_basis (sqrt : K → K) (s : LinearMapR4 K)
    (eye target up : VectorR3 K) (heye : eye ≠ target)
    (hup : VectorR3.cross up (VectorR3.sub eye target) ≠ VectorR3.Zero)
    (h1 : VectorR3.Norm sqrt (VectorR3.sub eye target)
        * VectorR3.Norm sqrt (VectorR3.sub eye target)
      = VectorR3.NormSq (VectorR3.sub eye target))
    (h2 : VectorR3.Norm sqrt (lookAtUpPart sqrt eye target up)
        * VectorR3.Norm sqrt (lookAtUpPart sqrt eye target up)
      = VectorR3.NormSq (lookAtUpPart sqrt eye target up)) :
    Matrix4x4.blockRow1 (LinearMapR4.Set_gluLookAt sqrt s eye target up)
        = lookAtRight sqrt eye target up ∧
      Matrix4x4.blockRow2 (LinearMapR4.Set_gluLookAt sqrt s eye target up)
        = lookAtUp sqrt eye target up ∧
      Matrix4x4.blockRow3 (LinearMapR4.Set_gluLookAt sqrt s eye target up)
        = lookAtForward sqrt eye target ∧
      lookAtUpPart sqrt eye target up ≠ VectorR3.Zero ∧
      VectorR3.NormSq (lookAtRight sqrt eye target up) = 1 ∧
      VectorR3.NormSq (lookAtUp sqrt eye target up) = 1 ∧
      VectorR3.NormSq (lookAtForward sqrt eye target) = 1 ∧
      VectorR3.dot (lookAtRight sqrt eye target up) (lookAtUp sqrt eye target up) = 0 ∧
      VectorR3.dot (lookAtRight sqrt eye target up) (lookAtForward sqrt eye target) = 0 ∧
      VectorR3.dot (lookAtUp sqrt eye target up) (lookAtForward sqrt eye target) = 0 ∧
      LinearMapR4.IsAffine (LinearMapR4.Set_gluLookAt sqrt s eye target up) ∧
      LinearMapR4.Set_gluLookAtAsserts sqrt eye target up := by
  obtain ⟨a, b, c, d, e, f, g, h, i, j⟩ :=
    LinearMapR4.Set_gluLookAt_basis sqrt s eye target up heye hup h1 h2
  exact ⟨a, b, c, d, e, f, g, h, i, j,
    (LinearMapR4.Set_gluLookAt_rows sqrt s eye target up).2.2.2.2.2.2,
    LinearMapR4.Set_gluLookAtAsserts_of_basis sqrt eye target up e⟩

/-- The scenario `lookEye`, `lookTarget`, `up = (1,0,0)` satisfies the hypotheses
under which `Set_gluLookAt` is studied, with the stand-in `ratSqrt`. -/
theorem lookScenario_hyps :
    lookEye ≠ lookTarget ∧
      VectorR3.cross unitX3 (VectorR3.sub lookEye lookTarget) ≠ VectorR3.Zero ∧
      VectorR3.Norm ratSqrt (VectorR3.sub lookEye lookTarget)
          * VectorR3.Norm ratSqrt (VectorR3.sub lookEye lookTarget)
        = VectorR3.NormSq (VectorR3.sub lookEye lookTarget) ∧
      VectorR3.Norm ratSqrt (lookAtUpPart ratSqrt lookEye lookTarget unitX3)
          * VectorR3.Norm ratSqrt (lookAtUpPart ratSqrt lookEye lookTarget unitX3)
        = VectorR3.NormSq (lookAtUpPart ratSqrt lookEye lookTarget unitX3) := by
  have n1 : VectorR3.Norm ratSqrt (VectorR3.sub lookEye lookTarget) = 5 := by
    norm_num [VectorR3.Norm, VectorR3.NormSq, VectorR3.sub, lookEye, lookTarget, ratSqrt]
  have u0 : lookAtUpPart ratSqrt lookEye lookTarget unitX3 = unitX3 := by
    simp only [lookAtUpPart, lookAtForward, VectorR3.Normalize, n1]
    norm_num [VectorR3.sub, VectorR3.smul, VectorR3.dot, lookEye, lookTarget, unitX3]
  refine ⟨?_, ?_, ?_, ?_⟩
  · intro h
    have := congrArg VectorR3.y h
    norm_num [lookEye, lookTarget] at this
  · intro h
    have := congrArg VectorR3.y h
    norm_num [VectorR3.cross, VectorR3.sub, VectorR3.Zero, lookEye, lookTarget, unitX3] at this
  · rw [n1]
    norm_num [VectorR3.NormSq, VectorR3.sub, lookEye, lookTarget]
  · rw [u0]
    norm_num [VectorR3.Norm, VectorR3.NormSq, unitX3, ratSqrt]

/-- The matrix `Set_gluLookAt` leaves in the scenario `lookEye`, `lookTarget`,
`up = (1,0,0)`, with the stand-in `ratSqrt`. -/
theorem Set_gluLookAt_lookScenario :
    LinearMapR4.Set_gluLookAt ratSqrt Matrix4x4.Identity lookEye lookTarget unitX3
      = { m11 := 0, m12 := -4 / 5, m13 := 3 / 5, m14 := 1 / 5,
          m21 := 1, m22 := 0, m23 := 0, m24 := -1,
          m31 := 0, m32 := 3 / 5, m33 := 4 / 5, m34 := -32 / 5,
          m41 := 0, m42 := 0, m43 := 0, m44 := 1 } := by
  have n1 : VectorR3.Norm ratSqrt (VectorR3.sub lookEye lookTarget) = 5 := by
    norm_num [VectorR3.Norm, VectorR3.NormSq, VectorR3.sub, lookEye, lookTarget, ratSqrt]
  have e1 : VectorR3.Norm ratSqrt ({ x := 1, y := 0, z := 0 } : VectorR3 ℚ) = 1 := by
    norm_num [VectorR3.Norm, VectorR3.NormSq, ratSqrt]
  simp only [LinearMapR4.Set_gluLookAt, VectorR3.Normalize, n1]
  norm_num [VectorR3.sub, VectorR3.AddScaled, VectorR3.dot, VectorR3.cross,
    VectorR3.ReNormalize, VectorR3.NormSq, lookEye, lookTarget, unitX3, e1,
    Matrix4x4.Identity, LinearMapR4.ofColumns]

/-- C33 run over `ℚ` with the stand-in `ratSqrt`: `eye = (1,4,5)`,
`target = (1,1,1)`, `up = (1,0,0)` on the identity receiver; the rows are
`(0,-4/5,3/5)`, `(1,0,0)`, `(0,3/5,4/5)`. -/
theorem C33_Set_gluLookAt_orthonormal_basis_witness :
    Matrix4x4.blockRow1
        (LinearMapR4.Set_gluLookAt ratSqrt Matrix4x4.Identity lookEye lookTarget unitX3)
        = lookAtRight ratSqrt lookEye lookTarget unitX3 ∧
      Matrix4x4.blockRow2
        (LinearMapR4.Set_gluLookAt ratSqrt Matrix4x4.Identity lookEye lookTarget unitX3)
        = lookAtUp ratSqrt lookEye lookTarget unitX3 ∧
      Matrix4x4.blockRow3
        (LinearMapR4.Set_gluLookAt ratSqrt Matrix4x4.Identity lookEye lookTarget unitX3)
        = lookAtForward ratSqrt lookEye lookTarget ∧
      lookAtUpPart ratSqrt lookEye lookTarget unitX3 ≠ VectorR3.Zero ∧
      VectorR3.NormSq (lookAtRight ratSqrt lookEye lookTarget unitX3) = 1 ∧
      VectorR3.NormSq (lookAtUp ratSqrt lookEye lookTarget unitX3) = 1 ∧
      VectorR3.NormSq (lookAtForward ratSqrt lookEye lookTarget) = 1 ∧
      VectorR3.dot (lookAtRight ratSqrt lookEye lookTarget unitX3)
        (lookAtUp ratSqrt lookEye lookTarget unitX3) = 0 ∧
      VectorR3.dot (lookAtRight ratSqrt lookEye lookTarget unitX3)
        (lookAtForward ratSqrt lookEye lookTarget) = 0 ∧
      VectorR3.dot (lookAtUp ratSqrt lookEye lookTarget unitX3)
        (lookAtForward ratSqrt lookEye lookTarget) = 0 ∧
      LinearMapR4.IsAffine
        (LinearMapR4.Set_gluLookAt ratSqrt Matrix4x4.Identity lookEye lookTarget unitX3) ∧
      LinearMapR4.Set_gluLookAtAsserts ratSqrt lookEye lookTarget unitX3 :=
  C33_Set_gluLookAt_orthonormal_basis ratSqrt Matrix4x4.Identity lookEye lookTarget unitX3
    lookScenario_hyps.1 lookScenario_hyps.2.1 lookScenario_hyps.2.2.1 lookScenario_hyps.2.2.2

/-- The squared length of a vector is not negative. -/
theorem VectorR3.NormSq_nonneg (v : VectorR3 K) : 0 ≤ VectorR3.NormSq v :=
  add_nonneg (add_nonneg (mul_self_nonneg _) (mul_self_nonneg _)) (mul_self_nonneg _)

/-- Over the reals with the real square root the basis of `Set_gluLookAt` is
orthonormal for every `eye ≠ target` and every `up` not parallel to
`eye − target`. -/
theorem LinearMapR4.Set_gluLookAt_basis_real (s : LinearMapR4 ℝ) (eye target up : VectorR3 ℝ)
    (heye : eye ≠ target)
    (hup : VectorR3.cross up (VectorR3.sub eye target) ≠ VectorR3.Zero) :
    Matrix4x4.blockRow1 (LinearMapR4.Set_gluLookAt Real.sqrt s eye target up)
        = lookAtRight Real.sqrt eye target up ∧
      Matrix4x4.blockRow2 (LinearMapR4.Set_gluLookAt Real.sqrt s eye target up)
        = lookAtUp Real.sqrt eye target up ∧
      Matrix4x4.blockRow3 (LinearMapR4.Set_gluLookAt Real.sqrt s eye target up)
        = lookAtForward Real.sqrt eye target ∧
      VectorR3.NormSq (lookAtRight Real.sqrt eye target up) = 1 ∧
      VectorR3.NormSq (lookAtUp Real.sqrt eye target up) = 1 ∧
      VectorR3.NormSq (lookAtForward Real.sqrt eye target) = 1 ∧
      VectorR3.dot (lookAtRight Real.sqrt eye target up) (lookAtUp Real.sqrt eye target up) = 0 ∧
      VectorR3.dot (lookAtRight Real.sqrt eye target up) (lookAtForward Real.sqrt eye target)
        = 0 ∧
      VectorR3.dot (lookAtUp Real.sqrt eye target up) (lookAtForward Real.sqrt eye target)
        = 0 := by
  obtain ⟨a, b, c, -, e, f, g, h, i, j⟩ :=
    LinearMapR4.Set_gluLookAt_basis Real.sqrt s eye target up heye hup
      (Real.mul_self_sqrt (VectorR3.NormSq_nonneg _))
      (Real.mul_self_sqrt (VectorR3.NormSq_nonneg _))
  exact ⟨a, b, c, e, f, g, h, i, j⟩

/-- What `AffineTransformPosition` computes on an affine matrix, by rows. -/
theorem LinearMapR4.AffineTransformPosition_rows (M : LinearMapR4 K) (p : VectorR3 K)
    (h : LinearMapR4.IsAffine M) :
    LinearMapR4.AffineTransformPosition M p
      = { x := VectorR3.dot (Matrix4x4.blockRow1 M) p + M.m14,
          y := VectorR3.dot (Matrix4x4.blockRow2 M) p + M.m24,
          z := VectorR3.dot (Matrix4x4.blockRow3 M) p + M.m34 } := by
  have h44 : M.m44 = 1 := h.2.2.2
  have one : (1.0 : K) = 1 := by norm_num
  simp only [LinearMapR4.AffineTransformPosition, Matrix4x4.blockRow1, Matrix4x4.blockRow2,
    Matrix4x4.blockRow3, VectorR3.dot, VectorR3.set_x, VectorR3.set_y, VectorR3.set_z,
    VectorR3.mk.injEq, h44, one]
  refine ⟨?_, ?_, ?_⟩ <;> ring

/-- A dot product with `d` is `|d|` times the dot product with `d/|d|`. -/
theorem VectorR3.Norm_mul_dot_Normalize (sqrt : K → K) (X d : VectorR3 K)
    (hr : VectorR3.Norm sqrt d ≠ 0) :
    VectorR3.Norm sqrt d * VectorR3.dot X (VectorR3.Normalize sqrt d) = VectorR3.dot X d := by
  simp only [VectorR3.dot, VectorR3.Normalize]
  generalize VectorR3.Norm sqrt d = r at hr
  field_simp

/-- The view matrix of `Set_gluLookAt` sends the eye point to the origin and the
target point to `(0, 0, −|eye − target|)`. -/
theorem LinearMapR4.Set_gluLookAt_images (sqrt : K → K) (s : LinearMapR4 K)
    (eye target up : VectorR3 K) (heye : eye ≠ target)
    (hup : VectorR3.cross up (VectorR3.sub eye target) ≠ VectorR3.Zero)
    (h1 : VectorR3.Norm sqrt (VectorR3.sub eye target)
        * VectorR3.Norm sqrt (VectorR3.sub eye target)
      = VectorR3.NormSq (VectorR3.sub eye target))
    (h2 : VectorR3.Norm sqrt (lookAtUpPart sqrt eye target up)
        * VectorR3.Norm sqrt (lookAtUpPart sqrt eye target up)
      = VectorR3.NormSq (lookAtUpPart sqrt eye target up)) :
    LinearMapR4.AffineTransformPosition (LinearMapR4.Set_gluLookAt sqrt s eye target up) eye
        = VectorR3.Zero ∧
      LinearMapR4.AffineTransformPosition (LinearMapR4.Set_gluLookAt sqrt s eye target up)
          target
        = { x := 0, y := 0, z := -(VectorR3.Norm sqrt (VectorR3.sub eye target)) } := by
  obtain ⟨hR, hU, hF, -, -, -, hf1, -, hRF, hUF⟩ :=
    LinearMapR4.Set_gluLookAt_basis sqrt s eye target up heye hup h1 h2
  obtain ⟨-, -, -, m14, m24, m34, haff⟩ := LinearMapR4.Set_gluLookAt_rows sqrt s eye target up
  have hr := VectorR3.Norm_ne_zero sqrt (VectorR3.sub_ne_Zero heye) h1
  have hFF : VectorR3.dot (lookAtForward sqrt eye target) (lookAtForward sqrt eye target) = 1 :=
    hf1
  rw [hR] at m14
  rw [hU] at m24
  rw [hF] at m34
  have e : ∀ X : VectorR3 K, VectorR3.dot X target + -(VectorR3.dot eye X)
      = -(VectorR3.Norm sqrt (VectorR3.sub eye target)
          * VectorR3.dot X (lookAtForward sqrt eye target)) := by
    intro X
    rw [lookAtForward, VectorR3.Norm_mul_dot_Normalize sqrt X _ hr]
    simp only [VectorR3.dot, VectorR3.sub]
    ring
  constructor
  · rw [LinearMapR4.AffineTransformPosition_rows _ _ haff, hR, hU, hF, m14, m24, m34]
    simp only [VectorR3.dot, VectorR3.Zero, VectorR3.mk.injEq]
    refine ⟨?_, ?_, ?_⟩ <;> ring
  · rw [LinearMapR4.AffineTransformPosition_rows _ _ haff, hR, hU, hF, m14, m24, m34,
      e, e, e, hRF, hUF, hFF]
    simp

/-- C38: for every `eye ≠ target` and every `up` not parallel to `eye − target`,
on any receiver, the view matrix built by `Set_gluLookAt` is affine and, applied
with `AffineTransformPosition`, sends the eye point to `(0,0,0)` and the target
point to `(0, 0, −|eye − target|)`: the camera looks down the negative z axis.  Of
`sqrt` only that it returns a square root of the two squared lengths it is called
on is used. -/
theorem C38_lookAt_sends_eye_to_origin (sqrt : K → K) (s : LinearMapR4 K)
    (eye target up : VectorR3 K) (heye : eye ≠ target)
    (hup : VectorR3.cross up (VectorR3.sub eye target) ≠ VectorR3.Zero)
    (h1 : VectorR3.Norm sqrt (VectorR3.sub eye target)
        * VectorR3.Norm sqrt (VectorR3.sub eye target)
      = VectorR3.NormSq (VectorR3.sub eye target))
    (h2 : VectorR3.Norm sqrt (lookAtUpPart sqrt eye target up)
        * VectorR3.Norm sqrt (lookAtUpPart sqrt eye target up)
      = VectorR3.NormSq (lookAtUpPart sqrt eye target up)) :
    LinearMapR4.IsAffine (LinearMapR4.Set_gluLookAt sqrt s eye target up) ∧
      LinearMapR4.AffineTransformPosition (LinearMapR4.Set_gluLookAt sqrt s eye target up) eye
        = { x := 0, y := 0, z := 0 } ∧
      LinearMapR4.AffineTransformPosition (LinearMapR4.Set_gluLookAt sqrt s eye target up)
          target
        = { x := 0, y := 0, z := -(VectorR3.Norm sqrt (VectorR3.sub eye target)) } :=
  ⟨(LinearMapR4.Set_gluLookAt_rows sqrt s eye target up).2.2.2.2.2.2,
    (LinearMapR4.Set_gluLookAt_images sqrt s eye target up heye hup h1 h2).1,
    (LinearMapR4.Set_gluLookAt_images sqrt s eye target up heye hup h1 h2).2⟩

/-- C38 run over `ℚ` with the stand-in `ratSqrt`: `eye = (1,4,5)`,
`target = (1,1,1)` at distance 5, `up = (1,0,0)`, on the identity receiver. -/
theorem C38_lookAt_sends_eye_to_origin_witness :
    VectorR3.Norm ratSqrt (VectorR3.sub lookEye lookTarget) = 5 ∧
      LinearMapR4.IsAffine
        (LinearMapR4.Set_gluLookAt ratSqrt Matrix4x4.Identity lookEye lookTarget unitX3) ∧
      LinearMapR4.AffineTransformPosition
        (LinearMapR4.Set_gluLookAt ratSqrt Matrix4x4.Identity lookEye lookTarget unitX3) lookEye
        = { x := 0, y := 0, z := 0 } ∧
      LinearMapR4.AffineTransformPosition
        (LinearMapR4.Set_gluLookAt ratSqrt Matrix4x4.Identity lookEye lookTarget unitX3)
          lookTarget
        = { x := 0, y := 0, z := -(VectorR3.Norm ratSqrt (VectorR3.sub lookEye lookTarget)) } :=
  ⟨by norm_num [VectorR3.Norm, VectorR3.NormSq, VectorR3.sub, lookEye, lookTarget, ratSqrt],
    C38_lookAt_sends_eye_to_origin ratSqrt Matrix4x4.Identity lookEye lookTarget unitX3
      lookScenario_hyps.1 lookScenario_hyps.2.1 lookScenario_hyps.2.2.1
      lookScenario_hyps.2.2.2⟩

/-- Over the reals with the real square root, the view matrix of `Set_gluLookAt`
sends the eye point to the origin and the target point to
`(0, 0, −|eye − target|)`. -/
theorem LinearMapR4.Set_gluLookAt_images_real (s : LinearMapR4 ℝ) (eye target up : VectorR3 ℝ)
    (heye : eye ≠ target)
    (hup : VectorR3.cross up (VectorR3.sub eye target) ≠ VectorR3.Zero) :
    LinearMapR4.AffineTransformPosition (LinearMapR4.Set_gluLookAt Real.sqrt s eye target up)
        eye = VectorR3.Zero ∧
      LinearMapR4.AffineTransformPosition (LinearMapR4.Set_gluLookAt Real.sqrt s eye target up)
          target
        = { x := 0, y := 0, z := -(VectorR3.Norm Real.sqrt (VectorR3.sub eye target)) } :=
  LinearMapR4.Set_gluLookAt_images Real.sqrt s eye target up heye hup
    (Real.mul_self_sqrt (VectorR3.NormSq_nonneg _))
    (Real.mul_self_sqrt (VectorR3.NormSq_nonneg _))

/-- The dot product is symmetric. -/
theorem VectorR3.dot_comm (a b : VectorR3 K) : VectorR3.dot a b = VectorR3.dot b a := by
  simp only [VectorR3.dot]
  ring

/-- Normalizing a unit vector changes nothing when `sqrt 1 = 1`. -/
theorem VectorR3.Normalize_of_unit (sqrt : K → K) {v : VectorR3 K}
    (hv : VectorR3.NormSq v = 1) (h1 : sqrt 1 = 1) : VectorR3.Normalize sqrt v = v := by
  simp only [VectorR3.Normalize, VectorR3.Norm, hv, h1, div_one]

/-- The vector `GetOrtho` chooses is orthogonal to `u`, and it is not zero when `u`
is a unit vector. -/
theorem GetOrthoChoice_spec (u : VectorR3 K) (hu : VectorR3.NormSq u = 1) :
    VectorR3.dot u (GetOrthoChoice u) = 0 ∧ GetOrthoChoice u ≠ VectorR3.Zero := by
  have hu' : u.x * u.x + u.y * u.y + u.z * u.z = 1 := hu
  have half : (0.5 : K) = 1 / 2 := by norm_num
  have zero : (0.0 : K) = 0 := by norm_num
  unfold GetOrthoChoice
  rw [half, zero]
  split_ifs with h
  · refine ⟨?_, VectorR3.ne_Zero_of_NormSq_ne_zero ?_⟩
    · simp only [VectorR3.dot]
      ring
    · simp only [VectorR3.NormSq]
      have hpos : 0 < u.x * u.x + u.y * u.y := by
        rcases h with h | h | h | h
        · have hx : u.x ≠ 0 := (lt_trans (by norm_num) h).ne.symm
          linarith [mul_self_pos.mpr hx, mul_self_nonneg u.y]
        · have hx : u.x ≠ 0 := (lt_trans h (by norm_num)).ne
          linarith [mul_self_pos.mpr hx, mul_self_nonneg u.y]
        · have hy : u.y ≠ 0 := (lt_trans (by norm_num) h).ne.symm
          linarith [mul_self_pos.mpr hy, mul_self_nonneg u.x]
        · have hy : u.y ≠ 0 := (lt_trans h (by norm_num)).ne
          linarith [mul_self_pos.mpr hy, mul_self_nonneg u.x]
      intro h0
      linarith
  · refine ⟨?_, VectorR3.ne_Zero_of_NormSq_ne_zero ?_⟩
    · simp only [VectorR3.dot]
      ring
    · simp only [VectorR3.NormSq]
      simp only [not_or, not_lt] at h
      obtain ⟨hx1, hx2, hy1, hy2⟩ := h
      have hxx : u.x * u.x ≤ 1 / 4 := by
        have h := mul_nonneg (sub_nonneg.mpr hx1) (sub_nonneg.mpr hx2)
        have e : (1 / 2 - u.x) * (u.x - -(1 / 2)) = 1 / 4 - u.x * u.x := by ring
        rw [e] at h
        linarith
      have hyy : u.y * u.y ≤ 1 / 4 := by
        have h := mul_nonneg (sub_nonneg.mpr hy1) (sub_nonneg.mpr hy2)
        have e : (1 / 2 - u.y) * (u.y - -(1 / 2)) = 1 / 4 - u.y * u.y := by ring
        rw [e] at h
        linarith
      intro h0
      linarith [mul_self_nonneg u.y]

/-- The basis returned by `GetOrtho` for a unit vector `u`. -/
theorem GetOrtho_basis (sqrt : K → K) (u : VectorR3 K) (hu : VectorR3.NormSq u = 1)
    (h1 : sqrt 1 = 1)
    (hs : VectorR3.Norm sqrt (GetOrthoChoice u) * VectorR3.Norm sqrt (GetOrthoChoice u)
      = VectorR3.NormSq (GetOrthoChoice u)) :
    (GetOrtho sqrt u).1 = VectorR3.Normalize sqrt (GetOrthoChoice u) ∧
      VectorR3.NormSq (GetOrtho sqrt u).1 = 1 ∧
      VectorR3.dot u (GetOrtho sqrt u).1 = 0 ∧
      (GetOrtho sqrt u).2 = VectorR3.cross u (GetOrtho sqrt u).1 ∧
      VectorR3.NormSq (GetOrtho sqrt u).2 = 1 := by
  obtain ⟨hdot, hne⟩ := GetOrthoChoice_spec u hu
  have hv : (GetOrtho sqrt u).1 = VectorR3.Normalize sqrt (GetOrthoChoice u) := rfl
  have hw : (GetOrtho sqrt u).2
      = VectorR3.Normalize sqrt (VectorR3.cross u (GetOrtho sqrt u).1) := rfl
  have hv1 : VectorR3.NormSq (GetOrtho sqrt u).1 = 1 := by
    rw [hv]
    exact VectorR3.NormSq_Normalize sqrt hne hs
  have huv : VectorR3.dot u (GetOrtho sqrt u).1 = 0 := by
    rw [hv, VectorR3.dot_comm, VectorR3.dot_Normalize_left, VectorR3.dot_comm, hdot, zero_div]
  have hc : VectorR3.NormSq (VectorR3.cross u (GetOrtho sqrt u).1) = 1 := by
    rw [VectorR3.NormSq_cross, hu, hv1, huv]
    ring
  have hw' : (GetOrtho sqrt u).2 = VectorR3.cross u (GetOrtho sqrt u).1 := by
    rw [hw]
    exact VectorR3.Normalize_of_unit sqrt hc h1
  refine ⟨hv, hv1, huv, hw', ?_⟩
  rw [hw']
  exact hc

/-- C36: `GetOrtho(u, v, w)` returns a right-handed orthonormal basis complementing
`u`: for every unit vector `u`, the vector chosen before normalization is non-zero,
`v` is a unit vector with `u·v = 0`, and `w = u × v` is a unit vector orthogonal to
both `u` and `v`; the two-argument `GetOrtho(u, v)` returns the same `v`.  Of `sqrt`
only `sqrt 1 = 1` and that it returns a square root of the squared length of the
chosen vector are used. -/
theorem C36_GetOrtho_orthonormal_basis (sqrt : K → K) (u : VectorR3 K)
    (hu : VectorR3.NormSq u = 1) (h1 : sqrt 1 = 1)
    (hs : VectorR3.Norm sqrt (GetOrthoChoice u) * VectorR3.Norm sqrt (GetOrthoChoice u)
      = VectorR3.NormSq (GetOrthoChoice u)) :
    GetOrthoChoice u ≠ VectorR3.Zero ∧
      (GetOrtho sqrt u).1 = VectorR3.Normalize sqrt (GetOrthoChoice u) ∧
      VectorR3.NormSq (GetOrtho sqrt u).1 = 1 ∧
      VectorR3.dot u (GetOrtho sqrt u).1 = 0 ∧
      (GetOrtho sqrt u).2 = VectorR3.cross u (GetOrtho sqrt u).1 ∧
      VectorR3.NormSq (GetOrtho sqrt u).2 = 1 ∧
      VectorR3.dot (GetOrtho sqrt u).2 u = 0 ∧
      VectorR3.dot (GetOrtho sqrt u).2 (GetOrtho sqrt u).1 = 0 ∧
      GetOrtho2 sqrt u = (GetOrtho sqrt u).1 := by
  obtain ⟨a, b, c, d, e⟩ := GetOrtho_basis sqrt u hu h1 hs
  refine ⟨(GetOrthoChoice_spec u hu).2, a, b, c, d, e, ?_, ?_, rfl⟩
  · rw [d]
    exact (VectorR3.dot_cross_self _ _).1
  · rw [d]
    exact (VectorR3.dot_cross_self _ _).2

/-- C36 run over `ℚ` with the stand-in `ratSqrt` on `u = (3/5, 4/5, 0)`: the first
branch is taken, `v = (4/5, -3/5, 0)` and `w = (0, 0, -1)`. -/
theorem C36_GetOrtho_orthonormal_basis_witness :
    VectorR3.NormSq orthoSample = 1 ∧
      GetOrtho ratSqrt orthoSample
        = ({ x := 4 / 5, y := -3 / 5, z := 0 }, { x := 0, y := 0, z := -1 }) ∧
      GetOrthoChoice orthoSample ≠ VectorR3.Zero ∧
      (GetOrtho ratSqrt orthoSample).1
        = VectorR3.Normalize ratSqrt (GetOrthoChoice orthoSample) ∧
      VectorR3.NormSq (GetOrtho ratSqrt orthoSample).1 = 1 ∧
      VectorR3.dot orthoSample (GetOrtho ratSqrt orthoSample).1 = 0 ∧
      (GetOrtho ratSqrt orthoSample).2
        = VectorR3.cross orthoSample (GetOrtho ratSqrt orthoSample).1 ∧
      VectorR3.NormSq (GetOrtho ratSqrt orthoSample).2 = 1 ∧
      VectorR3.dot (GetOrtho ratSqrt orthoSample).2 orthoSample = 0 ∧
      VectorR3.dot (GetOrtho ratSqrt orthoSample).2 (GetOrtho ratSqrt orthoSample).1 = 0 ∧
      GetOrtho2 ratSqrt orthoSample = (GetOrtho ratSqrt orthoSample).1 :=
  have hu : VectorR3.NormSq orthoSample = 1 := by norm_num [VectorR3.NormSq, orthoSample]
  have hc : GetOrthoChoice orthoSample = { x := 4 / 5, y := -3 / 5, z := 0 } := by
    norm_num [GetOrthoChoice, orthoSample]
  have hn : VectorR3.Norm ratSqrt ({ x := 4 / 5, y := -3 / 5, z := 0 } : VectorR3 ℚ) = 1 := by
    norm_num [VectorR3.Norm, VectorR3.NormSq, ratSqrt]
  have hv : VectorR3.Normalize ratSqrt ({ x := 4 / 5, y := -3 / 5, z := 0 } : VectorR3 ℚ)
      = { x := 4 / 5, y := -3 / 5, z := 0 } := by
    simp only [VectorR3.Normalize, hn, div_one]
  have hw : VectorR3.cross orthoSample ({ x := 4 / 5, y := -3 / 5, z := 0 } : VectorR3 ℚ)
      = { x := 0, y := 0, z := -1 } := by
    norm_num [VectorR3.cross, orthoSample]
  have hn' : VectorR3.Norm ratSqrt ({ x := 0, y := 0, z := -1 } : VectorR3 ℚ) = 1 := by
    norm_num [VectorR3.Norm, VectorR3.NormSq, ratSqrt]
  have hrun : GetOrtho ratSqrt orthoSample
      = ({ x := 4 / 5, y := -3 / 5, z := 0 }, { x := 0, y := 0, z := -1 }) := by
    have e : GetOrtho ratSqrt orthoSample
        = (VectorR3.Normalize ratSqrt (GetOrthoChoice orthoSample),
            VectorR3.Normalize ratSqrt (VectorR3.cross orthoSample
              (VectorR3.Normalize ratSqrt (GetOrthoChoice orthoSample)))) := rfl
    rw [e, hc, hv, hw]
    simp only [VectorR3.Normalize, hn', div_one]
  ⟨hu, hrun, C36_GetOrtho_orthonormal_basis ratSqrt orthoSample hu (by norm_num [ratSqrt])
    (by rw [hc, hn]; norm_num [VectorR3.NormSq])⟩

/-- The second branch of `GetOrtho`, run over `ℚ` on `u = (0,0,1)`: `v = (0,1,0)`
and `w = (-1,0,0)`. -/
theorem GetOrtho_run_second_branch :
    GetOrthoChoice unitZ3 = { x := 0, y := 1, z := 0 } ∧
      GetOrtho ratSqrt unitZ3 = ({ x := 0, y := 1, z := 0 }, { x := -1, y := 0, z := 0 }) := by
  have hc : GetOrthoChoice unitZ3 = { x := 0, y := 1, z := 0 } := by
    norm_num [GetOrthoChoice, unitZ3]
  have hn : VectorR3.Norm ratSqrt ({ x := 0, y := 1, z := 0 } : VectorR3 ℚ) = 1 := by
    norm_num [VectorR3.Norm, VectorR3.NormSq, ratSqrt]
  have hn' : VectorR3.Norm ratSqrt ({ x := -1, y := 0, z := 0 } : VectorR3 ℚ) = 1 := by
    norm_num [VectorR3.Norm, VectorR3.NormSq, ratSqrt]
  have hw : VectorR3.cross unitZ3 ({ x := 0, y := 1, z := 0 } : VectorR3 ℚ)
      = { x := -1, y := 0, z := 0 } := by
    norm_num [VectorR3.cross, unitZ3]
  refine ⟨hc, ?_⟩
  have e : GetOrtho ratSqrt unitZ3
      = (VectorR3.Normalize ratSqrt (GetOrthoChoice unitZ3),
          VectorR3.Normalize ratSqrt (VectorR3.cross unitZ3
            (VectorR3.Normalize ratSqrt (GetOrthoChoice unitZ3)))) := rfl
  have hv : VectorR3.Normalize ratSqrt ({ x := 0, y := 1, z := 0 } : VectorR3 ℚ)
      = { x := 0, y := 1, z := 0 } := by
    simp only [VectorR3.Normalize, hn, div_one]
  rw [e, hc, hv, hw]
  simp only [VectorR3.Normalize, hn', div_one]

/-- Over the reals with the real square root, `GetOrtho` returns an orthonormal
basis for every unit vector `u`. -/
theorem GetOrtho_basis_real (u : VectorR3 ℝ) (hu : VectorR3.NormSq u = 1) :
    VectorR3.NormSq (GetOrtho Real.sqrt u).1 = 1 ∧
      VectorR3.dot u (GetOrtho Real.sqrt u).1 = 0 ∧
      (GetOrtho Real.sqrt u).2 = VectorR3.cross u (GetOrtho Real.sqrt u).1 ∧
      VectorR3.NormSq (GetOrtho Real.sqrt u).2 = 1 :=
  (GetOrtho_basis Real.sqrt u hu Real.sqrt_one
    (Real.mul_self_sqrt (VectorR3.NormSq_nonneg _))).2

/-- The matrix `Set_glFrustum` leaves on a receiver whose `m44` is 0. -/
theorem LinearMapR4.Set_glFrustum_entries (s : LinearMapR4 K)
    (left right bottom top near far : K) (hm44 : s.m44 = 0) (hlr : left ≠ right)
    (hbt : bottom ≠ top) (hnf : near ≠ far) :
    LinearMapR4.Set_glFrustum s left right bottom top near far
      = { m11 := 2 * near / (right - left), m12 := 0,
          m13 := (right + left) / (right - left), m14 := 0,
          m21 := 0, m22 := 2 * near / (top - bottom),
          m23 := (top + bottom) / (top - bottom), m24 := 0,
          m31 := 0, m32 := 0, m33 := -(far + near) / (far - near),
          m34 := -(2 * far * near) / (far - near),
          m41 := 0, m42 := 0, m43 := -1, m44 := 0 } := by
  have h1 : right - left ≠ 0 := sub_ne_zero.mpr (Ne.symm hlr)
  have h2 : top - bottom ≠ 0 := sub_ne_zero.mpr (Ne.symm hbt)
  have h3 : near - far ≠ 0 := sub_ne_zero.mpr hnf
  have h4 : far - near ≠ 0 := sub_ne_zero.mpr (Ne.symm hnf)
  have one : (1.0 : K) = 1 := by norm_num
  have two : (2.0 : K) = 2 := by norm_num
  have zero : (0.0 : K) = 0 := by norm_num
  simp only [LinearMapR4.Set_glFrustum, Matrix4x4.set_m11, Matrix4x4.set_m12,
    Matrix4x4.set_m13, Matrix4x4.set_m14, Matrix4x4.set_m21, Matrix4x4.set_m22,
    Matrix4x4.set_m23, Matrix4x4.set_m24, Matrix4x4.set_m31, Matrix4x4.set_m32,
    Matrix4x4.set_m33, Matrix4x4.set_m34, Matrix4x4.set_m41, Matrix4x4.set_m42,
    Matrix4x4.set_m43, Matrix4x4.set_m44, Matrix4x4.mk.injEq, hm44, one, two, zero,
    true_and, and_true]
  refine ⟨?_, ?_, ?_, ?_, ?_, ?_⟩
  · field_simp
  · field_simp
  · field_simp
  · field_simp
  · field_simp
    ring
  · field_simp
    ring

/-- C37: for every receiver whose `m44` entry is 0 before the call and all
`left ≠ right`, `bottom ≠ top`, `0 < near < far`, the matrix left by `Set_glFrustum`
has the standard glFrustum entries (`m11 = 2·near/(right−left)`,
`m22 = 2·near/(top−bottom)`, `m13 = (right+left)/(right−left)`,
`m23 = (top+bottom)/(top−bottom)`, `m33 = −(far+near)/(far−near)`,
`m34 = −2·far·near/(far−near)`, `m43 = −1`, all others 0), and its homogeneous
product with `(0,0,z,1)` has `w = −z`, and `z/w = −1` at `z = −near` and `+1` at
`z = −far`. -/
theorem C37_Set_glFrustum_standard_entries (s : LinearMapR4 K)
    (left right bottom top near far : K) (hm44 : s.m44 = 0) (hlr : left ≠ right)
    (hbt : bottom ≠ top) (hn : 0 < near) (hnf : near < far) :
    LinearMapR4.Set_glFrustum s left right bottom top near far
        = { m11 := 2 * near / (right - left), m12 := 0,
            m13 := (right + left) / (right - left), m14 := 0,
            m21 := 0, m22 := 2 * near / (top - bottom),
            m23 := (top + bottom) / (top - bottom), m24 := 0,
            m31 := 0, m32 := 0, m33 := -(far + near) / (far - near),
            m34 := -(2 * far * near) / (far - near),
            m41 := 0, m42 := 0, m43 := -1, m44 := 0 } ∧
      (∀ z : K, (Matrix4x4.homogeneousImage
          (LinearMapR4.Set_glFrustum s left right bottom top near far)
          { x := 0, y := 0, z := z }).w = -z) ∧
      (Matrix4x4.homogeneousImage (LinearMapR4.Set_glFrustum s left right bottom top near far)
          { x := 0, y := 0, z := -near }).z
        / (Matrix4x4.homogeneousImage
            (LinearMapR4.Set_glFrustum s left right bottom top near far)
            { x := 0, y := 0, z := -near }).w = -1 ∧
      (Matrix4x4.homogeneousImage (LinearMapR4.Set_glFrustum s left right bottom top near far)
          { x := 0, y := 0, z := -far }).z
        / (Matrix4x4.homogeneousImage
            (LinearMapR4.Set_glFrustum s left right bottom top near far)
            { x := 0, y := 0, z := -far }).w = 1 := by
  have hne : near ≠ far := hnf.ne
  have h4 : far - near ≠ 0 := sub_ne_zero.mpr (Ne.symm hne)
  have hn0 : near ≠ 0 := hn.ne.symm
  have hf0 : far ≠ 0 := (lt_trans hn hnf).ne.symm
  have hM := LinearMapR4.Set_glFrustum_entries s left right bottom top near far hm44 hlr hbt hne
  rw [hM]
  refine ⟨rfl, ?_, ?_, ?_⟩
  · intro z
    simp only [Matrix4x4.homogeneousImage]
    ring
  · simp only [Matrix4x4.homogeneousImage]
    field_simp
    ring
  · simp only [Matrix4x4.homogeneousImage]
    field_simp
    ring

/-- C37 run on the zero receiver with `Set_glFrustum(-1, 1, -1, 1, 1, 3)`. -/
theorem C37_Set_glFrustum_standard_entries_witness :
    (Matrix4x4.Zero : Matrix4x4 ℚ).m44 = 0 ∧ (-1 : ℚ) ≠ 1 ∧ (0 : ℚ) < 1 ∧ (1 : ℚ) < 3 ∧
      LinearMapR4.Set_glFrustum (Matrix4x4.Zero : Matrix4x4 ℚ) (-1) 1 (-1) 1 1 3
        = { m11 := 2 * 1 / (1 - -1), m12 := 0,
            m13 := (1 + -1) / (1 - -1), m14 := 0,
            m21 := 0, m22 := 2 * 1 / (1 - -1),
            m23 := (1 + -1) / (1 - -1), m24 := 0,
            m31 := 0, m32 := 0, m33 := -(3 + 1) / (3 - 1),
            m34 := -(2 * 3 * 1) / (3 - 1),
            m41 := 0, m42 := 0, m43 := -1, m44 := 0 } ∧
      (∀ z : ℚ, (Matrix4x4.homogeneousImage
          (LinearMapR4.Set_glFrustum (Matrix4x4.Zero : Matrix4x4 ℚ) (-1) 1 (-1) 1 1 3)
          { x := 0, y := 0, z := z }).w = -z) ∧
      (Matrix4x4.homogeneousImage
          (LinearMapR4.Set_glFrustum (Matrix4x4.Zero : Matrix4x4 ℚ) (-1) 1 (-1) 1 1 3)
          { x := 0, y := 0, z := -1 }).z
        / (Matrix4x4.homogeneousImage
            (LinearMapR4.Set_glFrustum (Matrix4x4.Zero : Matrix4x4 ℚ) (-1) 1 (-1) 1 1 3)
            { x := 0, y := 0, z := -1 }).w = -1 ∧
      (Matrix4x4.homogeneousImage
          (LinearMapR4.Set_glFrustum (Matrix4x4.Zero : Matrix4x4 ℚ) (-1) 1 (-1) 1 1 3)
          { x := 0, y := 0, z := -3 }).z
        / (Matrix4x4.homogeneousImage
            (LinearMapR4.Set_glFrustum (Matrix4x4.Zero : Matrix4x4 ℚ) (-1) 1 (-1) 1 1 3)
            { x := 0, y := 0, z := -3 }).w = 1 :=
  ⟨rfl, by norm_num, by norm_num, by norm_num,
    C37_Set_glFrustum_standard_entries Matrix4x4.Zero (-1) 1 (-1) 1 1 3 rfl (by norm_num)
      (by norm_num) (by norm_num) (by norm_num)⟩

/-- The conversion `(int)x` of a non-negative `x` below `2^31` is its floor. -/
theorem castToInt_of_nonneg [FloorRing K] (x : K) (h0 : 0 ≤ x) (h1 : x < 2147483648) :
    castToInt x = some (Int.floor x) := by
  have hf0 : 0 ≤ Int.floor x := Int.floor_nonneg.mpr h0
  have hf1 : Int.floor x < 2147483648 := by
    have : ((Int.floor x : ℤ) : K) < ((2147483648 : ℤ) : K) := by
      push_cast
      exact lt_of_le_of_lt (Int.floor_le x) h1
    exact Int.cast_lt.mp this
  unfold castToInt
  simp only [if_pos h0]
  rw [if_pos]
  constructor <;> omega

/-- The product of two `int`s is exact when it lies in the range of `int`. -/
theorem intMul_of_inRange (a b : ℤ) (h0 : -2147483648 ≤ a * b) (h1 : a * b ≤ 2147483647) :
    intMul a b = a * b := by
  unfold intMul
  generalize a * b = n at h0 h1
  omega

/-- The statement `t = t - ((int)(t / m)) * m` wraps `t` into `[0, m)` when
`0 ≤ t < 2^31`. -/
theorem wrapBack_spec [FloorRing K] (t : K) (m : ℤ) (hm : 0 < m) (h0 : 0 ≤ t)
    (h1 : t < 2147483648) :
    ∃ r : K, wrapBack t m = some r ∧ 0 ≤ r ∧ r < (m : K) := by
  have hmK : (0 : K) < (m : K) := Int.cast_pos.mpr hm
  have hq0 : 0 ≤ t / (m : K) := div_nonneg h0 hmK.le
  have hle : t / (m : K) ≤ t := by
    have h1m : (1 : K) ≤ (m : K) := by exact_mod_cast hm
    exact div_le_self h0 h1m
  have hq1 : t / (m : K) < 2147483648 := lt_of_le_of_lt hle h1
  have hc := castToInt_of_nonneg (t / (m : K)) hq0 hq1
  have hfl : ((Int.floor (t / (m : K)) : ℤ) : K) * (m : K) ≤ t :=
    (le_div_iff₀ hmK).mp (Int.floor_le _)
  have hfu : t < (((Int.floor (t / (m : K)) : ℤ) : K) + 1) * (m : K) :=
    (div_lt_iff₀ hmK).mp (Int.lt_floor_add_one _)
  have hf0 : 0 ≤ Int.floor (t / (m : K)) := Int.floor_nonneg.mpr hq0
  have hp0 : 0 ≤ Int.floor (t / (m : K)) * m := mul_nonneg hf0 hm.le
  have hp1 : Int.floor (t / (m : K)) * m < 2147483648 := by
    have : ((Int.floor (t / (m : K)) * m : ℤ) : K) < ((2147483648 : ℤ) : K) := by
      push_cast
      exact lt_of_le_of_lt hfl h1
    exact Int.cast_lt.mp this
  have hmul : intMul (Int.floor (t / (m : K))) m = Int.floor (t / (m : K)) * m :=
    intMul_of_inRange _ _ (by omega) (by omega)
  refine ⟨t - ((Int.floor (t / (m : K)) * m : ℤ) : K), ?_, ?_, ?_⟩
  · simp only [wrapBack, hc, hmul]
  · push_cast
    linarith
  · push_cast
    linarith

/-- The update step on a running clock: the three sums before wrapping, and the
result in terms of the three `wrapBack`s. -/
theorem myRenderScene_of_wrapBack [FloorRing K] (st : ClockState K) (curTime h d p : K)
    (hspin : st.spinMode = true)
    (hh : wrapBack (st.HourOfDay + thisAnimateIncrement st curTime) 24 = some h)
    (hd : wrapBack (st.DayOfYear + thisAnimateIncrement st curTime / 24.0) 365 = some d)
    (hp : wrapBack (st.DayOfPlanetXYear + thisAnimateIncrement st curTime / 39.45) 600
      = some p) :
    ∃ st', myRenderScene st curTime = some st' ∧ st'.HourOfDay = h ∧ st'.DayOfYear = d ∧
      st'.DayOfPlanetXYear = p := by
  unfold thisAnimateIncrement at hh hd hp
  unfold myRenderScene
  rw [if_pos hspin]
  by_cases hrt : (st.UseRealTime && !st.singleStep) = true
  · simp only [hrt, if_true] at hh hd hp ⊢
    simp only [hh, hd, hp, Option.some_bind, Option.bind_some]
    by_cases hs : st.singleStep = true
    · simp [hs]
    · simp [hs]
  · rw [Bool.not_eq_true] at hrt
    simp only [hrt, Bool.false_eq_true, if_false] at hh hd hp ⊢
    simp only [hh, hd, hp, Option.some_bind, Option.bind_some]
    by_cases hs : st.singleStep = true
    · simp [hs]
    · simp [hs]

/-- The update step keeps the clock wrapped when the three sums it wraps are below
`2^31`, so that neither the conversions `(int)` nor the `int` products overflow. -/
theorem myRenderScene_stays_wrapped [FloorRing K] (st : ClockState K) (curTime : K)
    (hw : ClockState.Wrapped st) (hinc : 0 ≤ thisAnimateIncrement st curTime)
    (hH : st.HourOfDay + thisAnimateIncrement st curTime < 2147483648)
    (hD : st.DayOfYear + thisAnimateIncrement st curTime / 24.0 < 2147483648)
    (hP : st.DayOfPlanetXYear + thisAnimateIncrement st curTime / 39.45 < 2147483648) :
    ∃ st', myRenderScene st curTime = some st' ∧ ClockState.Wrapped st' := by
  by_cases hspin : st.spinMode = true
  · obtain ⟨⟨hH0, -⟩, ⟨hD0, -⟩, ⟨hP0, -⟩⟩ := hw
    have i24 : 0 ≤ thisAnimateIncrement st curTime / 24.0 := div_nonneg hinc (by norm_num)
    have i39 : 0 ≤ thisAnimateIncrement st curTime / 39.45 := div_nonneg hinc (by norm_num)
    obtain ⟨h, hh, hh0, hh1⟩ := wrapBack_spec (st.HourOfDay + thisAnimateIncrement st curTime)
      24 (by norm_num) (add_nonneg hH0 hinc) hH
    obtain ⟨d, hd, hd0, hd1⟩ := wrapBack_spec
      (st.DayOfYear + thisAnimateIncrement st curTime / 24.0) 365 (by norm_num)
      (add_nonneg hD0 i24) hD
    obtain ⟨p, hp, hp0, hp1⟩ := wrapBack_spec
      (st.DayOfPlanetXYear + thisAnimateIncrement st curTime / 39.45) 600 (by norm_num)
      (add_nonneg hP0 i39) hP
    obtain ⟨st', hst, e1, e2, e3⟩ := myRenderScene_of_wrapBack st curTime h d p hspin hh hd hp
    refine ⟨st', hst, ?_⟩
    unfold ClockState.Wrapped
    rw [e1, e2, e3]
    push_cast at hh1 hd1 hp1
    exact ⟨⟨hh0, hh1⟩, ⟨hd0, hd1⟩, ⟨hp0, hp1⟩⟩
  · refine ⟨st, ?_, hw⟩
    unfold myRenderScene
    rw [if_neg hspin]

/-- The update step at program start: one day passes. -/
theorem myRenderScene_startClock :
    ClockState.Wrapped startClock ∧
      ∃ st', myRenderScene startClock 0 = some st' ∧ ClockState.Wrapped st' :=
  have hw : ClockState.Wrapped startClock := by
    norm_num [ClockState.Wrapped, startClock]
  have hi : thisAnimateIncrement startClock 0 = 24 := by
    simp [thisAnimateIncrement, startClock]
  ⟨hw, myRenderScene_stays_wrapped startClock 0 hw (by rw [hi]; norm_num)
    (by rw [hi]; norm_num [startClock]) (by rw [hi]; norm_num [startClock])
    (by rw [hi]; norm_num [startClock])⟩

/-- C40 (fails on the code): on `fastClock` (the start state with
`AnimateIncrement = 24·2^27 = 3221225472`, reached by 27 presses of the `UP` key)
the clock is wrapped before the step, the time increment is non-negative and the
three quotients `134217728`, `367719` and `136088` are within `int` range; but the
`int` product `134217728 * 24` overflows (it is `-1073741824` in 32 bits), and the
step leaves `HourOfDay = 4294967296`, which is not in `[0,24)`. -/
theorem C40_clock_escapes_on_int_overflow :
    ClockState.Wrapped fastClock ∧ 0 ≤ thisAnimateIncrement fastClock 0 ∧
      castToInt ((fastClock.HourOfDay + thisAnimateIncrement fastClock 0) / 24)
        = some 134217728 ∧
      castToInt ((fastClock.DayOfYear + thisAnimateIncrement fastClock 0 / 24.0) / 365)
        = some 367719 ∧
      castToInt ((fastClock.DayOfPlanetXYear + thisAnimateIncrement fastClock 0 / 39.45) / 600)
        = some 136088 ∧
      intMul 134217728 24 = -1073741824 ∧
      ∃ st', myRenderScene fastClock 0 = some st' ∧ st'.HourOfDay = 4294967296 ∧
        st'.DayOfYear = 293 ∧ ¬ ClockState.Wrapped st' := by
  have hi : thisAnimateIncrement fastClock 0 = 3221225472 := by
    simp [thisAnimateIncrement, fastClock]
  have hH : fastClock.HourOfDay = 0 := rfl
  have hD : fastClock.DayOfYear = 0 := rfl
  have hP : fastClock.DayOfPlanetXYear = 0 := rfl
  have f1 : Int.floor ((0 + 3221225472 : ℚ) / 24) = 134217728 := by
    rw [Int.floor_eq_iff]
    constructor <;> norm_num
  have f2 : Int.floor ((0 + 3221225472 / 24.0 : ℚ) / 365) = 367719 := by
    rw [Int.floor_eq_iff]
    constructor <;> norm_num
  have f3 : Int.floor ((0 + 3221225472 / 39.45 : ℚ) / 600) = 136088 := by
    rw [Int.floor_eq_iff]
    constructor <;> norm_num
  have c1 : castToInt ((0 + 3221225472 : ℚ) / 24) = some 134217728 := by
    rw [castToInt_of_nonneg _ (by norm_num) (by norm_num), f1]
  have c2 : castToInt ((0 + 3221225472 / 24.0 : ℚ) / 365) = some 367719 := by
    rw [castToInt_of_nonneg _ (by norm_num) (by norm_num), f2]
  have c3 : castToInt ((0 + 3221225472 / 39.45 : ℚ) / 600) = some 136088 := by
    rw [castToInt_of_nonneg _ (by norm_num) (by norm_num), f3]
  have m1 : intMul 134217728 24 = -1073741824 := by norm_num [intMul]
  have m2 : intMul 367719 365 = 134217435 := by norm_num [intMul]
  have m3 : intMul 136088 600 = 81652800 := by norm_num [intMul]
  have w1 : wrapBack (fastClock.HourOfDay + thisAnimateIncrement fastClock 0) 24
      = some 4294967296 := by
    rw [hi, hH]
    have e : ((24 : ℤ) : ℚ) = 24 := by norm_num
    simp only [wrapBack, e, c1, m1]
    norm_num
  have w2 : wrapBack (fastClock.DayOfYear + thisAnimateIncrement fastClock 0 / 24.0) 365
      = some 293 := by
    rw [hi, hD]
    have e : ((365 : ℤ) : ℚ) = 365 := by norm_num
    simp only [wrapBack, e, c2, m2]
    norm_num
  have w3 : wrapBack (fastClock.DayOfPlanetXYear + thisAnimateIncrement fastClock 0 / 39.45)
      600 = some (3221225472 / 39.45 - 81652800) := by
    rw [hi, hP]
    have e : ((600 : ℤ) : ℚ) = 600 := by norm_num
    simp only [wrapBack, e, c3, m3]
    norm_num
  obtain ⟨st', hst, e1, e2, -⟩ := myRenderScene_of_wrapBack fastClock 0 _ _ _ rfl w1 w2 w3
  refine ⟨by norm_num [ClockState.Wrapped, fastClock], by rw [hi]; norm_num, ?_, ?_, ?_, m1,
    st', hst, e1, e2, ?_⟩
  · rw [hi, hH]
    exact c1
  · rw [hi, hD]
    exact c2
  · rw [hi, hP]
    exact c3
  · intro hw
    have := hw.1.2
    rw [e1] at this
    norm_num at this

/-- With both roundings the identity the rounded routine, its assertions and its
divisors are those of exact arithmetic. -/
theorem LinearMapR3.InvertPosDefSafeRounded_exact (s : LinearMapR3 K) :
    LinearMapR3.InvertPosDefSafeRounded id id s = LinearMapR3.InvertPosDefSafe s ∧
      LinearMapR3.InvertPosDefSafeRoundedDivisors id id s
        = LinearMapR3.InvertPosDefSafeDivisors s ∧
      (LinearMapR3.InvertPosDefSafeRoundedAsserts id id s
        ↔ LinearMapR3.InvertPosDefSafeAsserts s) := by
  have one : (1.0 : K) = 1 := by norm_num
  have zero : (0.0 : K) = 0 := by norm_num
  refine ⟨?_, ?_, ?_⟩
  · simp only [LinearMapR3.InvertPosDefSafeRounded, LinearMapR3.InvertPosDefSafe, id_eq, one]
  · simp only [LinearMapR3.InvertPosDefSafeRoundedDivisors,
      LinearMapR3.InvertPosDefSafeDivisors, id_eq, one]
  · simp only [LinearMapR3.InvertPosDefSafeRoundedAsserts,
      LinearMapR3.InvertPosDefSafeAsserts, id_eq, one, zero]

/-- Without the assertions: when the rounded `epsilon` is positive, the three
divisors of `InvertPosDefSafe` are at least `epsilon` and positive, whatever the
other operations round to. -/
theorem LinearMapR3.InvertPosDefSafeRoundedDivisors_of_eps_pos (rndEps rnd : K → K)
    (s : LinearMapR3 K) (h : 0 < LinearMapR3.InvertPosDefSafeRoundedEpsilon rndEps rnd s) :
    LinearMapR3.InvertPosDefSafeRoundedEpsilon rndEps rnd s
        ≤ (LinearMapR3.InvertPosDefSafeRoundedDivisors rndEps rnd s).1 ∧
      LinearMapR3.InvertPosDefSafeRoundedEpsilon rndEps rnd s
        ≤ (LinearMapR3.InvertPosDefSafeRoundedDivisors rndEps rnd s).2.1 ∧
      LinearMapR3.InvertPosDefSafeRoundedEpsilon rndEps rnd s
        ≤ (LinearMapR3.InvertPosDefSafeRoundedDivisors rndEps rnd s).2.2 ∧
      0 < (LinearMapR3.InvertPosDefSafeRoundedDivisors rndEps rnd s).1 ∧
      0 < (LinearMapR3.InvertPosDefSafeRoundedDivisors rndEps rnd s).2.1 ∧
      0 < (LinearMapR3.InvertPosDefSafeRoundedDivisors rndEps rnd s).2.2 :=
  ⟨le_Max_left _ _, le_Max_left _ _, le_Max_left _ _, lt_of_lt_of_le h (le_Max_left _ _),
    lt_of_lt_of_le h (le_Max_left _ _), lt_of_lt_of_le h (le_Max_left _ _)⟩

/-- For a monotone rounding that is exact on zero, `x * rnd (x * d)` is not
negative when `d` is not. -/
theorem mul_rnd_mul_nonneg (rnd : K → K) (hmono : ∀ x y : K, x ≤ y → rnd x ≤ rnd y)
    (hzero : rnd 0 = 0) (x d : K) (hd : 0 ≤ d) : 0 ≤ x * rnd (x * d) := by
  rcases le_total 0 x with hx | hx
  · have h := hmono 0 (x * d) (mul_nonneg hx hd)
    rw [hzero] at h
    exact mul_nonneg hx h
  · have h := hmono (x * d) 0 (mul_nonpos_iff.mpr (Or.inr ⟨hx, hd⟩))
    rw [hzero] at h
    exact mul_nonneg_iff.mpr (Or.inr ⟨hx, h⟩)

/-- For a monotone rounding that is exact on zero, `x * rnd (-x * d)` is not
positive when `d` is not negative. -/
theorem mul_rnd_neg_mul_nonpos (rnd : K → K) (hmono : ∀ x y : K, x ≤ y → rnd x ≤ rnd y)
    (hzero : rnd 0 = 0) (x d : K) (hd : 0 ≤ d) : x * rnd (-x * d) ≤ 0 := by
  have h := mul_rnd_mul_nonneg rnd hmono hzero (-x) d hd
  linarith

/-- The three diagonal entries the routine assembles from positive rounded
reciprocals `e1`, `e2`, `e3` are positive, for a monotone rounding that is exact on
zero and on rounded values. -/
theorem rounded_diagonal_pos (rnd : K → K) (hmono : ∀ x y : K, x ≤ y → rnd x ≤ rnd y)
    (hzero : rnd 0 = 0) (hidem : ∀ x : K, rnd (rnd x) = rnd x) (e1 e2 e3 a c acminusb : K)
    (h1 : 0 < rnd e1) (h2 : 0 < rnd e2) (h3 : 0 < rnd e3) :
    0 < rnd (rnd (rnd e1 + rnd (a * rnd (a * rnd e2)))
          + rnd (acminusb * rnd (acminusb * rnd e3))) ∧
      0 < rnd (rnd e2 - rnd (c * rnd (-c * rnd e3))) := by
  have p1 : 0 ≤ rnd (a * rnd (a * rnd e2)) := by
    have h := hmono 0 _ (mul_rnd_mul_nonneg rnd hmono hzero a (rnd e2) h2.le)
    rwa [hzero] at h
  have p2 : 0 ≤ rnd (acminusb * rnd (acminusb * rnd e3)) := by
    have h := hmono 0 _ (mul_rnd_mul_nonneg rnd hmono hzero acminusb (rnd e3) h3.le)
    rwa [hzero] at h
  have p3 : rnd (c * rnd (-c * rnd e3)) ≤ 0 := by
    have h := hmono _ 0 (mul_rnd_neg_mul_nonpos rnd hmono hzero c (rnd e3) h3.le)
    rwa [hzero] at h
  have q1 : rnd e1 ≤ rnd (rnd e1 + rnd (a * rnd (a * rnd e2))) := by
    have h := hmono (rnd e1) (rnd e1 + rnd (a * rnd (a * rnd e2))) (by linarith)
    rwa [hidem] at h
  have q2 : rnd (rnd e1 + rnd (a * rnd (a * rnd e2)))
      ≤ rnd (rnd (rnd e1 + rnd (a * rnd (a * rnd e2)))
          + rnd (acminusb * rnd (acminusb * rnd e3))) := by
    have h := hmono (rnd (rnd e1 + rnd (a * rnd (a * rnd e2))))
      (rnd (rnd e1 + rnd (a * rnd (a * rnd e2)))
        + rnd (acminusb * rnd (acminusb * rnd e3))) (by linarith)
    rwa [hidem] at h
  have q3 : rnd e2 ≤ rnd (rnd e2 - rnd (c * rnd (-c * rnd e3))) := by
    have h := hmono (rnd e2) (rnd e2 - rnd (c * rnd (-c * rnd e3))) (by linarith)
    rwa [hidem] at h
  exact ⟨lt_of_lt_of_le h1 (le_trans q1 q2), lt_of_lt_of_le h2 q3⟩

/-- The diagonal of the matrix left by `InvertPosDefSafe` is positive when the three
rounded reciprocals are, for a monotone rounding that is exact on zero and on
rounded values. -/
theorem LinearMapR3.InvertPosDefSafeRounded_diagonal_pos (rndEps rnd : K → K)
    (M : LinearMapR3 K) (hmono : ∀ x y : K, x ≤ y → rnd x ≤ rnd y) (hzero : rnd 0 = 0)
    (hidem : ∀ x : K, rnd (rnd x) = rnd x)
    (h1 : 0 < rnd (1.0 / (LinearMapR3.InvertPosDefSafeRoundedDivisors rndEps rnd M).1))
    (h2 : 0 < rnd (1.0 / (LinearMapR3.InvertPosDefSafeRoundedDivisors rndEps rnd M).2.1))
    (h3 : 0 < rnd (1.0 / (LinearMapR3.InvertPosDefSafeRoundedDivisors rndEps rnd M).2.2)) :
    0 < (LinearMapR3.InvertPosDefSafeRounded rndEps rnd M).m11 ∧
      0 < (LinearMapR3.InvertPosDefSafeRounded rndEps rnd M).m22 ∧
      0 < (LinearMapR3.InvertPosDefSafeRounded rndEps rnd M).m33 := by
  obtain ⟨a, b⟩ := rounded_diagonal_pos rnd hmono hzero hidem _ _ _
    (LinearMapR3.InvertPosDefSafeRoundedMultipliers rndEps rnd M).1
    (LinearMapR3.InvertPosDefSafeRoundedMultipliers rndEps rnd M).2.1
    (LinearMapR3.InvertPosDefSafeRoundedMultipliers rndEps rnd M).2.2 h1 h2 h3
  exact ⟨a, b, h3⟩

/-- The stand-in `flushToZero` is a rounding of the kind the statements about
`InvertPosDefSafeRounded` ask for: monotone, exact on zero and on its own values. -/
theorem flushToZero_rounding :
    (∀ x y : ℚ, x ≤ y → flushToZero x ≤ flushToZero y) ∧ flushToZero 0 = 0 ∧
      ∀ x : ℚ, flushToZero (flushToZero x) = flushToZero x := by
  have hθ : (0 : ℚ) < 1 / 2 ^ 1075 := by positivity
  refine ⟨fun x y hxy => ?_, ?_, fun x => ?_⟩
  · unfold flushToZero
    split_ifs with hx hy hy
    · exact le_refl 0
    · rcases le_abs'.mp (not_lt.mp hy) with h | h
      · linarith [(abs_lt.mp hx).1]
      · linarith
    · rcases le_abs'.mp (not_lt.mp hx) with h | h
      · linarith
      · linarith [(abs_lt.mp hy).2]
    · exact hxy
  · unfold flushToZero
    rw [if_pos]
    rw [abs_zero]
    exact hθ
  · unfold flushToZero
    by_cases hx : |x| < 1 / 2 ^ 1075
    · rw [if_pos hx, if_pos (by rw [abs_zero]; exact hθ)]
    · rw [if_neg hx, if_neg hx]

/-- The matrix left by `InvertPosDefSafe` on `samplePosDef` when every operation is
followed by the stand-in rounding `flushToZero`: the diagonal is positive. -/
theorem InvertPosDefSafeRounded_flushToZero_run :
    LinearMapR3.InvertPosDefSafeRounded flushToZero flushToZero samplePosDef
        = { m11 := 3 / 4, m12 := -1 / 2, m13 := 1 / 4,
            m21 := -1 / 2, m22 := 1, m23 := -1 / 2,
            m31 := 1 / 4, m32 := -1 / 2, m33 := 3 / 4 } ∧
      0 < (LinearMapR3.InvertPosDefSafeRounded flushToZero flushToZero samplePosDef).m11 ∧
      0 < (LinearMapR3.InvertPosDefSafeRounded flushToZero flushToZero samplePosDef).m22 ∧
      0 < (LinearMapR3.InvertPosDefSafeRounded flushToZero flushToZero samplePosDef).m33 := by
  have hd : LinearMapR3.InvertPosDefSafeRoundedDivisors flushToZero flushToZero samplePosDef
      = (2, 3 / 2, 4 / 3) := by
    norm_num [LinearMapR3.InvertPosDefSafeRoundedDivisors, flushToZero, Max, samplePosDef,
      abs_of_pos]
  refine ⟨?_, LinearMapR3.InvertPosDefSafeRounded_diagonal_pos flushToZero flushToZero
    samplePosDef flushToZero_rounding.1 flushToZero_rounding.2.1 flushToZero_rounding.2.2
    ?_ ?_ ?_⟩
  · norm_num [LinearMapR3.InvertPosDefSafeRounded, flushToZero, Max, samplePosDef, abs_of_pos,
      abs_of_neg]
  · rw [hd]
    norm_num [flushToZero, abs_of_pos]
  · rw [hd]
    norm_num [flushToZero, abs_of_pos]
  · rw [hd]
    norm_num [flushToZero, abs_of_pos]

end SolarSystem
